import Mathlib

/-!
# The statistics engine, the trajectory loader and the molecule utilities of viamd

A shallow embedding of the property / group statistics engine
(src/stats/stats.cpp, namespace stats), of the trajectory loader
(src/loader.cpp, namespace load) and of the functions compute_bounding_box,
compute_atomic_bonds and compute_chains of src/mol/molecule_utils.cpp.

* Arrays (Array, DynamicArray) are lists; a pointer into an array is an
  offset from its first element.
* The engine's global context is passed and returned explicitly.
* A run that trips an ASSERT, dereferences a null pointer or reads outside an
  array has no result: the operation returns none.
* float is an arbitrary numeric type, of which only the operations are used;
  int32 indices and offsets are integers, counts are natural numbers. The
  engine does no arithmetic on ids. The cast of a float to int32 has a result
  only when the integer part of the float is an int32.
* hash::crc64, compare, ctokenize, to_int32 and the math helpers live in
  headers outside the source tree and are the fields of an environment; a
  concrete environment is given for evaluating the engine on examples.
* In the loader, ASSERT ends the run only when assertions are compiled in,
  which a field of the library record says; the decoders, the frame cache and
  the helpers of the library around the loader are fields of this record, and
  the calls into the decoders and the cache are recorded in the state.
* In compute_chains, whether ASSERT is compiled in is a parameter; an array
  that converts to false in a condition is none.
-/

namespace stats

/-! ## Basic types (stats.h) -/

/-- Identifiers are uint64 hashes. -/
abbrev ID := Nat

/-- The constant INVALID_ID of stats.h. -/
def INVALID_ID : ID := 0

/-- A CString is a character range; the model keeps its characters. -/
abbrev CString := String

/-- The enum PropertyType of stats.h. -/
inductive PropertyType where
  | INTER
  | INTRA
deriving DecidableEq, Repr

/-- A Structure is the atom range from beg_atom_idx up to end_atom_idx (excluded). -/
structure Structure where
  beg_atom_idx : Int := 0
  end_atom_idx : Int := 0
deriving DecidableEq, Repr

/-- Three-component vector (vec3). -/
structure vec3 (α : Type) where
  x : α
  y : α
  z : α
deriving DecidableEq, Repr

instance vec3.instSub {α : Type} [Sub α] : Sub (vec3 α) :=
  ⟨fun a b => ⟨a.x - b.x, a.y - b.y, a.z - b.z⟩⟩

/-- The fields of a Residue that the engine reads. -/
structure Residue where
  name : CString
  beg_atom_idx : Int
  end_atom_idx : Int
deriving DecidableEq, Repr

/-- The part of MoleculeStructure that the engine reads: its residues. -/
structure MoleculeStructure where
  residues : List Residue
deriving DecidableEq, Repr

/-- One frame of a trajectory: the positions of the atoms. -/
structure TrajectoryFrame (α : Type) where
  atom_positions : List (vec3 α)
deriving DecidableEq, Repr

/-- The part of Trajectory that the engine reads. -/
structure Trajectory (α : Type) where
  num_frames : Nat
  frame_buffer : List (TrajectoryFrame α)
deriving DecidableEq, Repr

/-- MoleculeDynamic holds two pointers, each of which may be null. -/
structure MoleculeDynamic (α : Type) where
  molecule : Option MoleculeStructure
  trajectory : Option (Trajectory α)
deriving DecidableEq, Repr

/-- A token of ctokenize: a character range of the tokenized string, from
offset beg up to offset stop (excluded). -/
structure Token where
  beg : Nat
  stop : Nat
deriving DecidableEq, Repr

/-- The helpers of core/hash.h, core/string_utils.h and core/math_utils.h
that stats.cpp calls; their sources are outside the tree. -/
structure Env (α : Type) where
  crc64 : CString → ID
  compare : CString → CString → Bool
  ctokenize : CString → List Token
  to_int32 : CString → Option Int
  distance : vec3 α → vec3 α → α
  angle : vec3 α → vec3 α → α
  dihedral_angle : vec3 α → vec3 α → vec3 α → vec3 α → α
  FLT_MAX : α
  PI : α

/-- The macro COMPUTE_ID. -/
def COMPUTE_ID {α : Type} (E : Env α) (x : CString) : ID := E.crc64 x

/-- The characters of s from offset b up to offset e (excluded). -/
def substr (s : CString) (b e : Nat) : CString :=
  String.mk ((s.data.drop b).take (e - b))

/-- The tokens of a string as an array of CStrings. -/
def tokens {α : Type} (E : Env α) (s : CString) : List CString :=
  (E.ctokenize s).map (fun t => substr s t.beg t.stop)

/-! ## Loops and array accesses -/

/-- The loop for (i = start; i < start + n; i++) over a state; a failing
body ends the run. -/
def for_range {σ : Type} (body : Nat → σ → Option σ) : Nat → Nat → σ → Option σ
  | _, 0, s => some s
  | i, n + 1, s => (body i s).bind (for_range body (i + 1) n)

/-- Element read xs[i] with an int32 index. -/
def load {β : Type} (xs : List β) (i : Int) : Option β :=
  if 0 ≤ i then xs[i.toNat]? else none

/-- Element write data[i] = v. -/
def store {β : Type} (data : List β) (i : Nat) (v : β) : Option (List β) :=
  if i < data.length then some (data.set i v) else none

/-- The type PropertyComputeFunc: the function receives the buffer data and
returns its success flag together with the buffer as it left it. -/
abbrev PropertyComputeFunc (α : Type) :=
  List α → List CString → MoleculeDynamic α → Structure → Option (Bool × List α)

/-- The type StructureExtractFunc. -/
abbrev StructureExtractFunc := List CString → MoleculeStructure → List Structure

/-! ## Built-in commands -/

/-- The position of atom number atom in frame i of the trajectory. -/
def atom_position {α : Type} (traj : Trajectory α) (i : Nat) (atom : Int) :
    Option (vec3 α) :=
  (traj.frame_buffer[i]?).bind (fun frame => load frame.atom_positions atom)

/-- The function compute_atomic_distance. -/
def compute_atomic_distance {α : Type} (E : Env α) (data : List α) (args : List CString)
    (dynamic : MoleculeDynamic α) (group_struct : Structure) : Option (Bool × List α) :=
  if args.length ≠ 2 then some (false, data)
  else if group_struct.beg_atom_idx = group_struct.end_atom_idx then some (false, data)
  else do
    let int_a := E.to_int32 (← args[0]?)
    let int_b := E.to_int32 (← args[1]?)
    match int_a, int_b with
    | some a, some b =>
      let atom_a := group_struct.beg_atom_idx + a
      let atom_b := group_struct.beg_atom_idx + b
      let traj ← dynamic.trajectory
      let count := traj.num_frames
      let data ← for_range (fun i data => do
        let pos_a ← atom_position traj i atom_a
        let pos_b ← atom_position traj i atom_b
        store data i (E.distance pos_a pos_b)) 0 count data
      some (true, data)
    | _, _ => some (false, data)

/-- The function compute_atomic_angle. -/
def compute_atomic_angle {α : Type} [Sub α] (E : Env α) (data : List α) (args : List CString)
    (dynamic : MoleculeDynamic α) (group_struct : Structure) : Option (Bool × List α) :=
  if args.length ≠ 3 then some (false, data)
  else if group_struct.beg_atom_idx = group_struct.end_atom_idx then some (false, data)
  else do
    let int_a := E.to_int32 (← args[0]?)
    let int_b := E.to_int32 (← args[1]?)
    let int_c := E.to_int32 (← args[2]?)
    match int_a, int_b, int_c with
    | some a, some b, some c =>
      let atom_a := group_struct.beg_atom_idx + a
      let atom_b := group_struct.beg_atom_idx + b
      let atom_c := group_struct.beg_atom_idx + c
      let traj ← dynamic.trajectory
      let count := traj.num_frames
      let data ← for_range (fun i data => do
        let pos_a ← atom_position traj i atom_a
        let pos_b ← atom_position traj i atom_b
        let pos_c ← atom_position traj i atom_c
        store data i (E.angle (pos_a - pos_b) (pos_c - pos_b))) 0 count data
      some (true, data)
    | _, _, _ => some (false, data)

/-- The function compute_atomic_dihedral; int_d is converted from args[2],
as in the source. -/
def compute_atomic_dihedral {α : Type} (E : Env α) (data : List α) (args : List CString)
    (dynamic : MoleculeDynamic α) (group_struct : Structure) : Option (Bool × List α) :=
  if args.length ≠ 4 then some (false, data)
  else if group_struct.beg_atom_idx = group_struct.end_atom_idx then some (false, data)
  else do
    let int_a := E.to_int32 (← args[0]?)
    let int_b := E.to_int32 (← args[1]?)
    let int_c := E.to_int32 (← args[2]?)
    let int_d := E.to_int32 (← args[2]?)
    match int_a, int_b, int_c, int_d with
    | some a, some b, some c, some d =>
      let atom_a := group_struct.beg_atom_idx + a
      let atom_b := group_struct.beg_atom_idx + b
      let atom_c := group_struct.beg_atom_idx + c
      let atom_d := group_struct.beg_atom_idx + d
      let traj ← dynamic.trajectory
      let count := traj.num_frames
      let data ← for_range (fun i data => do
        let pos_a ← atom_position traj i atom_a
        let pos_b ← atom_position traj i atom_b
        let pos_c ← atom_position traj i atom_c
        let pos_d ← atom_position traj i atom_d
        store data i (E.dihedral_angle pos_a pos_b pos_c pos_d)) 0 count data
      some (true, data)
    | _, _, _, _ => some (false, data)

/-- The function match_by_resname: for each residue, for each argument, one
push when the names compare equal. -/
def match_by_resname {α : Type} (E : Env α) (args : List CString) (mol : MoleculeStructure) :
    List Structure :=
  mol.residues.foldl (fun result res =>
    args.foldl (fun result arg =>
      if E.compare res.name arg then result ++ [⟨res.beg_atom_idx, res.end_atom_idx⟩]
      else result) result) []

/-! ## Engine state -/

/-- The struct PropertyCommand. -/
structure PropertyCommand (α : Type) where
  id : ID
  func : PropertyComputeFunc α
  val_range : α × α
  type : PropertyType
  periodic : Bool
  unit : CString

/-- The struct GroupCommand. -/
structure GroupCommand where
  id : ID
  func : StructureExtractFunc

/-- The struct Property. -/
structure Property (α : Type) where
  id : ID
  data_avg_id : ID
  data_beg_id : ID
  data_count : Nat
  filter_min : α
  filter_max : α
  cmd_id : ID
  name : CString
  args : CString
deriving DecidableEq, Repr

/-- The struct GroupInstance; its member structure is named structure_ here. -/
structure GroupInstance where
  id : ID
  group_id : ID
  structure_ : Structure
deriving DecidableEq, Repr

/-- The struct PropertyData. -/
structure PropertyData (α : Type) where
  id : ID
  property_id : ID
  instance_id : ID
  data : List α
deriving DecidableEq, Repr

/-- The struct Group. -/
structure Group where
  id : ID
  instance_beg_id : ID
  instance_count : Nat
  cmd_id : ID
  name : CString
  args : CString
deriving DecidableEq, Repr

/-- The struct StatisticsContext, the state of the engine. -/
structure StatisticsContext (α : Type) where
  string_buffer : List CString
  properties : List (Property α)
  property_data : List (PropertyData α)
  groups : List Group
  group_instances : List GroupInstance
  property_commands : List (PropertyCommand α)
  group_commands : List GroupCommand

/-- The id member that find_id reads. -/
class HasID (T : Type) where
  id : T → ID

instance instHasIDPropertyCommand {α : Type} : HasID (PropertyCommand α) := ⟨fun c => c.id⟩
instance instHasIDGroupCommand : HasID GroupCommand := ⟨fun c => c.id⟩
instance instHasIDProperty {α : Type} : HasID (Property α) := ⟨fun p => p.id⟩
instance instHasIDGroupInstance : HasID GroupInstance := ⟨fun i => i.id⟩
instance instHasIDPropertyData {α : Type} : HasID (PropertyData α) := ⟨fun d => d.id⟩
instance instHasIDGroup : HasID Group := ⟨fun g => g.id⟩

/-- The template find_id: a pointer to the first item with the given id, as
its offset in the array together with the item; none is the null pointer. -/
def find_id {T : Type} [HasID T] : List T → ID → Option (Nat × T)
  | [], _ => none
  | item :: rest, id =>
    if HasID.id item = id then some (0, item)
    else (find_id rest id).map (fun r => (r.1 + 1, r.2))

/-- The state of the static context before initialize. -/
def empty_context {α : Type} : StatisticsContext α :=
  ⟨[], [], [], [], [], [], []⟩

/-! ## Engine operations -/

section engine

variable {α : Type} [Ring α] [Div α]

/-- The function initialize (a reserved word here): the built-in commands. -/
def initialize_stats (E : Env α) (ctx : StatisticsContext α) : StatisticsContext α :=
  { ctx with
    property_commands := ctx.property_commands ++
      [ ⟨COMPUTE_ID E "dist", compute_atomic_distance E, (0, E.FLT_MAX), .INTRA, false, "å"⟩,
        ⟨COMPUTE_ID E "bond", compute_atomic_distance E, (0, E.FLT_MAX), .INTRA, false, "å"⟩,
        ⟨COMPUTE_ID E "angle", compute_atomic_angle E, (0, E.PI), .INTRA, true, "°"⟩,
        ⟨COMPUTE_ID E "dihedral", compute_atomic_dihedral E, (-E.PI, E.PI), .INTRA, true, "°"⟩ ]
    group_commands := ctx.group_commands ++ [ ⟨COMPUTE_ID E "resname", match_by_resname E⟩ ] }

/-- The function clear. -/
def clear (ctx : StatisticsContext α) : StatisticsContext α :=
  { ctx with string_buffer := [], properties := [], property_data := [], groups := [],
             group_instances := [] }

/-- Modelled from the spec: DynamicArray::remove (core/array.h) is missing and
the spec does not describe it. The element under the pointer is dropped and
the later elements move down by one place. -/
def array_remove {β : Type} (data : List β) (pos : Nat) : List β := data.eraseIdx pos

/-- The function alloc_string: the copy is appended to the string buffer. -/
def alloc_string (ctx : StatisticsContext α) (str : CString) : StatisticsContext α × CString :=
  ({ ctx with string_buffer := ctx.string_buffer ++ [str] }, str)

/-- The function free_string. The source hands the address of the loop's
copy of the entry to remove; the model drops the entry that was copied. -/
def free_string (E : Env α) (ctx : StatisticsContext α) (str : CString) : StatisticsContext α :=
  match ctx.string_buffer.findIdx? (fun int_str =>
      int_str.length = str.length && E.compare int_str str) with
  | some i => { ctx with string_buffer := array_remove ctx.string_buffer i }
  | none => ctx

/-- The function get_group (by name). -/
def get_group (E : Env α) (ctx : StatisticsContext α) (name : CString) : ID :=
  match ctx.groups.find? (fun g => E.compare name g.name) with
  | some g => g.id
  | none => INVALID_ID

/-- The function get_group (by index); a negative index reads outside the array. -/
def get_group_idx (ctx : StatisticsContext α) (idx : Int) : Option ID :=
  if idx < ctx.groups.length then (load ctx.groups idx).map (fun g => g.id)
  else some INVALID_ID

/-- The function get_group_count. -/
def get_group_count (ctx : StatisticsContext α) : Nat := ctx.groups.length

/-- The scan of get_group_instance over the instances, count being the
number of instances of the group met so far. -/
def get_group_instance_scan (group_id : ID) (idx : Int) : List GroupInstance → Int → ID
  | [], _ => INVALID_ID
  | inst :: rest, count =>
    if inst.group_id = group_id then
      if count = idx then inst.id else get_group_instance_scan group_id idx rest (count + 1)
    else get_group_instance_scan group_id idx rest count

/-- The function get_group_instance. -/
def get_group_instance (ctx : StatisticsContext α) (group_id : ID) (idx : Int) : ID :=
  get_group_instance_scan group_id idx ctx.group_instances 0

/-- The function get_group_instance_count. -/
def get_group_instance_count (ctx : StatisticsContext α) (group_id : ID) : Nat :=
  match find_id ctx.groups group_id with
  | some (_, group) => group.instance_count
  | none => 0

/-- The function get_property (by name). -/
def get_property (E : Env α) (ctx : StatisticsContext α) (name : CString) : ID :=
  match ctx.properties.find? (fun p => E.compare p.name name) with
  | some p => p.id
  | none => INVALID_ID

/-- The function get_property (by index). -/
def get_property_idx (ctx : StatisticsContext α) (idx : Int) : ID :=
  if -1 < idx ∧ idx < ctx.properties.length then
    match ctx.properties[idx.toNat]? with
    | some p => p.id
    | none => INVALID_ID
  else INVALID_ID

/-- The text that snprintf leaves in a buffer of 64 characters. -/
def snprintf64 (text : List Char) : CString := String.mk (text.take 63)

/-- The name of instance i of a group, format "%s.%i". -/
def instance_name (group_name : CString) (i : Nat) : CString :=
  snprintf64 (group_name.data ++ '.' :: (Nat.repr i).data)

/-- The name of the averaged series, format "%s.%s.avg". -/
def data_avg_name (group_name prop_name : CString) : CString :=
  snprintf64 (group_name.data ++ '.' :: prop_name.data ++ ".avg".data)

/-- The name of the series of instance i, format "%s.%s.%i". -/
def data_name (group_name prop_name : CString) (i : Nat) : CString :=
  snprintf64 (group_name.data ++ '.' :: prop_name.data ++ '.' :: (Nat.repr i).data)

/-- The instance that compute_stats pushes for structure number i of a group
(lines 280-286). -/
def new_instance (E : Env α) (group : Group) (i : Nat) (m : Structure) : GroupInstance :=
  { id := COMPUTE_ID E (instance_name group.name i), group_id := group.id, structure_ := m }

/-- The bookkeeping of compute_stats after instance number i is pushed
(lines 288-292). -/
def count_instance (group : Group) (i : Nat) (instance_id : ID) : Group :=
  let group := if i = 0 then { group with instance_beg_id := instance_id, instance_count := 0 }
               else group
  { group with instance_count := group.instance_count + 1 }

/-- The loop of compute_stats over matching_structures (lines 279-293),
i being the index of the first structure of the list. -/
def compute_stats_instances (E : Env α) :
    Nat → List Structure → Group → List GroupInstance → Group × List GroupInstance
  | _, [], group, group_instances => (group, group_instances)
  | i, m :: rest, group, group_instances =>
    let inst := new_instance E group i m
    compute_stats_instances E (i + 1) rest (count_instance group i inst.id)
      (group_instances ++ [inst])

/-- The body of the loop of compute_stats over the groups (lines 268-294). -/
def compute_stats_group (E : Env α) (mol : MoleculeStructure) (group : Group)
    (ctx : StatisticsContext α) : Option (Group × StatisticsContext α) :=
  if group.instance_count = 0 then
    match find_id ctx.group_commands group.cmd_id with
    | none => none
    | some (_, group_cmd) =>
      let args := tokens E group.args
      let matching_structures := group_cmd.func args mol
      if matching_structures.length = 0 then some (group, ctx)
      else
        let r := compute_stats_instances E 0 matching_structures group ctx.group_instances
        some (r.1, { ctx with group_instances := r.2 })
  else some (group, ctx)

/-- The loop of compute_stats over the groups; each group is updated in place. -/
def compute_stats_groups (E : Env α) (mol : MoleculeStructure) :
    List Group → StatisticsContext α → Option (List Group × StatisticsContext α)
  | [], ctx => some ([], ctx)
  | group :: rest, ctx =>
    (compute_stats_group E mol group ctx).bind (fun r =>
      (compute_stats_groups E mol rest r.2).map (fun rs => (r.1 :: rs.1, rs.2)))

/-- The state of the loop over the instances of a property's group: the
property, the context and the buffer of the averaged series. -/
abbrev InstanceLoopState (α : Type) := Property α × StatisticsContext α × List α

/-- The accumulation of one series into the buffer of the averaged series
(lines 337-339). -/
def accumulate_avg (count : Nat) (instance_count : Nat) (data avg : List α) : Option (List α) :=
  for_range (fun j avg =>
    (data[j]?).bind (fun d => (avg[j]?).bind (fun a =>
      store avg j (a + d / (instance_count : α))))) 0 count avg

/-- The entry that compute_stats pushes for instance number i (lines 341-347). -/
def new_prop_data (E : Env α) (group : Group) (prop : Property α) (i : Nat) (instance_id : ID)
    (count : Nat) (data : List α) : PropertyData α :=
  { id := COMPUTE_ID E (data_name group.name prop.name i), property_id := prop.id,
    instance_id := instance_id, data := data.take count }

/-- The bookkeeping of compute_stats after the series of instance number i
is pushed (lines 350-354). -/
def count_data (prop : Property α) (i : Nat) (data_id : ID) : Property α :=
  let prop := if i = 0 then { prop with data_beg_id := data_id, data_count := 0 } else prop
  { prop with data_count := prop.data_count + 1 }

/-- The body of the loop of compute_stats over the instances of the group
of a property (lines 331-355). -/
def compute_stats_data (E : Env α) (dynamic : MoleculeDynamic α) (count : Nat)
    (prop_cmd : PropertyCommand α) (args : List CString) (group : Group) (group_id : ID)
    (i : Nat) (s : InstanceLoopState α) : Option (InstanceLoopState α) :=
  let prop := s.1
  let ctx := s.2.1
  let instance_id := get_group_instance ctx group_id i
  (find_id ctx.group_instances instance_id).bind (fun inst =>
  (prop_cmd.func (List.replicate count 0) args dynamic inst.2.structure_).bind (fun r =>
  (accumulate_avg count group.instance_count r.2 s.2.2).bind (fun avg =>
  let prop_data := new_prop_data E group prop i instance_id count r.2
  some (count_data prop i prop_data.id,
        { ctx with property_data := ctx.property_data ++ [prop_data] }, avg))))

/-- The body of the loop of compute_stats over the properties (lines 299-361).
The test args == 0 is read as: the array of tokens is empty. The averaged
entry is pushed before the instances are visited and shares its buffer with
the local prop_avg_data, so it ends up holding the accumulated buffer. The
value that the compute function returns is not read. -/
def compute_stats_property (E : Env α) (dynamic : MoleculeDynamic α) (count : Nat)
    (prop : Property α) (ctx : StatisticsContext α) :
    Option (Property α × StatisticsContext α) :=
  if prop.data_beg_id = INVALID_ID then
    match find_id ctx.property_commands prop.cmd_id with
    | none => none
    | some (_, prop_cmd) =>
      let args := tokens E prop.args
      match prop_cmd.type with
      | .INTRA =>
        match args with
        | [] => some (prop, ctx)
        | arg0 :: _ =>
          let group_id := get_group E ctx arg0
          if group_id = INVALID_ID then some (prop, ctx)
          else
            match find_id ctx.groups group_id with
            | none => none
            | some (_, group) =>
              let prop_avg_data : PropertyData α :=
                { id := COMPUTE_ID E (data_avg_name group.name prop.name),
                  instance_id := INVALID_ID, property_id := prop.id,
                  data := List.replicate count 0 }
              let prop := { prop with data_avg_id := prop_avg_data.id }
              let avg_pos := ctx.property_data.length
              let ctx := { ctx with property_data := ctx.property_data ++ [prop_avg_data] }
              (for_range (compute_stats_data E dynamic count prop_cmd args group group_id)
                  0 group.instance_count (prop, ctx, prop_avg_data.data)).map (fun s =>
                (s.1, { s.2.1 with property_data :=
                  s.2.1.property_data.set avg_pos { prop_avg_data with data := s.2.2 } }))
      | .INTER => some (prop, ctx)
  else some (prop, ctx)

/-- The loop of compute_stats over the properties; each property is updated in place. -/
def compute_stats_properties (E : Env α) (dynamic : MoleculeDynamic α) (count : Nat) :
    List (Property α) → StatisticsContext α → Option (List (Property α) × StatisticsContext α)
  | [], ctx => some ([], ctx)
  | prop :: rest, ctx =>
    (compute_stats_property E dynamic count prop ctx).bind (fun r =>
      (compute_stats_properties E dynamic count rest r.2).map (fun rs => (r.1 :: rs.1, rs.2)))

/-- The function compute_stats. -/
def compute_stats (E : Env α) (ctx : StatisticsContext α) (dynamic : MoleculeDynamic α) :
    Option (Bool × StatisticsContext α) :=
  match dynamic.molecule with
  | none => some (false, ctx)
  | some mol =>
    match dynamic.trajectory with
    | none => some (false, ctx)
    | some traj =>
      (compute_stats_groups E mol ctx.groups ctx).bind (fun g =>
        let ctx := { g.2 with groups := g.1 }
        let count := traj.num_frames
        (compute_stats_properties E dynamic count ctx.properties ctx).map (fun p =>
          (true, { p.2 with properties := p.1 })))

/-- The function register_property_command. -/
def register_property_command (E : Env α) (ctx : StatisticsContext α) (command : CString)
    (compute_function : PropertyComputeFunc α) (val_range : α × α) (type : PropertyType)
    (periodic : Bool) (unit : CString) : StatisticsContext α :=
  let id := COMPUTE_ID E command
  match find_id ctx.property_commands id with
  | some _ => ctx
  | none =>
    let r := alloc_string ctx unit
    { r.1 with property_commands := r.1.property_commands ++
        [⟨id, compute_function, val_range, type, periodic, r.2⟩] }

/-- The function register_group_command. -/
def register_group_command (E : Env α) (ctx : StatisticsContext α) (command : CString)
    (func : StructureExtractFunc) : StatisticsContext α :=
  let id := COMPUTE_ID E command
  match find_id ctx.group_commands id with
  | some _ => ctx
  | none => { ctx with group_commands := ctx.group_commands ++ [⟨id, func⟩] }

/-- The argument text of a command string: it runs from the start of tokens[1]
to where the last token stops, and is empty when there is a single token. -/
def command_args (cmd_and_args : CString) (toks : List Token) : CString :=
  match toks with
  | _ :: t1 :: rest => substr cmd_and_args t1.beg ((t1 :: rest).getLast (by simp)).stop
  | _ => ""

/-- The function create_group; reading tokens[0] of an empty token array has
no result. -/
def create_group (E : Env α) (ctx : StatisticsContext α) (name cmd_and_args : CString) :
    Option (ID × StatisticsContext α) :=
  let grp_id := COMPUTE_ID E name
  match find_id ctx.groups grp_id with
  | some _ => some (INVALID_ID, ctx)
  | none =>
    if cmd_and_args.length = 0 then some (INVALID_ID, ctx)
    else
      let toks := E.ctokenize cmd_and_args
      (toks[0]?).bind (fun t0 =>
        let cmd := substr cmd_and_args t0.beg t0.stop
        let args := command_args cmd_and_args toks
        let grp_cmd_id := COMPUTE_ID E cmd
        match find_id ctx.group_commands grp_cmd_id with
        | none => some (INVALID_ID, ctx)
        | some _ =>
          let r1 := alloc_string ctx name
          let r2 := alloc_string r1.1 args
          let group : Group :=
            { id := grp_id, name := r1.2, args := r2.2, cmd_id := grp_cmd_id,
              instance_beg_id := INVALID_ID, instance_count := 0 }
          some (group.id, { r2.1 with groups := r2.1.groups ++ [group] }))

/-- The function remove_group. -/
def remove_group (E : Env α) (ctx : StatisticsContext α) (group_id : ID) : StatisticsContext α :=
  match find_id ctx.groups group_id with
  | none => ctx
  | some (pos, group) =>
    let ctx := free_string E ctx group.name
    let ctx := free_string E ctx group.args
    { ctx with groups := array_remove ctx.groups pos }

/-- The function create_property. The local prop is filled in and its id is
returned; the source has no push_back onto ctx.properties. -/
def create_property (E : Env α) (ctx : StatisticsContext α) (name cmd_and_args : CString) :
    Option (ID × StatisticsContext α) :=
  let prop_id := COMPUTE_ID E name
  match find_id ctx.properties prop_id with
  | some _ => some (INVALID_ID, ctx)
  | none =>
    if cmd_and_args.length = 0 then some (INVALID_ID, ctx)
    else
      let toks := E.ctokenize cmd_and_args
      (toks[0]?).bind (fun t0 =>
        let cmd := substr cmd_and_args t0.beg t0.stop
        let args := command_args cmd_and_args toks
        let prop_cmd_id := COMPUTE_ID E cmd
        match find_id ctx.property_commands prop_cmd_id with
        | none => some (INVALID_ID, ctx)
        | some _ =>
          let r1 := alloc_string ctx name
          let r2 := alloc_string r1.1 args
          let prop : Property α :=
            { id := prop_id, data_avg_id := INVALID_ID, data_beg_id := INVALID_ID,
              data_count := 0, filter_min := 0, filter_max := 1, cmd_id := prop_cmd_id,
              name := r1.2, args := r2.2 }
          some (prop.id, r2.1))

/-- The loop of remove_property over ctx.property_data: pd is the offset of
the running pointer, which advances after every round, also after a removal.
The loop ends when pd equals end(); a pointer beyond end() reads outside the
array. The fuel is never used up when it starts above the length of the
array. -/
def remove_property_data (prop_id : ID) :
    Nat → Nat → List (PropertyData α) → Option (List (PropertyData α))
  | 0, _, _ => none
  | fuel + 1, pd, property_data =>
    if pd = property_data.length then some property_data
    else
      match property_data[pd]? with
      | none => none
      | some entry =>
        if entry.property_id = prop_id then
          remove_property_data prop_id fuel (pd + 1) (array_remove property_data pd)
        else remove_property_data prop_id fuel (pd + 1) property_data

/-- The function remove_property. -/
def remove_property (E : Env α) (ctx : StatisticsContext α) (prop_id : ID) :
    Option (StatisticsContext α) :=
  match find_id ctx.properties prop_id with
  | none => some ctx
  | some (pos, prop) =>
    (remove_property_data prop_id (ctx.property_data.length + 1) 0 ctx.property_data).map
      (fun property_data =>
        let ctx := { ctx with property_data := property_data }
        let ctx := free_string E ctx prop.name
        let ctx := free_string E ctx prop.args
        { ctx with properties := array_remove ctx.properties pos })

/-- The function get_property_data: the entry idx places after the one that
find_id points to. -/
def get_property_data (ctx : StatisticsContext α) (prop_id : ID) (idx : Int) :
    Option (List α) :=
  match find_id ctx.properties prop_id with
  | some (_, prop) =>
    if prop.data_beg_id ≠ INVALID_ID ∧ idx < prop.data_count then
      (find_id ctx.property_data prop.data_beg_id).bind (fun prop_data =>
        (load ctx.property_data (prop_data.1 + idx)).map (fun entry => entry.data))
    else some []
  | none => some []

/-- The function get_property_avg_data. -/
def get_property_avg_data (ctx : StatisticsContext α) (prop_id : ID) : Option (List α) :=
  match find_id ctx.properties prop_id with
  | some (_, prop) =>
    if prop.data_avg_id ≠ INVALID_ID then
      (find_id ctx.property_data prop.data_avg_id).map (fun prop_data => prop_data.2.data)
    else some []
  | none => some []

/-- The function get_property_data_count. -/
def get_property_data_count (ctx : StatisticsContext α) (prop_id : ID) : Nat :=
  match find_id ctx.properties prop_id with
  | some (_, prop) => prop.data_count
  | none => 0

/-- The function get_property_name. -/
def get_property_name (ctx : StatisticsContext α) (prop_id : ID) : CString :=
  match find_id ctx.properties prop_id with
  | some (_, prop) => prop.name
  | none => ""

/-! ## Notions used to state the properties of compute_stats -/

/-- The stored instances that carry the id of a group, in storage order:
the instances that get_group_instance counts. -/
def instances_of (ctx : StatisticsContext α) (group_id : ID) : List GroupInstance :=
  ctx.group_instances.filter (fun inst => inst.group_id = group_id)

/-- The group as compute_stats leaves it and the instances that the loop over
the groups appends for it; this is the loop body run on an empty instance array. -/
def resolve_group (E : Env α) (group_commands : List GroupCommand) (mol : MoleculeStructure)
    (group : Group) : Group × List GroupInstance :=
  if group.instance_count = 0 then
    match find_id group_commands group.cmd_id with
    | none => (group, [])
    | some (_, group_cmd) => compute_stats_instances E 0 (group_cmd.func (tokens E group.args) mol) group []
  else (group, [])

/-- The structures of the instances that compute_stats can visit: those
stored beforehand and those that its loop over the groups appends. -/
def visited_structures (E : Env α) (ctx : StatisticsContext α) (mol : MoleculeStructure) :
    List Structure :=
  (ctx.group_instances ++
    ctx.groups.flatMap (fun g => (resolve_group E ctx.group_commands mol g).2)).map
      (fun inst => inst.structure_)

/-- The context as the loop of compute_stats over the groups leaves it. -/
def resolved_context (E : Env α) (ctx : StatisticsContext α) (mol : MoleculeStructure) :
    StatisticsContext α :=
  { ctx with
    groups := ctx.groups.map (fun g => (resolve_group E ctx.group_commands mol g).1)
    group_instances := ctx.group_instances ++
      ctx.groups.flatMap (fun g => (resolve_group E ctx.group_commands mol g).2) }

/-- The series of instance idx of a group for a property command: the first
count values that the compute function leaves in a zeroed buffer when it is
run on the structure of the instance that get_group_instance designates. -/
def instance_series (ctx : StatisticsContext α) (dynamic : MoleculeDynamic α) (count : Nat)
    (prop_cmd : PropertyCommand α) (args : List CString) (group_id : ID) (idx : Nat) :
    Option (List α) :=
  (find_id ctx.group_instances (get_group_instance ctx group_id idx)).bind (fun inst =>
    (prop_cmd.func (List.replicate count 0) args dynamic inst.2.structure_).map
      (fun r => r.2.take count))

/-- A compute function returns on a structure, leaving at least count values
in the buffer of count zeros that it was given. -/
def returns_series (dynamic : MoleculeDynamic α) (count : Nat) (prop_cmd : PropertyCommand α)
    (args : List CString) (s : Structure) : Prop :=
  match prop_cmd.func (List.replicate count 0) args dynamic s with
  | some r => count ≤ r.2.length
  | none => False

instance instDecidableReturnsSeries (dynamic : MoleculeDynamic α) (count : Nat)
    (prop_cmd : PropertyCommand α) (args : List CString) (s : Structure) :
    Decidable (returns_series dynamic count prop_cmd args s) :=
  match h : prop_cmd.func (List.replicate count 0) args dynamic s with
  | some r => decidable_of_iff (count ≤ r.2.length) (by simp [returns_series, h])
  | none => isFalse (by simp [returns_series, h])

/-- The conditions under which compute_stats meets no failed assertion, null
pointer or access outside an array: the commands of the groups and properties
it has to evaluate are registered, no group counts more instances than are
stored under its id, and the registered compute functions return on the
structures they can be given. -/
structure Safe (E : Env α) (ctx : StatisticsContext α) (dynamic : MoleculeDynamic α)
    (mol : MoleculeStructure) (count : Nat) : Prop where
  group_commands : ∀ g ∈ ctx.groups, g.instance_count = 0 →
    (find_id ctx.group_commands g.cmd_id).isSome
  property_commands : ∀ p ∈ ctx.properties, p.data_beg_id = INVALID_ID →
    (find_id ctx.property_commands p.cmd_id).isSome
  instances : ∀ g ∈ ctx.groups, g.instance_count ≤ (instances_of ctx g.id).length
  funcs : ∀ p ∈ ctx.properties, ∀ c ∈ ctx.property_commands,
    ∀ s ∈ visited_structures E ctx mol, returns_series dynamic count c (tokens E p.args) s

/-- How often an id occurs among the ids of the stored series. -/
def series_id_count (ctx : StatisticsContext α) (id : ID) : Nat :=
  (ctx.property_data.map (fun e => e.id)).count id

/-- The value number j of the series of entry number i of a list of stored
series, zero where there is none. -/
def entry_value (es : List (PropertyData α)) (i j : Nat) : α :=
  ((es[i]?).bind (fun e => e.data[j]?)).getD 0

end engine

/-! ## A concrete environment for evaluating the engine -/

/-- Modelled from the spec: hash::crc64 (core/hash.h) is missing; the spec
only says that ids are a 64-bit hash of the string. A polynomial hash modulo
2^64 stands in for it. -/
def model_crc64 (s : CString) : ID :=
  s.data.foldl (fun h c => (h * 131 + c.toNat) % 2 ^ 64) 0

/-- The scan of model_ctokenize: pos is the offset of the next character,
cur the start of the token being read. -/
def model_ctokenize_scan : List Char → Nat → Option Nat → List Token
  | [], _, none => []
  | [], pos, some b => [⟨b, pos⟩]
  | c :: cs, pos, none =>
    if c = ' ' then model_ctokenize_scan cs (pos + 1) none
    else model_ctokenize_scan cs (pos + 1) (some pos)
  | c :: cs, pos, some b =>
    if c = ' ' then ⟨b, pos⟩ :: model_ctokenize_scan cs (pos + 1) none
    else model_ctokenize_scan cs (pos + 1) (some b)

/-- Modelled from the spec: ctokenize (core/string_utils.h) is missing; the
spec says that a command string is a keyword followed by space-separated
arguments. The tokens are the maximal runs of characters other than the space. -/
def model_ctokenize (s : CString) : List Token :=
  model_ctokenize_scan s.data 0 none

/-- The value of a run of decimal digits, none when a character is not a digit. -/
def model_digits : List Char → Nat → Option Nat
  | [], acc => some acc
  | c :: cs, acc =>
    if '0' ≤ c ∧ c ≤ '9' then model_digits cs (acc * 10 + (c.toNat - '0'.toNat)) else none

/-- Modelled from the spec: to_int32 (core/string_utils.h) is missing; the
spec speaks of integer atom-offset tokens. A token converts when it is a
non-empty run of decimal digits with an optional leading minus sign. -/
def model_to_int32 (s : CString) : Option Int :=
  match s.data with
  | [] => none
  | '-' :: c :: cs => (model_digits (c :: cs) 0).map (fun n => - (n : Int))
  | cs => (model_digits cs 0).map (fun n => (n : Int))

/-- A concrete environment over the integers. The hash, the string
comparison (equality of the characters), the tokenizer and the integer
conversion are modelled as above; the float helpers of core/math_utils.h are
replaced by integer stand-ins that keep their arguments apart. -/
def model_env : Env Int :=
  { crc64 := model_crc64
    compare := fun a b => decide (a = b)
    ctokenize := model_ctokenize
    to_int32 := model_to_int32
    distance := fun a b => (a.x - b.x) ^ 2 + (a.y - b.y) ^ 2 + (a.z - b.z) ^ 2
    angle := fun u v => u.x * v.x + u.y * v.y + u.z * v.z
    dihedral_angle := fun a b c d => a.x + 10 * b.x + 100 * c.x + 1000 * d.x
    FLT_MAX := 2 ^ 127
    PI := 3 }

/-- The concrete environment over the rationals, where division is exact. -/
def model_env_rat : Env ℚ :=
  { crc64 := model_crc64
    compare := fun a b => decide (a = b)
    ctokenize := model_ctokenize
    to_int32 := model_to_int32
    distance := fun a b => (a.x - b.x) ^ 2 + (a.y - b.y) ^ 2 + (a.z - b.z) ^ 2
    angle := fun u v => u.x * v.x + u.y * v.y + u.z * v.z
    dihedral_angle := fun a b c d => a.x + 10 * b.x + 100 * c.x + 1000 * d.x
    FLT_MAX := 2 ^ 127
    PI := 3 }

/-! ## Example states -/

/-- The engine after initialize. -/
def example_context : StatisticsContext Int := initialize_stats model_env empty_context

/-- A molecule with three alanine residues at the atom ranges 0-5, 5-9 and 9-14. -/
def example_molecule : MoleculeStructure :=
  ⟨[⟨"ALA", 0, 5⟩, ⟨"ALA", 5, 9⟩, ⟨"ALA", 9, 14⟩]⟩

/-- A frame of 14 atoms, atom i at (k + i, 0, 0). -/
def example_frame (k : Int) : TrajectoryFrame Int :=
  ⟨(List.range 14).map (fun i => ⟨k + i, 0, 0⟩)⟩

/-- A trajectory of two frames. -/
def example_trajectory : Trajectory Int := ⟨2, [example_frame 0, example_frame 20]⟩

/-- The example molecule with its trajectory. -/
def example_dynamic : MoleculeDynamic Int := ⟨some example_molecule, some example_trajectory⟩

/-- The property record that create_property fills in for the name p1 and a
command string made of the keyword and the arguments args. -/
def example_property (keyword args : CString) : Property Int :=
  { id := COMPUTE_ID model_env "p1", data_avg_id := INVALID_ID, data_beg_id := INVALID_ID,
    data_count := 0, filter_min := 0, filter_max := 1, cmd_id := COMPUTE_ID model_env keyword,
    name := "p1", args := args }

/-- The group record that create_group appends for a name and the command
string resname followed by args. -/
def example_group (name args : CString) : Group :=
  { id := COMPUTE_ID model_env name, instance_beg_id := INVALID_ID, instance_count := 0,
    cmd_id := COMPUTE_ID model_env "resname", name := name, args := args }

/-- The engine with one group, not yet resolved, and one listed property. -/
def example_engine (group : Group) (prop : Property Int) : StatisticsContext Int :=
  { example_context with groups := [group], properties := [prop] }

/-- The engine with one group, resolved against the example molecule, and one
listed property. -/
def example_resolved_engine (group : Group) (prop : Property Int) : StatisticsContext Int :=
  { example_context with
    groups := [(resolve_group model_env example_context.group_commands example_molecule group).1]
    group_instances :=
      (resolve_group model_env example_context.group_commands example_molecule group).2
    properties := [prop] }

/-- A compute function that writes 7 into every element of the buffer. -/
def example_compute : PropertyComputeFunc Int :=
  fun data _ _ _ => some (true, data.map (fun _ => 7))

/-- The example engine with one more command, registered under the keyword
pair with the type INTER. -/
def example_inter_engine (group : Group) (prop : Property Int) : StatisticsContext Int :=
  register_property_command model_env (example_resolved_engine group prop) "pair"
    example_compute (0, 1) PropertyType.INTER false ""

/-- A trajectory of two frames over the rationals: atom i is at (i * i, 0, 0)
in the first frame and at (2 * i, 0, 0) in the second one. -/
def example_rat_dynamic : MoleculeDynamic ℚ :=
  ⟨some example_molecule,
   some ⟨2, [⟨(List.range 14).map (fun i => ⟨(i : ℚ) * i, 0, 0⟩)⟩,
             ⟨(List.range 14).map (fun i => ⟨2 * (i : ℚ), 0, 0⟩)⟩]⟩⟩

/-- The engine over the rationals with the group named 0, not yet resolved,
and the listed property p1 with the command dist and the arguments 0 1. -/
def example_rat_engine : StatisticsContext ℚ :=
  { initialize_stats model_env_rat empty_context with
    groups := [example_group "0" "ALA"]
    properties := [⟨COMPUTE_ID model_env_rat "p1", INVALID_ID, INVALID_ID, 0, 0, 1,
      COMPUTE_ID model_env_rat "dist", "p1", "0 1"⟩] }

/-! ## Notions used to state the properties of the built-in commands -/

/-- Two trajectories have as many frames and, in every frame, the same
positions for the atoms of a structure. -/
def same_inside {α : Type} (t1 t2 : Trajectory α) (s : Structure) : Prop :=
  t1.num_frames = t2.num_frames ∧
  ∀ (i : Nat) (atom : Int), s.beg_atom_idx ≤ atom → atom < s.end_atom_idx →
    atom_position t1 i atom = atom_position t2 i atom

/-! ## Further example states -/

/-- A frame of 14 atoms, atom i at (k + i, 0, 0), but atom 12 at the origin. -/
def example_frame_moved (k : Int) : TrajectoryFrame Int :=
  ⟨(example_frame k).atom_positions.set 12 ⟨0, 0, 0⟩⟩

/-- The example trajectory with atom 12 moved in both frames. -/
def example_trajectory_moved : Trajectory Int :=
  ⟨2, [example_frame_moved 0, example_frame_moved 20]⟩

/-- The example molecule with the trajectory in which atom 12 is moved. -/
def example_dynamic_moved : MoleculeDynamic Int :=
  ⟨some example_molecule, some example_trajectory_moved⟩

/-- The context after create_group of g1 on the example context, compute_stats
and remove_group of g1, with the id that create_group returned. -/
def example_removed : Option (ID × StatisticsContext Int) :=
  (create_group model_env example_context "g1" "resname ALA").bind (fun r1 =>
    (compute_stats model_env r1.2 example_dynamic).map (fun r2 =>
      (r1.1, remove_group model_env r2.2 r1.1)))

/-- The context after g1 is created once more. -/
def example_recreated : Option (ID × StatisticsContext Int) :=
  example_removed.bind (fun r => create_group model_env r.2 "g1" "resname ALA")

/-! ## Histograms -/

/-- The struct Histogram of stats.h; a Range is a pair. -/
structure Histogram (α : Type) where
  bins : List α
  val_range : α × α
  bin_range : α × α
  num_samples : Int
deriving DecidableEq, Repr

section histogram

variable {α : Type} [LinearOrderedField α] [FloorRing α]

/-- Modelled from the spec: math::clamp (core/math_utils.h) is missing; the
value x brought into the range from lo to hi. -/
def clamp (x lo hi : Int) : Int := min (max x lo) hi

/-- The integer part of a number, rounded toward zero. -/
def trunc (x : α) : Int := if 0 ≤ x then ⌊x⌋ else ⌈x⌉

/-- The cast (int32) of a float: the integer part of the number; the cast has
no result when the integer part is not an int32. -/
def cast_int32 (x : α) : Option Int :=
  if -2 ^ 31 ≤ trunc x ∧ trunc x < 2 ^ 31 then some (trunc x) else none

/-- The function compute_histogram with the range min_val, max_val (lines
241-253). The call resize leaves num_bins bins, which memset sets to zero. A
range of width zero makes scl a division by zero, and the cast of a product
with it has no result. -/
def compute_histogram_range (hist : Histogram α) (num_bins : Int) (data : List α)
    (min_val max_val : α) : Option (Histogram α) :=
  if ¬ 0 < num_bins then none
  else
    let bins : List α := List.replicate num_bins.toNat 0
    let scl : α := (num_bins : α) / (max_val - min_val)
    (for_range (fun k (bins : List α) =>
      (data[k]?).bind (fun v =>
      (if max_val - min_val = 0 then none else cast_int32 ((v - min_val) * scl)).bind (fun t =>
        let bin_idx := clamp t 0 (num_bins - 1)
        (load bins bin_idx).bind (fun count => store bins bin_idx.toNat (count + 1)))))
      0 data.length bins).map (fun bins => { hist with bins := bins })

/-- The function compute_histogram without a range (lines 229-239). -/
def compute_histogram (E : Env α) (hist : Histogram α) (num_bins : Int) (data : List α) :
    Option (Histogram α) :=
  if data.length = 0 then some hist
  else
    let range : α × α :=
      data.foldl (fun (r : α × α) d => (min r.1 d, max r.2 d)) (E.FLT_MAX, -E.FLT_MAX)
    compute_histogram_range hist num_bins data range.1 range.2

/-- The bin of a value as the claim states it:
clamp(trunc((v - min_val) * num_bins / (max_val - min_val)), 0, num_bins - 1). -/
def bin_of (num_bins : Int) (min_val max_val v : α) : Int :=
  clamp (trunc ((v - min_val) * num_bins / (max_val - min_val))) 0 (num_bins - 1)

/-- The bins after compute_histogram has counted the first k values. -/
def bins_count (num_bins : Int) (min_val max_val : α) (data : List α) (k : Nat)
    (bins : List α) : Prop :=
  bins.length = num_bins.toNat ∧ bins.sum = k ∧
  ∀ b : Nat, b < num_bins.toNat →
    bins[b]? = some (((data.take k).countP
      (fun v => decide (bin_of num_bins min_val max_val v = b)) : Nat) : α)

end histogram

/-- A histogram with three bins that hold 7, 8 and 9. -/
def example_histogram : Histogram ℚ := ⟨[7, 8, 9], (0, 0), (0, 0), 0⟩

/-- Values for a histogram over the range from 0 to 1. -/
def example_data : List ℚ := [0, 1 / 10, 1 / 2, 9 / 10, 1, 2, -3]

end stats

namespace load

/-! ## Types of the trajectory loader (loader.cpp) -/

/-- Modelled from the spec: str_t (core/md_str.h) is missing; a string. -/
abbrev str_t := String

/-- Modelled from the spec: the molecule loaders are external collaborators.
The ones that the table names are the values of md_pdb_molecule_api(),
md_gro_molecule_api(), md_xyz_molecule_api() and md_mmcif_molecule_api(). -/
inductive md_molecule_loader_i where
  | pdb
  | gro
  | xyz
  | mmcif
deriving DecidableEq, Repr

/-- Modelled from the spec: the per-format decoders are external
collaborators. The loaders are the values of md_pdb_trajectory_loader(),
md_xtc_trajectory_loader(), md_trr_trajectory_loader() and
md_xyz_trajectory_loader(), and the loaders that a caller brings along. -/
inductive md_trajectory_loader_i where
  | pdb
  | xtc
  | trr
  | xyz
  | other (id : Nat)
deriving DecidableEq, Repr

/-- Modelled from the spec: vec3_t (core/md_vec_math.h) is missing; three
coordinates. -/
structure vec3_t (α : Type) where
  x : α
  y : α
  z : α
deriving DecidableEq, Repr

/-- Modelled from the spec: mat3_t (core/md_vec_math.h) is missing; the basis
vectors of a unit cell are its columns. -/
structure mat3_t (α : Type) where
  col0 : vec3_t α
  col1 : vec3_t α
  col2 : vec3_t α
deriving DecidableEq, Repr

/-- Modelled from the spec: md_unit_cell_t is missing; the basis of the
periodic box, its inverse, and flags that are zero without a box. -/
structure md_unit_cell_t (α : Type) where
  basis : mat3_t α
  inv_basis : mat3_t α
  flags : Nat
deriving DecidableEq, Repr

/-- Modelled from the spec: md_trajectory_frame_header_t is missing; the
header of a decoded frame holds the atom count, the unit cell and the
timestamp. -/
structure md_trajectory_frame_header_t (α : Type) where
  num_atoms : Int
  index : Int
  timestamp : α
  unit_cell : md_unit_cell_t α
deriving DecidableEq, Repr

/-- Modelled from the spec: md_frame_data_t (md_frame_cache.h) is missing; a
cache entry holds the decoded header and three parallel coordinate arrays. -/
structure md_frame_data_t (α : Type) where
  header : md_trajectory_frame_header_t α
  x : List α
  y : List α
  z : List α
deriving DecidableEq, Repr

/-- Modelled from the spec: md_molecule_t is missing; the fields that the
loader reads are atom.count, atom.mass and structures. -/
structure md_molecule_t (α : Type) where
  atom_count : Int
  atom_mass : List α
  structures : List (List Int)
deriving DecidableEq, Repr

/-- Modelled from the spec: md_bitfield_t (core/md_bitfield.h) is missing; an
atom mask is given by the indices of the bits that are set, in increasing
order. The zeroed struct has none. -/
abbrev md_bitfield_t := List Nat

/-- The struct LoadedMolecule; a pointer is an address, 0 for the null pointer. -/
structure LoadedMolecule where
  key : Nat
  alloc : Nat
deriving DecidableEq, Repr

/-- The struct LoadedTrajectory. The pointers mol, loader and traj and the
frame cache are none in a zeroed entry; traj is the address of the decoder
instance that the loader created. -/
structure LoadedTrajectory (α C : Type) where
  key : Nat
  mol : Option (md_molecule_t α)
  loader : Option md_trajectory_loader_i
  traj : Option Nat
  cache : Option C
  alloc : Nat
  recenter_target : md_bitfield_t
  deperiodize : Bool
deriving DecidableEq, Repr

/-- Modelled from the spec: md_trajectory_i (md_trajectory.h) is missing; the
fields that open_file sets. inst points to a slot of loaded_trajectories and
is given by the index of the slot; a function pointer is either null or the
function of loader.cpp. -/
structure md_trajectory_i where
  inst : Option Nat
  get_header : Bool
  load_frame : Bool
  fetch_frame_data : Bool
  decode_frame_data : Bool
deriving DecidableEq, Repr

/-- The calls into the decoder and the frame cache that change something
there, in the order in which they are made. -/
inductive Call where
  | create (loader : md_trajectory_loader_i) (filename : str_t) (traj : Nat)
  | destroy (loader : md_trajectory_loader_i) (traj : Option Nat)
  | frame_cache_init (traj : Nat) (num_cache_frames : Int)
  | frame_cache_free (key : Nat)
  | frame_cache_clear (key : Nat)
  | frame_cache_find_or_reserve (key : Nat) (idx : Int)
  | fetch_frame_data (traj : Nat) (idx : Int)
  | decode_frame_data (traj : Nat) (idx : Int)
  | frame_lock_release (lock : Nat)
deriving DecidableEq, Repr

/-- What md_frame_cache_find_or_reserve hands back: its return value, the
pointer frame_data, the lock if one was taken, and the cache afterwards. -/
structure Reserved (C : Type) where
  in_cache : Bool
  frame_data : Nat
  lock : Option Nat
  cache : C

/-- Modelled from the spec: the library around the loader is not part of the
source tree. Its functions are the fields of this record: the build options,
the decoders behind md_trajectory_i and md_trajectory_loader_i, the frame
cache of md_frame_cache.h over a type C of caches, and the helpers of
md_util.h and md_str.h. -/
structure Library (α C : Type) where
  -- Whether ASSERT is compiled in.
  assertions : Bool
  -- The value of VIAMD_FRAME_CACHE_SIZE, in megabytes.
  VIAMD_FRAME_CACHE_SIZE : Nat
  -- The value of md_os_physical_ram().
  physical_ram : Nat
  str_equal : str_t → str_t → Bool
  extract_ext : str_t → str_t
  -- The function create of a loader; none for the null pointer.
  create : md_trajectory_loader_i → str_t → Option Nat
  -- The function md_trajectory_num_atoms.
  num_atoms : Nat → Int
  -- The function md_trajectory_num_frames.
  num_frames : Nat → Int
  -- The function md_trajectory_fetch_frame_data: the bytes of a frame.
  fetch_frame_data : Nat → Int → List Nat
  -- The function md_trajectory_decode_frame_data: its return value and the frame data that it
  -- leaves behind.
  decode_frame_data : Nat → List Nat → md_frame_data_t α → Bool × md_frame_data_t α
  frame_cache_init : Nat → Int → C
  frame_cache_free : C → C
  frame_cache_clear : C → C
  frame_cache_num_frames : C → Int
  frame_cache_find_or_reserve : C → Int → Reserved C
  -- The frame data that a pointer into the cache points to.
  frame_data : C → Nat → Option (md_frame_data_t α)
  -- The cache after a write through a pointer to frame data.
  set_frame_data : C → Nat → md_frame_data_t α → C
  frame_lock_release : C → Nat → C
  -- The function md_util_compute_com: x, y, z, the masses and the indices.
  compute_com : List α → List α → List α → List α → List Nat → vec3_t α
  -- The function md_util_compute_com_ortho, with the box extent as well.
  compute_com_ortho : List α → List α → List α → List α → List Nat → vec3_t α → vec3_t α
  vec3_deperiodize : vec3_t α → vec3_t α → vec3_t α → vec3_t α
  -- The function md_util_deperiodize_system: the coordinates afterwards.
  deperiodize_system : List α → List α → List α → md_molecule_t α → md_unit_cell_t α →
    List α × List α × List α

/-- The file-level state of loader.cpp: the two arrays of eight entries with
their counters, the structs md_trajectory_i that were handed out, by address,
and the calls made so far. -/
structure State (α C : Type) where
  loaded_molecules : List LoadedMolecule
  num_loaded_molecules : Nat
  loaded_trajectories : List (LoadedTrajectory α C)
  num_loaded_trajectories : Nat
  interfaces : List (Nat × md_trajectory_i)
  calls : List Call
deriving DecidableEq

/-- The zeroed LoadedTrajectory. -/
def LoadedTrajectory.zero {α C : Type} : LoadedTrajectory α C :=
  ⟨0, none, none, none, none, 0, [], false⟩

/-- The zeroed md_trajectory_i. -/
def md_trajectory_i.zero : md_trajectory_i := ⟨none, false, false, false, false⟩

/-- The state at program start: both arrays zeroed, both counters 0. -/
def State.init {α C : Type} : State α C :=
  ⟨List.replicate 8 ⟨0, 0⟩, 0, List.replicate 8 LoadedTrajectory.zero, 0, [], []⟩

/-! ## The two arrays of loaded objects -/

section registry

variable {α C : Type}

/-- The check ASSERT: with assertions compiled in, a condition that fails
ends the run. -/
def ASSERT (E : Library α C) (cond : Bool) : Option Unit :=
  if E.assertions && !cond then none else some ()

/-- The loop for (i = start; i < start + n; ++i) that returns the address of
the first entry with the key, and the null pointer when it runs to its end.
The address of an entry is its index; a read outside the array ends the run. -/
def find_key {T : Type} (key_of : T → Nat) (slots : List T) (key : Nat) :
    Nat → Nat → Option (Option Nat)
  | _, 0 => some none
  | i, n + 1 =>
    match slots[i]? with
    | none => none
    | some e => if key_of e = key then some (some i) else find_key key_of slots key (i + 1) n

/-- The keys of the first n entries of an array are pairwise distinct. -/
def distinct_keys {T : Type} (key_of : T → Nat) (slots : List T) (n : Nat) : Prop :=
  ((slots.take n).map key_of).Nodup

instance instDecidableDistinctKeys {T : Type} (key_of : T → Nat) (slots : List T) (n : Nat) :
    Decidable (distinct_keys key_of slots n) := by
  unfold distinct_keys
  infer_instance

/-- The function find_loaded_molecule. -/
def find_loaded_molecule (s : State α C) (key : Nat) : Option (Option Nat) :=
  find_key (fun e => e.key) s.loaded_molecules key 0 s.num_loaded_molecules

/-- The function add_loaded_molecule. The lookup is part of an ASSERT and is
made only when assertions are compiled in. -/
def add_loaded_molecule (E : Library α C) (s : State α C) (obj : LoadedMolecule) :
    Option (State α C) :=
  (if E.assertions then
    (find_loaded_molecule s obj.key).bind (fun found => ASSERT E found.isNone)
   else some ()).bind (fun _ =>
  (ASSERT E (decide (s.num_loaded_molecules < 8))).bind (fun _ =>
  if s.num_loaded_molecules < s.loaded_molecules.length then
    some { s with
      loaded_molecules := s.loaded_molecules.set s.num_loaded_molecules obj
      num_loaded_molecules := s.num_loaded_molecules + 1 }
  else none))

/-- The function remove_loaded_molecule. Its loop is the one of
find_loaded_molecule; at the entry found, the last counted entry is copied
over it and the counter is decremented. When the loop runs to its end,
ASSERT(false) is reached and the function returns. -/
def remove_loaded_molecule (E : Library α C) (s : State α C) (key : Nat) : Option (State α C) :=
  (find_loaded_molecule s key).bind (fun found =>
    match found with
    | some i =>
      (s.loaded_molecules[s.num_loaded_molecules - 1]?).map (fun last =>
        { s with
          loaded_molecules := s.loaded_molecules.set i last
          num_loaded_molecules := s.num_loaded_molecules - 1 })
    | none => (ASSERT E false).map (fun _ => s))

/-- The function find_loaded_trajectory. -/
def find_loaded_trajectory (s : State α C) (key : Nat) : Option (Option Nat) :=
  find_key (fun e => e.key) s.loaded_trajectories key 0 s.num_loaded_trajectories

/-- The function alloc_loaded_trajectory: the address of the new entry and
the state. -/
def alloc_loaded_trajectory (E : Library α C) (s : State α C) (key : Nat) :
    Option (Nat × State α C) :=
  (if E.assertions then
    (find_loaded_trajectory s key).bind (fun found => ASSERT E found.isNone)
   else some ()).bind (fun _ =>
  (ASSERT E (decide (s.num_loaded_trajectories < 8))).bind (fun _ =>
  if s.num_loaded_trajectories < s.loaded_trajectories.length then
    some (s.num_loaded_trajectories,
      { s with
        loaded_trajectories := s.loaded_trajectories.set s.num_loaded_trajectories
          { (LoadedTrajectory.zero : LoadedTrajectory α C) with key := key }
        num_loaded_trajectories := s.num_loaded_trajectories + 1 })
  else none))

/-- The function remove_loaded_trajectory. Its loop is the one of
find_loaded_trajectory; at the entry found, the frame cache of the entry is
freed and its decoder destroyed through the loader of the entry, then the last
counted entry is copied over it and the counter is decremented. -/
def remove_loaded_trajectory (E : Library α C) (s : State α C) (key : Nat) :
    Option (State α C) :=
  (find_loaded_trajectory s key).bind (fun found =>
    match found with
    | some i =>
      (s.loaded_trajectories[i]?).bind (fun e =>
      e.loader.bind (fun loader =>
        let freed := s.loaded_trajectories.set i { e with cache := e.cache.map E.frame_cache_free }
        (freed[s.num_loaded_trajectories - 1]?).map (fun last =>
          { s with
            loaded_trajectories := freed.set i last
            num_loaded_trajectories := s.num_loaded_trajectories - 1
            calls := s.calls ++ [Call.frame_cache_free e.key, Call.destroy loader e.traj] })))
    | none => (ASSERT E false).map (fun _ => s))

end registry

/-! ## The table of extensions -/

/-- The struct table_entry_t. -/
structure table_entry_t where
  ext : str_t
  mol_loader : Option md_molecule_loader_i
  traj_loader : Option md_trajectory_loader_i
deriving DecidableEq, Repr

/-- The array table. -/
def table : List table_entry_t :=
  [ ⟨"pdb", some .pdb, some .pdb⟩,
    ⟨"gro", some .gro, none⟩,
    ⟨"xtc", none, some .xtc⟩,
    ⟨"trr", none, some .trr⟩,
    ⟨"xyz", some .xyz, some .xyz⟩,
    ⟨"xmol", some .xyz, some .xyz⟩,
    ⟨"arc", some .xyz, some .xyz⟩,
    ⟨"cif", some .mmcif, none⟩ ]

/-- The function supported_extension_count. -/
def supported_extension_count : Int := table.length

/-- The function supported_extension_str; the empty string stands for the
empty str_t. -/
def supported_extension_str (idx : Int) : str_t :=
  if 0 ≤ idx ∧ idx < (table.length : Int) then
    match table[idx.toNat]? with
    | some row => row.ext
    | none => ""
  else ""

section operations

variable {α C : Type} [Ring α] [Div α]

/-- The function mol::get_loader_from_ext: the loop returns at the first row
whose extension equals ext. -/
def mol.get_loader_from_ext (E : Library α C) (ext : str_t) : Option md_molecule_loader_i :=
  match table.find? (fun row => E.str_equal ext row.ext) with
  | some row => row.mol_loader
  | none => none

/-- The function traj::get_loader_from_ext. -/
def traj.get_loader_from_ext (E : Library α C) (ext : str_t) : Option md_trajectory_loader_i :=
  match table.find? (fun row => E.str_equal ext row.ext) with
  | some row => row.traj_loader
  | none => none

/-- The function traj::fetch_frame_data: the bytes written through data_ptr,
when it is given, are the index; the size is that of an int64_t. -/
def traj.fetch_frame_data (idx : Int) (data_ptr : Option Int) : Int × Option Int :=
  (8, data_ptr.map (fun _ => idx))

/-- Modelled from the spec: MEGABYTES (core/md_common.h) is missing; 4 MiB is
MEGABYTES(4). -/
def MEGABYTES (x : Nat) : Nat := x * 1024 * 1024

/-- Modelled from the spec: MIN (core/md_common.h) is missing; the smaller of
two values. -/
def MIN (a b : Nat) : Nat := if a < b then a else b

/-- Modelled from the spec: MAX (core/md_common.h) is missing; the larger of
two values. -/
def MAX (a b : Nat) : Nat := if a > b then a else b

/-- Modelled from the spec: CLAMP (core/md_common.h) is missing; the value v
raised to lo and then capped by hi. -/
def CLAMP (v lo hi : Nat) : Nat := MIN (MAX v lo) hi

/-- The conversion of an int64_t to uint64_t. -/
def to_uint64 (i : Int) : Nat := (i % 2 ^ 64).toNat

/-- The conversion of a uint64_t to int64_t. -/
def to_int64 (n : Nat) : Int :=
  if n % 2 ^ 64 < 2 ^ 63 then (n % 2 ^ 64 : Nat) else (n % 2 ^ 64 : Nat) - 2 ^ 64

/-- The write of a struct md_trajectory_i at an address. -/
def write_interface (interfaces : List (Nat × md_trajectory_i)) (addr : Nat)
    (value : md_trajectory_i) : List (Nat × md_trajectory_i) :=
  (addr, value) :: interfaces.filter (fun p => p.1 ≠ addr)

/-- The number of frames that open_file asks the frame cache to hold
(lines 279-284), none when the division is one by zero. The arithmetic is
that of uint64_t; the result is converted to int64_t. -/
def cache_frames (E : Library α C) (mol : md_molecule_t α) (internal_traj : Nat) : Option Int :=
  let num_traj_frames := to_uint64 (E.num_frames internal_traj)
  let frame_cache_size :=
    CLAMP (MEGABYTES E.VIAMD_FRAME_CACHE_SIZE) (MEGABYTES 4) (E.physical_ram / 4) % 2 ^ 64
  let approx_frame_size := (to_uint64 mol.atom_count * 3 * 4) % 2 ^ 64
  if approx_frame_size = 0 then none
  else
    let max_num_cache_frames := frame_cache_size / approx_frame_size
    some (to_int64 (MIN num_traj_frames max_num_cache_frames))

/-- The loader that open_file goes on with (lines 248-250): the one that the
caller passed, and without one the loader of the extension of the file name. -/
def traj.resolve_loader (E : Library α C) (filename : str_t)
    (loader : Option md_trajectory_loader_i) : Option md_trajectory_loader_i :=
  match loader with
  | some l => some l
  | none => traj.get_loader_from_ext E (E.extract_ext filename)

/-- The function traj::open_file: the pointer that is returned, none for NULL,
and the state. The molecule is given by value and alloc by its address; addr
is the address that md_alloc returns for the new md_trajectory_i. -/
def traj.open_file (E : Library α C) (s : State α C) (filename : str_t)
    (loader : Option md_trajectory_loader_i) (mol : md_molecule_t α) (alloc : Nat)
    (deperiodize_on_load : Bool) (addr : Nat) : Option (Option Nat × State α C) :=
  (ASSERT E (decide (alloc ≠ 0))).bind (fun _ =>
  match traj.resolve_loader E filename loader with
  | none => some (none, s)
  | some loader =>
    match E.create loader filename with
    | none => some (none, s)
    | some internal_traj =>
      let s := { s with calls := s.calls ++ [Call.create loader filename internal_traj] }
      if E.num_atoms internal_traj ≠ mol.atom_count then
        some (none, { s with calls := s.calls ++ [Call.destroy loader (some internal_traj)] })
      else if addr = 0 then none
      else
        let s := { s with interfaces := write_interface s.interfaces addr md_trajectory_i.zero }
        (alloc_loaded_trajectory E s addr).bind (fun r =>
        (cache_frames E mol internal_traj).bind (fun num_cache_frames =>
          let inst : LoadedTrajectory α C :=
            { key := addr, mol := some mol, loader := some loader, traj := some internal_traj,
              cache := some (E.frame_cache_init internal_traj num_cache_frames),
              alloc := alloc, recenter_target := [], deperiodize := deperiodize_on_load }
          some (some addr,
            { r.2 with
              loaded_trajectories := r.2.loaded_trajectories.set r.1 inst
              interfaces :=
                write_interface r.2.interfaces addr ⟨some r.1, true, true, true, true⟩
              calls := r.2.calls ++ [Call.frame_cache_init internal_traj num_cache_frames] }))))

/-- The function traj::close: its return value and the state. -/
def traj.close (E : Library α C) (s : State α C) (traj : Nat) : Option (Bool × State α C) :=
  (ASSERT E (decide (traj ≠ 0))).bind (fun _ =>
  (find_loaded_trajectory s traj).bind (fun found =>
    match found with
    | some i =>
      (s.loaded_trajectories[i]?).bind (fun loaded_traj =>
      (remove_loaded_trajectory E s loaded_traj.key).bind (fun s =>
        if traj = 0 then none
        else some (true,
          { s with interfaces := write_interface s.interfaces traj md_trajectory_i.zero })))
    | none => (ASSERT E false).map (fun _ => (false, s))))

/-- The function traj::set_recenter_target; atom_mask is none for the null
pointer. -/
def traj.set_recenter_target (E : Library α C) (s : State α C) (traj : Nat)
    (atom_mask : Option md_bitfield_t) : Option (Bool × State α C) :=
  (ASSERT E (decide (traj ≠ 0))).bind (fun _ =>
  (find_loaded_trajectory s traj).bind (fun found =>
    match found with
    | some i =>
      (s.loaded_trajectories[i]?).map (fun loaded_traj =>
        let loaded_traj := { loaded_traj with recenter_target := atom_mask.getD [] }
        (true, { s with loaded_trajectories := s.loaded_trajectories.set i loaded_traj }))
    | none => some (false, s)))

/-- The function traj::clear_cache. -/
def traj.clear_cache (E : Library α C) (s : State α C) (traj : Nat) :
    Option (Bool × State α C) :=
  (ASSERT E (decide (traj ≠ 0))).bind (fun _ =>
  (find_loaded_trajectory s traj).bind (fun found =>
    match found with
    | some i =>
      (s.loaded_trajectories[i]?).map (fun loaded_traj =>
        let cleared := { loaded_traj with cache := loaded_traj.cache.map E.frame_cache_clear }
        (true, { s with
          loaded_trajectories := s.loaded_trajectories.set i cleared
          calls := s.calls ++ [Call.frame_cache_clear loaded_traj.key] }))
    | none => some (false, s)))

/-- The function traj::num_cache_frames. -/
def traj.num_cache_frames (E : Library α C) (s : State α C) (traj : Nat) : Option Int :=
  (ASSERT E (decide (traj ≠ 0))).bind (fun _ =>
  (find_loaded_trajectory s traj).bind (fun found =>
    match found with
    | some i =>
      (s.loaded_trajectories[i]?).bind (fun loaded_traj =>
        loaded_traj.cache.map E.frame_cache_num_frames)
    | none => some 0))

/-- Modelled from the spec: vec3_set1 (core/md_vec_math.h) is missing; the
vector with three equal coordinates. -/
def vec3_set1 (v : α) : vec3_t α := ⟨v, v, v⟩

/-- Modelled from the spec: the product of a vec3_t with a scalar. -/
def vec3_t.scale (v : vec3_t α) (k : α) : vec3_t α := ⟨v.x * k, v.y * k, v.z * k⟩

/-- Modelled from the spec: the difference of two vec3_t. -/
def vec3_t.sub (a b : vec3_t α) : vec3_t α := ⟨a.x - b.x, a.y - b.y, a.z - b.z⟩

/-- Modelled from the spec: the negation of a vec3_t. -/
def vec3_t.neg (a : vec3_t α) : vec3_t α := ⟨-a.x, -a.y, -a.z⟩

/-- Modelled from the spec: mat3_mul_vec3 (core/md_vec_math.h) is missing; the
product of a matrix, given by its columns, with a vector. -/
def mat3_mul_vec3 (m : mat3_t α) (v : vec3_t α) : vec3_t α :=
  ⟨m.col0.x * v.x + m.col1.x * v.y + m.col2.x * v.z,
   m.col0.y * v.x + m.col1.y * v.y + m.col2.y * v.z,
   m.col0.z * v.x + m.col1.z * v.y + m.col2.z * v.z⟩

/-- The first n elements of an array moved by d; a write outside the array
ends the run. -/
def translate_inplace (xs : List α) (n : Nat) (d : α) : Option (List α) :=
  if n ≤ xs.length then some ((xs.take n).map (fun v => v + d) ++ xs.drop n) else none

/-- Modelled from the spec: vec3_batch_translate_inplace is missing; all atom
coordinates are moved by the same vector. -/
def vec3_batch_translate_inplace (x y z : List α) (num_atoms : Int) (t : vec3_t α) :
    Option (List α × List α × List α) :=
  (translate_inplace x num_atoms.toNat t.x).bind (fun x =>
  (translate_inplace y num_atoms.toNat t.y).bind (fun y =>
  (translate_inplace z num_atoms.toNat t.z).map (fun z => (x, y, z))))

/-- The call MEMCPY(dst, src, sizeof(float) * num_atoms); a negative count and
a copy that leaves one of the arrays end the run. -/
def memcpy_floats (dst src : List α) (num_atoms : Int) : Option (List α) :=
  if 0 ≤ num_atoms ∧ num_atoms.toNat ≤ src.length ∧ num_atoms.toNat ≤ dst.length then
    some (src.take num_atoms.toNat ++ dst.drop num_atoms.toNat)
  else none

/-- Modelled from the spec: md_bitfield_empty is missing; whether no bit of
the mask is set. -/
def md_bitfield_empty (bf : md_bitfield_t) : Bool := bf.isEmpty

/-- Modelled from the spec: md_bitfield_popcount is missing; the number of
bits of the mask that are set. -/
def md_bitfield_popcount (bf : md_bitfield_t) : Int := bf.length

/-- What decode_frame_data does to a frame that was decoded (lines 182-216):
the translation that recenters the atoms of the target, then the call that
makes the structures whole. The indices that md_bitfield_extract_indices
writes are those of the mask, as many as md_bitfield_popcount counts. -/
def postprocess (E : Library α C) (loaded_traj : LoadedTrajectory α C)
    (frame_data : md_frame_data_t α) : Option (md_frame_data_t α) :=
  let cell := frame_data.header.unit_cell
  let have_cell : Bool := decide (cell.flags ≠ 0)
  let num_atoms := frame_data.header.num_atoms
  let bf := loaded_traj.recenter_target
  (if !md_bitfield_empty bf && decide (md_bitfield_popcount bf > 0) then
    loaded_traj.mol.bind (fun mol =>
      let box_ext := mat3_mul_vec3 cell.basis (vec3_set1 1)
      let com :=
        if have_cell then
          E.vec3_deperiodize
            (E.compute_com_ortho frame_data.x frame_data.y frame_data.z mol.atom_mass bf box_ext)
            (box_ext.scale (1 / 2)) box_ext
        else E.compute_com frame_data.x frame_data.y frame_data.z mol.atom_mass bf
      let trans := if have_cell then (box_ext.scale (1 / 2)).sub com else com.neg
      vec3_batch_translate_inplace frame_data.x frame_data.y frame_data.z num_atoms trans)
   else some (frame_data.x, frame_data.y, frame_data.z)).bind (fun xyz =>
  if loaded_traj.deperiodize && have_cell then
    loaded_traj.mol.map (fun mol =>
      let r := E.deperiodize_system xyz.1 xyz.2.1 xyz.2.2 mol cell
      { frame_data with x := r.1, y := r.2.1, z := r.2.2 })
  else some { frame_data with x := xyz.1, y := xyz.2.1, z := xyz.2.2 })

/-- What decode_frame_data leaves behind: its return value, the header and
the arrays of the caller, none where the caller passed a null pointer, and the
state. -/
structure Decoded (α C : Type) where
  result : Bool
  header : Option (md_trajectory_frame_header_t α)
  out_x : Option (List α)
  out_y : Option (List α)
  out_z : Option (List α)
  state : State α C
deriving DecidableEq

/-- The copy of an array of the frame to an array of the caller, when the
caller passed one. -/
def copy_out (out : Option (List α)) (src : List α) (num_atoms : Int) :
    Option (Option (List α)) :=
  match out with
  | none => some none
  | some dst => (memcpy_floats dst src num_atoms).map some

/-- The function traj::decode_frame_data. inst is the index of the slot that
the pointer inst points to, idx the int64_t that data_ptr points to; header,
out_x, out_y and out_z are what the pointers of the caller point to. -/
def traj.decode_frame_data (E : Library α C) (s : State α C) (inst : Nat) (idx : Int)
    (data_size : Int) (header : Option (md_trajectory_frame_header_t α))
    (out_x out_y out_z : Option (List α)) : Option (Decoded α C) :=
  (s.loaded_trajectories[inst]?).bind (fun loaded_traj =>
  (ASSERT E (decide (data_size = 8))).bind (fun _ =>
  (if E.assertions then
    loaded_traj.traj.bind (fun t => ASSERT E (decide (0 ≤ idx ∧ idx < E.num_frames t)))
   else some ()).bind (fun _ =>
  loaded_traj.cache.bind (fun cache =>
  let r := E.frame_cache_find_or_reserve cache idx
  let calls := s.calls ++ [Call.frame_cache_find_or_reserve loaded_traj.key idx]
  (if r.in_cache then
    (E.frame_data r.cache r.frame_data).map (fun frame_data =>
      (true, frame_data, r.cache, calls))
   else
    loaded_traj.traj.bind (fun t =>
    (E.frame_data r.cache r.frame_data).bind (fun frame_data =>
      let decoded := E.decode_frame_data t (E.fetch_frame_data t idx) frame_data
      (if decoded.1 then postprocess E loaded_traj decoded.2 else some decoded.2).map
        (fun frame_data =>
          (decoded.1, frame_data, E.set_frame_data r.cache r.frame_data frame_data,
            calls ++ [Call.fetch_frame_data t idx, Call.fetch_frame_data t idx,
              Call.decode_frame_data t idx]))))).bind (fun p =>
  let result := p.1
  let frame_data := p.2.1
  (if result then
    (copy_out out_x frame_data.x frame_data.header.num_atoms).bind (fun x =>
    (copy_out out_y frame_data.y frame_data.header.num_atoms).bind (fun y =>
    (copy_out out_z frame_data.z frame_data.header.num_atoms).map (fun z =>
      (header.map (fun _ => frame_data.header), x, y, z))))
   else some (header, out_x, out_y, out_z)).map (fun out =>
  let cache := match r.lock with
    | some lock => E.frame_lock_release p.2.2.1 lock
    | none => p.2.2.1
  let calls := match r.lock with
    | some lock => p.2.2.2 ++ [Call.frame_lock_release lock]
    | none => p.2.2.2
  let loaded_traj := { loaded_traj with cache := some cache }
  { result := result, header := out.1, out_x := out.2.1, out_y := out.2.2.1,
    out_z := out.2.2.2,
    state := { s with
      loaded_trajectories := s.loaded_trajectories.set inst loaded_traj
      calls := calls } }))))))

/-- The function traj::load_frame. -/
def traj.load_frame (E : Library α C) (s : State α C) (inst : Nat) (idx : Int)
    (header : Option (md_trajectory_frame_header_t α)) (x y z : Option (List α)) :
    Option (Decoded α C) :=
  traj.decode_frame_data E s inst idx 8 header x y z

end operations

/-! ## A concrete library for evaluating the loader -/

/-- A frame cache for evaluating the loader: the number of frames it was
asked to hold, the frames that are resident with their indices, a pointer to
frame data being the place in this list, and the number of locks held. -/
structure model_cache where
  capacity : Int
  resident : List (Int × md_frame_data_t Int)
  locks : Nat
deriving DecidableEq, Repr

/-- The header of the frames of the model decoder: three atoms, no cell. -/
def model_header (idx : Int) : md_trajectory_frame_header_t Int :=
  ⟨3, idx, idx, ⟨⟨⟨0, 0, 0⟩, ⟨0, 0, 0⟩, ⟨0, 0, 0⟩⟩, ⟨⟨0, 0, 0⟩, ⟨0, 0, 0⟩, ⟨0, 0, 0⟩⟩, 0⟩⟩

/-- The frame number idx of the model decoder: atom i is at
(10 * idx + i, 0, idx). -/
def model_frame (idx : Int) : md_frame_data_t Int :=
  ⟨model_header idx, [10 * idx, 10 * idx + 1, 10 * idx + 2], [0, 0, 0], [idx, idx, idx]⟩

/-- The characters after the last dot of a file name, none without a dot. -/
def model_extract_ext (filename : str_t) : str_t :=
  if '.' ∈ filename.data then
    String.mk (filename.data.reverse.takeWhile (fun c => c ≠ '.')).reverse
  else ""

/-- A concrete library over the integers. A loader creates a decoder for
every file name but the empty one, at the address 100 plus the length of the
name; every decoder has three atoms and three frames, of which the last one
does not decode. The cache finds a frame by its index and reserves a new
place at the end otherwise; its lock is the place of the frame. -/
def model_library : Library Int model_cache :=
  { assertions := true
    VIAMD_FRAME_CACHE_SIZE := 1024
    physical_ram := 2 ^ 34
    str_equal := fun a b => decide (a = b)
    extract_ext := model_extract_ext
    create := fun _ filename => if filename.length = 0 then none else some (100 + filename.length)
    num_atoms := fun _ => 3
    num_frames := fun _ => 3
    fetch_frame_data := fun _ idx => [idx.toNat]
    decode_frame_data := fun _ bytes frame_data =>
      match bytes with
      | [idx] => if idx < 2 then (true, model_frame idx) else (false, frame_data)
      | _ => (false, frame_data)
    frame_cache_init := fun _ n => ⟨n, [], 0⟩
    frame_cache_free := fun c => ⟨0, [], c.locks⟩
    frame_cache_clear := fun c => ⟨c.capacity, [], c.locks⟩
    frame_cache_num_frames := fun c => c.capacity
    frame_cache_find_or_reserve := fun c idx =>
      match c.resident.findIdx? (fun p => p.1 = idx) with
      | some place => ⟨true, place, some place, { c with locks := c.locks + 1 }⟩
      | none =>
        ⟨false, c.resident.length, some c.resident.length,
          { c with resident := c.resident ++ [(idx, model_frame 0)], locks := c.locks + 1 }⟩
    frame_data := fun c place => (c.resident[place]?).map (fun p => p.2)
    set_frame_data := fun c place frame_data =>
      { c with resident := c.resident.modify (fun p => (p.1, frame_data)) place }
    frame_lock_release := fun c _ => { c with locks := c.locks - 1 }
    compute_com := fun x y z _ _ => ⟨x.sum, y.sum, z.sum⟩
    compute_com_ortho := fun x y z _ _ _ => ⟨x.sum, y.sum, z.sum⟩
    vec3_deperiodize := fun v _ _ => v
    deperiodize_system := fun x y z _ _ => (x, y, z) }

/-! ## Example states of the loader -/

/-- A molecule of three atoms. -/
def example_md_molecule : md_molecule_t Int := ⟨3, [1, 1, 1], []⟩

/-- The state after open_file on the file a.pdb, at the address 1000. -/
def example_opened : Option (Option Nat × State Int model_cache) :=
  traj.open_file model_library State.init "a.pdb" none example_md_molecule 1 false 1000

/-- The state after a second open_file, on the file bb.xtc at the address 2000. -/
def example_opened_twice : Option (Option Nat × State Int model_cache) :=
  example_opened.bind (fun r =>
    traj.open_file model_library r.2 "bb.xtc" none example_md_molecule 1 false 2000)

/-- The state after the two calls of open_file and two calls of
add_loaded_molecule, with the keys 11 and 22. -/
def example_registry : State Int model_cache :=
  (example_opened_twice.bind (fun r =>
    (add_loaded_molecule model_library r.2 ⟨11, 1⟩).bind (fun s =>
      add_loaded_molecule model_library s ⟨22, 1⟩))).getD State.init

/-- The example registry after decode_frame_data has decoded frame 1 of the
second trajectory, whose entry is in slot 1. -/
def example_cached : State Int model_cache :=
  ((traj.decode_frame_data model_library example_registry 1 1 8 none none none none).map
    (fun d => d.state)).getD State.init

/-! ## Further example states of the loader -/

/-- The state after the two calls of open_file and close on the first handle. -/
def example_closed_first : Option (Bool × State Int model_cache) :=
  example_opened_twice.bind (fun r => traj.close model_library r.2 1000)

/-- The state after a third open_file, on the file ccc.trr at the address 3000. -/
def example_reopened : Option (Option Nat × State Int model_cache) :=
  example_closed_first.bind (fun r =>
    traj.open_file model_library r.2 "ccc.trr" none example_md_molecule 1 false 3000)

/-! ## The center of mass -/

section recenter

variable {α C : Type} [Ring α] [Div α]

/-- The sum of the masses of the atoms of the indices. -/
def total_mass (mass : List α) (indices : List Nat) : α :=
  (indices.map (fun i => mass.getD i 0)).sum

/-- The sum over the atoms of the indices of mass times coordinate. -/
def weighted_sum (x mass : List α) (indices : List Nat) : α :=
  (indices.map (fun i => mass.getD i 0 * x.getD i 0)).sum

/-- Modelled from the spec: md_util_compute_com (md_util.h) is missing; the
center of mass of the atoms of the indices, with the per-atom masses as
weights. -/
def center_of_mass (x y z mass : List α) (indices : List Nat) : vec3_t α :=
  ⟨weighted_sum x mass indices / total_mass mass indices,
   weighted_sum y mass indices / total_mass mass indices,
   weighted_sum z mass indices / total_mass mass indices⟩

/-- The vector box_ext of decode_frame_data (line 201). -/
def box_ext (frame_data : md_frame_data_t α) : vec3_t α :=
  mat3_mul_vec3 frame_data.header.unit_cell.basis (vec3_set1 1)

/-- The vector com of decode_frame_data (lines 203-205), for the molecule mol
and the mask bf. -/
def recenter_com (E : Library α C) (mol : md_molecule_t α) (bf : md_bitfield_t)
    (frame_data : md_frame_data_t α) : vec3_t α :=
  if frame_data.header.unit_cell.flags ≠ 0 then
    E.vec3_deperiodize
      (E.compute_com_ortho frame_data.x frame_data.y frame_data.z mol.atom_mass bf
        (box_ext frame_data))
      ((box_ext frame_data).scale (1 / 2)) (box_ext frame_data)
  else E.compute_com frame_data.x frame_data.y frame_data.z mol.atom_mass bf

/-- The vector trans of decode_frame_data (line 208). -/
def recenter_trans (E : Library α C) (mol : md_molecule_t α) (bf : md_bitfield_t)
    (frame_data : md_frame_data_t α) : vec3_t α :=
  if frame_data.header.unit_cell.flags ≠ 0 then
    ((box_ext frame_data).scale (1 / 2)).sub (recenter_com E mol bf frame_data)
  else (recenter_com E mol bf frame_data).neg

/-- The point that the claim names for the center of the target: half the box
extent for a frame with a unit cell, the origin otherwise. -/
def recenter_goal (frame_data : md_frame_data_t α) : vec3_t α :=
  if frame_data.header.unit_cell.flags ≠ 0 then (box_ext frame_data).scale (1 / 2)
  else ⟨0, 0, 0⟩

end recenter

/-! ## A concrete library over the rationals -/

/-- Modelled from the spec: deperiodize (md_util.h) is missing; the image of
the coordinate x under shifts by the period ext that is nearest to ref. -/
def model_deperiodize (x ref ext : ℚ) : ℚ :=
  if ext = 0 then x else x - ext * ⌊(x - ref) / ext + 1 / 2⌋

/-- Modelled from the spec: md_util_compute_com_ortho is missing; along one
axis, the weighted mean of the coordinates of the atoms of the indices, each
taken at its image nearest to the first of them. -/
def model_com_axis (x mass : List ℚ) (indices : List Nat) (ext : ℚ) : ℚ :=
  let ref := x.getD (indices.headD 0) 0
  (indices.map (fun i => mass.getD i 0 * model_deperiodize (x.getD i 0) ref ext)).sum /
    total_mass mass indices

/-- Modelled from the spec: md_util_deperiodize_system is missing; for a
molecule without structures of several atoms every coordinate is brought into
the box, between 0 and the extent. -/
def model_wrap (ext : ℚ) (x : List ℚ) : List ℚ :=
  x.map (fun v => if ext = 0 then v else v - ext * ⌊v / ext⌋)

/-- A frame of two atoms without a unit cell: the atoms are at x = 1 and
x = 3. -/
def model_frame_free : md_frame_data_t ℚ :=
  ⟨⟨2, 0, 0, ⟨⟨⟨0, 0, 0⟩, ⟨0, 0, 0⟩, ⟨0, 0, 0⟩⟩, ⟨⟨0, 0, 0⟩, ⟨0, 0, 0⟩, ⟨0, 0, 0⟩⟩, 0⟩⟩,
    [1, 3], [0, 0], [0, 0]⟩

/-- A frame of two atoms in a cubic cell of extent 10: the atoms are at
x = 1 and x = 8, neighbours across the boundary of the cell. -/
def model_frame_cell : md_frame_data_t ℚ :=
  ⟨⟨2, 1, 1, ⟨⟨⟨10, 0, 0⟩, ⟨0, 10, 0⟩, ⟨0, 0, 10⟩⟩,
    ⟨⟨1 / 10, 0, 0⟩, ⟨0, 1 / 10, 0⟩, ⟨0, 0, 1 / 10⟩⟩, 1⟩⟩,
    [1, 8], [5, 5], [5, 5]⟩

/-- A concrete library over the rationals, with a frame cache that is the
list of the resident frames. Every decoder has two atoms and two frames, the
first without a unit cell and the second in a cubic cell. -/
def model_library_rat : Library ℚ (List (Int × md_frame_data_t ℚ)) :=
  { assertions := true
    VIAMD_FRAME_CACHE_SIZE := 1024
    physical_ram := 2 ^ 34
    str_equal := fun a b => decide (a = b)
    extract_ext := model_extract_ext
    create := fun _ filename => if filename.length = 0 then none else some (100 + filename.length)
    num_atoms := fun _ => 2
    num_frames := fun _ => 2
    fetch_frame_data := fun _ idx => [idx.toNat]
    decode_frame_data := fun _ bytes frame_data =>
      match bytes with
      | [0] => (true, model_frame_free)
      | [1] => (true, model_frame_cell)
      | _ => (false, frame_data)
    frame_cache_init := fun _ _ => []
    frame_cache_free := fun _ => []
    frame_cache_clear := fun _ => []
    frame_cache_num_frames := fun _ => 2
    frame_cache_find_or_reserve := fun c idx =>
      match c.findIdx? (fun p => p.1 = idx) with
      | some place => ⟨true, place, none, c⟩
      | none => ⟨false, c.length, none, c ++ [(idx, model_frame_free)]⟩
    frame_data := fun c place => (c.get? place).map (fun p => p.2)
    set_frame_data := fun c place frame_data => c.modify (fun p => (p.1, frame_data)) place
    frame_lock_release := fun c _ => c
    compute_com := center_of_mass
    compute_com_ortho := fun x y z mass indices ext =>
      ⟨model_com_axis x mass indices ext.x, model_com_axis y mass indices ext.y,
        model_com_axis z mass indices ext.z⟩
    vec3_deperiodize := fun v ref ext =>
      ⟨model_deperiodize v.x ref.x ext.x, model_deperiodize v.y ref.y ext.y,
        model_deperiodize v.z ref.z ext.z⟩
    deperiodize_system := fun x y z _ cell =>
      (model_wrap cell.basis.col0.x x, model_wrap cell.basis.col1.y y,
        model_wrap cell.basis.col2.z z) }

/-- A molecule of two atoms with the masses 1 and 3. -/
def example_md_molecule_rat : md_molecule_t ℚ := ⟨2, [1, 3], []⟩

/-- The state after open_file on the file bb.xtc with the rational library,
at the address 2000, and set_recenter_target with the mask. -/
def example_recentered (mask : md_bitfield_t) (deperiodize_on_load : Bool) :
    State ℚ (List (Int × md_frame_data_t ℚ)) :=
  ((traj.open_file model_library_rat State.init "bb.xtc" none example_md_molecule_rat 1
      deperiodize_on_load 2000).bind (fun r =>
    (traj.set_recenter_target model_library_rat r.2 2000 (some mask)).map
      (fun r => r.2))).getD State.init

end load

namespace molecule_utils

open stats (vec3 for_range Residue load)

/-! ## Types of molecule_utils.cpp -/

/-- Modelled from the spec: the struct Bond (mol/molecule_structure.h) is
missing; a bond is a pair of atom indices, or of residue indices. -/
structure Bond where
  idx_a : Int
  idx_b : Int
deriving DecidableEq, Repr

/-- Modelled from the spec: the struct Chain (mol/molecule_structure.h) is
missing; a chain has a label and the range of its residues, from beg_res_idx
up to end_res_idx (excluded). -/
structure Chain where
  id : String
  beg_res_idx : Int
  end_res_idx : Int
deriving DecidableEq, Repr

/-- Modelled from the spec: the type Element (mol/element.h) is missing; the
number of a chemical element. -/
abbrev Element := Nat

section operations

variable {α : Type}

/-- Modelled from the spec: math::min (core/math_utils.h) on vec3 is missing;
the componentwise minimum. -/
def vec3_min [Min α] (a b : vec3 α) : vec3 α := ⟨min a.x b.x, min a.y b.y, min a.z b.z⟩

/-- Modelled from the spec: math::max (core/math_utils.h) on vec3 is missing;
the componentwise maximum. -/
def vec3_max [Max α] (a b : vec3 α) : vec3 α := ⟨max a.x b.x, max a.y b.y, max a.z b.z⟩

/-- The function compute_bounding_box: what it leaves in min_box and max_box.
The test for an empty array sets both to zero and does not return; the next
statement overwrites them with positions.data[0]. A read outside the array
ends the run. -/
def compute_bounding_box [Min α] [Max α] (positions : List (vec3 α)) :
    Option (vec3 α × vec3 α) :=
  (positions[0]?).bind (fun first =>
    for_range (fun i (box : vec3 α × vec3 α) =>
      (positions[i]?).map (fun p => (vec3_min box.1 p, vec3_max box.2 p)))
      0 positions.length (first, first))

/-- Element write xs[i] = v with an int index. -/
def store {β : Type} (xs : List β) (i : Int) (v : β) : Option (List β) :=
  if 0 ≤ i ∧ i.toNat < xs.length then some (xs.set i.toNat v) else none

/-- The loop for (int i = lo; i < hi; i++) over a state. -/
def for_int {σ : Type} (body : Int → σ → Option σ) (lo hi : Int) (s : σ) : Option σ :=
  for_range (fun k s => body (lo + k) s) 0 (hi - lo).toNat s

/-- Modelled from the spec: glm::dot is missing; the dot product. -/
def dot [Add α] [Mul α] (a b : vec3 α) : α := a.x * b.x + a.y * b.y + a.z * b.z

/-- The lambda try_and_create_atom_bond of compute_atomic_bonds: its return
value and the bonds afterwards. The covalent radius of an element
(element::covalent_radius, outside the source tree) is a parameter. -/
def try_and_create_atom_bond [Ring α] [Div α] [LT α] [DecidableRel (fun a b : α => a < b)]
    (covalent_radius : Element → α) (pos : List (vec3 α)) (elem : List Element)
    (bonds : List Bond) (i j : Int) : Option (Bool × List Bond) :=
  (load elem i).bind (fun elem_i =>
  (load elem j).bind (fun elem_j =>
  (load pos i).bind (fun pos_i =>
  (load pos j).map (fun pos_j =>
    let d := covalent_radius elem_i + covalent_radius elem_j
    let d1 := d + 3 / 10
    let d2 := d - 5 / 10
    let v := pos_i - pos_j
    let dist2 := dot v v
    if dist2 < d1 * d1 ∧ d2 * d2 < dist2 then (true, bonds ++ [⟨i, j⟩])
    else (false, bonds)))))

/-- The function compute_atomic_bonds. The array residues is none when it
converts to false. -/
def compute_atomic_bonds [Ring α] [Div α] [LT α] [DecidableRel (fun a b : α => a < b)]
    (covalent_radius : Element → α) (atom_pos : List (vec3 α)) (atom_elem : List Element)
    (residues : Option (List Residue)) : Option (List Bond) :=
  if atom_pos.length ≠ atom_elem.length then none
  else
    let try_bond := fun (i j : Int) (bonds : List Bond) =>
      (try_and_create_atom_bond covalent_radius atom_pos atom_elem bonds i j).map
        (fun r => r.2)
    match residues with
    | some residues =>
      (for_range (fun i bonds =>
        (residues[i]?).bind (fun res =>
          for_int (fun atom_i bonds =>
            for_int (fun atom_j bonds => try_bond atom_i atom_j bonds)
              (atom_i + 1) res.end_atom_idx bonds)
            res.beg_atom_idx (res.end_atom_idx - 1) bonds))
        0 residues.length []).bind (fun bonds =>
      for_int (fun res_i bonds =>
        (load residues res_i).bind (fun ri =>
        (load residues (res_i + 1)).bind (fun rj =>
          for_int (fun atom_i bonds =>
            for_int (fun atom_j bonds => try_bond atom_i atom_j bonds)
              rj.beg_atom_idx rj.end_atom_idx bonds)
            ri.beg_atom_idx ri.end_atom_idx bonds)))
        0 ((residues.length : Int) - 1) bonds)
    | none =>
      let atom_count : Int := atom_pos.length
      for_int (fun atom_i bonds =>
        for_int (fun atom_j bonds => try_bond atom_i atom_j bonds) 1 atom_count bonds)
        0 (atom_count - 1) []

/-- The loop over the bonds in compute_chains, as a loop over the bonds from
res_bond_idx on: the array residue_chains and res_bond_idx when the loop is
left, at the end of the bonds or through the break. -/
def scan_residue_bonds (i : Int) : List Bond → List Int → Nat → Option (List Int × Nat)
  | [], residue_chains, res_bond_idx => some (residue_chains, res_bond_idx)
  | res_bond :: rest, residue_chains, res_bond_idx =>
    if i = res_bond.idx_a then
      (load residue_chains res_bond.idx_a).bind (fun chain =>
      (store residue_chains res_bond.idx_b chain).bind (fun residue_chains =>
        scan_residue_bonds i rest residue_chains (res_bond_idx + 1)))
    else if i < res_bond.idx_a then some (residue_chains, res_bond_idx)
    else scan_residue_bonds i rest residue_chains (res_bond_idx + 1)

/-- The bonds between residues that compute_chains collects from the bonds
between atoms. -/
def collect_residue_bonds (bonds : List Bond) (atom_residue_indices : List Int) :
    Option (List Bond) :=
  for_range (fun k residue_bonds =>
    (bonds[k]?).bind (fun bond =>
    (load atom_residue_indices bond.idx_a).bind (fun res_a =>
    (load atom_residue_indices bond.idx_b).map (fun res_b =>
      if res_a ≠ res_b then residue_bonds ++ [⟨res_a, res_b⟩] else residue_bonds))))
    0 bonds.length []

/-- The label of a chain: what snprintf writes for the format C%i into a
buffer of Label::MAX_LENGTH characters, the terminating zero included. The
constant is a parameter, the type Label being outside the source tree. -/
def chain_label (MAX_LENGTH : Nat) (chain_idx : Int) : String :=
  String.mk (("C" ++ toString chain_idx).data.take (MAX_LENGTH - 1))

/-- The first loop of compute_chains: the chain index of every residue. -/
def assign_residue_chains (residue_count : Nat) (residue_bonds : List Bond) :
    Option (List Int × Int × Nat) :=
  for_range (fun i (st : List Int × Int × Nat) =>
    (st.1[i]?).bind (fun chain =>
      let st1 : Option (List Int × Int) :=
        if chain = -1 then (store st.1 i st.2.1).map (fun rc => (rc, st.2.1 + 1))
        else some (st.1, st.2.1)
      st1.bind (fun st1 =>
        (scan_residue_bonds i (residue_bonds.drop st.2.2) st1.1 st.2.2).map
          (fun r => (r.1, st1.2, r.2)))))
    0 residue_count (List.replicate residue_count (-1), 0, 0)

/-- The second loop of compute_chains: one chain for every run of equal chain
indices. The pair holds the chains and curr_chain_idx. -/
def collect_chains (MAX_LENGTH : Nat) (residue_chains : List Int) : Option (List Chain) :=
  (for_range (fun i (st : List Chain × Int) =>
    (residue_chains[i]?).bind (fun chain =>
      let st1 : List Chain × Int :=
        if chain ≠ st.2 then (st.1 ++ [⟨chain_label MAX_LENGTH chain, i, i⟩], chain) else st
      (st1.1.getLast?).map (fun back =>
        (st1.1.dropLast ++ [{ back with end_res_idx := back.end_res_idx + 1 }], st1.2))))
    0 residue_chains.length ([], -1)).map (fun st => st.1)

/-- The function compute_chains. The array atom_residue_indices is none when
it converts to false; ASSERT(false) then ends the run when assertions are
compiled in, which the flag says, and is passed otherwise. -/
def compute_chains (assertions : Bool) (MAX_LENGTH : Nat) (residues : List Residue)
    (bonds : List Bond) (atom_residue_indices : Option (List Int)) : Option (List Chain) :=
  let residue_bonds : Option (List Bond) :=
    match atom_residue_indices with
    | some atom_residue_indices => collect_residue_bonds bonds atom_residue_indices
    | none => if assertions then none else some []
  residue_bonds.bind (fun residue_bonds =>
  (assign_residue_chains residues.length residue_bonds).bind (fun r =>
    collect_chains MAX_LENGTH r.1))

end operations


/-! ## Notions used to state the properties of compute_chains -/

/-- Chains that cover the residues from beg up to stop (excluded) by
consecutive non-empty ranges: the first chain begins at beg, each chain begins
where the previous one ends, and the last chain ends at stop. -/
def consecutive_ranges : List Chain → Int → Int → Prop
  | [], beg, stop => beg = stop
  | c :: rest, beg, stop =>
    c.beg_res_idx = beg ∧ c.beg_res_idx < c.end_res_idx ∧
      consecutive_ranges rest c.end_res_idx stop

instance instDecidableConsecutiveRanges (chains : List Chain) (beg stop : Int) :
    Decidable (consecutive_ranges chains beg stop) := by
  induction chains generalizing beg with
  | nil => unfold consecutive_ranges; infer_instance
  | cons c rest ih =>
    unfold consecutive_ranges
    have := ih c.end_res_idx
    infer_instance

/-- The entries of residue_chains during the first loop over the residues:
none is below -1, and none before residue i is negative. -/
def chains_assigned (n : Nat) (i : Nat) (rc : List Int) : Prop :=
  rc.length = n ∧ ∀ (j : Nat) (v : Int), rc[j]? = some v → -1 ≤ v ∧ (j < i → 0 ≤ v)

/-! ## Example inputs -/

/-- Four residues of six atoms. -/
def example_residues : List Residue := [⟨"A", 0, 2⟩, ⟨"B", 2, 4⟩, ⟨"C", 4, 5⟩, ⟨"D", 5, 6⟩]

/-- The residue of each of the six atoms. -/
def example_atom_residue_indices : List Int := [0, 0, 1, 1, 2, 3]

/-- Bonds of the six atoms: two of them join residues, 0 with 1 and 2 with 3. -/
def example_bonds : List Bond := [⟨0, 1⟩, ⟨1, 2⟩, ⟨4, 5⟩]

/-- Every element has the covalent radius 1/2. -/
def example_radius : Element → ℚ := fun _ => 1 / 2

/-- Four atoms on a line, of which only the second and the third are at a
bonding distance. -/
def example_positions : List (vec3 ℚ) := [⟨0, 0, 0⟩, ⟨10, 0, 0⟩, ⟨11, 0, 0⟩, ⟨20, 0, 0⟩]

end molecule_utils

namespace stats

/-! ## Lemmas on loops and lookups -/

section lemmas

set_option linter.unusedSectionVars false

variable {α : Type} [Ring α] [Div α]

theorem for_range_succ {σ : Type} (body : Nat → σ → Option σ) (i n : Nat) (s : σ) :
    for_range body i (n + 1) s = (for_range body i n s).bind (body (i + n)) := by
  induction n generalizing i s with
  | zero => simp [for_range]
  | succ n ih =>
    rw [for_range]
    cases h : body i s with
    | none => simp [for_range, h]
    | some s1 =>
      simp only [Option.some_bind]
      rw [ih (i + 1) s1]
      conv_rhs => rw [for_range, h, Option.some_bind]
      have : i + 1 + n = i + (n + 1) := by omega
      rw [this]

/-- An invariant of the loop body holds of the state that a loop returns. -/
theorem for_range_invariant {σ : Type} (body : Nat → σ → Option σ) (P : Nat → σ → Prop)
    (i n : Nat) (s s1 : σ)
    (hstep : ∀ k t t1, k < n → P k t → body (i + k) t = some t1 → P (k + 1) t1)
    (h0 : P 0 s) (hrun : for_range body i n s = some s1) : P n s1 := by
  induction n generalizing s1 with
  | zero =>
    simp only [for_range, Option.some.injEq] at hrun
    exact hrun ▸ h0
  | succ n ih =>
    rw [for_range_succ] at hrun
    cases hm : for_range body i n s with
    | none => simp [hm] at hrun
    | some t =>
      rw [hm, Option.some_bind] at hrun
      have hP : P n t := ih t (fun k u u1 hk => hstep k u u1 (by omega)) hm
      exact hstep n t s1 (by omega) hP hrun

/-- A loop whose body returns on every state that satisfies the invariant returns. -/
theorem for_range_total {σ : Type} (body : Nat → σ → Option σ) (P : Nat → σ → Prop)
    (i n : Nat) (s : σ)
    (hstep : ∀ k t, k < n → P k t → ∃ t1, body (i + k) t = some t1 ∧ P (k + 1) t1)
    (h0 : P 0 s) : ∃ s1, for_range body i n s = some s1 ∧ P n s1 := by
  induction n with
  | zero => exact ⟨s, rfl, h0⟩
  | succ n ih =>
    obtain ⟨t, ht, hP⟩ := ih (fun k u hk => hstep k u (by omega))
    obtain ⟨t1, ht1, hP1⟩ := hstep n t (by omega) hP
    exact ⟨t1, by rw [for_range_succ, ht, Option.some_bind, ht1], hP1⟩

theorem returns_series_iff (dynamic : MoleculeDynamic α) (count : Nat)
    (prop_cmd : PropertyCommand α) (args : List CString) (s : Structure) :
    returns_series dynamic count prop_cmd args s ↔
    ∃ r, prop_cmd.func (List.replicate count 0) args dynamic s = some r ∧ count ≤ r.2.length := by
  unfold returns_series
  cases h : prop_cmd.func (List.replicate count 0) args dynamic s with
  | none => simp
  | some r => simp

theorem store_length {β : Type} (data data1 : List β) (i : Nat) (v : β)
    (h : store data i v = some data1) : data1.length = data.length := by
  unfold store at h
  split at h
  · simp only [Option.some.injEq] at h
    rw [← h, List.length_set]
  · simp at h

theorem find_id_getElem {T : Type} [HasID T] (l : List T) (id : ID) (k : Nat) (x : T)
    (h : find_id l id = some (k, x)) : l[k]? = some x ∧ HasID.id x = id := by
  induction l generalizing k with
  | nil => simp [find_id] at h
  | cons a l ih =>
    unfold find_id at h
    split at h
    · rename_i ha
      simp only [Option.some.injEq, Prod.mk.injEq] at h
      obtain ⟨rfl, rfl⟩ := h
      exact ⟨by simp, ha⟩
    · cases hr : find_id l id with
      | none => simp [hr] at h
      | some r =>
        simp only [hr, Option.map_some', Option.some.injEq, Prod.mk.injEq] at h
        obtain ⟨rfl, rfl⟩ := h
        have := ih r.1 (by rw [hr])
        simpa using this

theorem find_id_mem {T : Type} [HasID T] (l : List T) (id : ID) (k : Nat) (x : T)
    (h : find_id l id = some (k, x)) : x ∈ l :=
  List.mem_iff_getElem?.mpr ⟨k, (find_id_getElem l id k x h).1⟩

theorem find_id_append {T : Type} [HasID T] (l l1 : List T) (id : ID) (r : Nat × T)
    (h : find_id l id = some r) : find_id (l ++ l1) id = some r := by
  induction l generalizing r with
  | nil => simp [find_id] at h
  | cons a l ih =>
    simp only [List.cons_append]
    unfold find_id at h ⊢
    split
    · rename_i ha
      simpa [ha] using h
    · rename_i ha
      simp only [ha, if_false] at h
      cases hr : find_id l id with
      | none => simp [hr] at h
      | some r1 => rw [ih r1 hr]; rw [hr] at h; exact h

theorem find_id_isSome_of_mem {T : Type} [HasID T] (l : List T) (x : T) (h : x ∈ l) :
    (find_id l (HasID.id x)).isSome := by
  induction l with
  | nil => simp at h
  | cons a l ih =>
    unfold find_id
    split
    · rfl
    · rename_i ha
      rcases List.mem_cons.mp h with rfl | hx
      · exact absurd rfl ha
      · have := ih hx
        cases hr : find_id l (HasID.id x) with
        | none => simp [hr] at this
        | some r => simp

/-- In an array where an id occurs once, find_id points to the item that carries it. -/
theorem find_id_of_count {T : Type} [HasID T] (l : List T) (k : Nat) (x : T)
    (hx : l[k]? = some x) (hc : (l.map HasID.id).count (HasID.id x) ≤ 1) :
    find_id l (HasID.id x) = some (k, x) := by
  induction l generalizing k with
  | nil => simp at hx
  | cons a l ih =>
    unfold find_id
    cases k with
    | zero =>
      simp only [List.getElem?_cons_zero, Option.some.injEq] at hx
      simp [hx]
    | succ k =>
      simp only [List.getElem?_cons_succ] at hx
      have hmem : HasID.id x ∈ l.map HasID.id :=
        List.mem_map.mpr ⟨x, List.mem_iff_getElem?.mpr ⟨k, hx⟩, rfl⟩
      have hpos : 0 < (l.map HasID.id).count (HasID.id x) := List.count_pos_iff.mpr hmem
      simp only [List.map_cons, List.count_cons] at hc
      have hne : ¬ HasID.id a = HasID.id x := by
        intro ha
        simp [ha] at hc
        omega
      have hc1 : (l.map HasID.id).count (HasID.id x) ≤ 1 := by omega
      simp only [hne, if_false]
      rw [ih k hx hc1]
      rfl

theorem match_by_resname_inner {α : Type} (E : Env α) (res : Residue) (args : List CString)
    (result : List Structure) :
    args.foldl (fun result arg =>
      if E.compare res.name arg then result ++ [⟨res.beg_atom_idx, res.end_atom_idx⟩]
      else result) result =
    result ++ (args.filter (fun arg => E.compare res.name arg)).map
      (fun _ => (⟨res.beg_atom_idx, res.end_atom_idx⟩ : Structure)) := by
  induction args generalizing result with
  | nil => simp
  | cons a args ih =>
    simp only [List.foldl_cons, List.filter_cons]
    rw [ih]
    cases h : E.compare res.name a <;> simp

/-- The result of match_by_resname: one structure for each pair of a residue
and an argument that compare equal, residue after residue. -/
theorem match_by_resname_eq {α : Type} (E : Env α) (args : List CString)
    (mol : MoleculeStructure) :
    match_by_resname E args mol =
    mol.residues.flatMap (fun res =>
      (args.filter (fun arg => E.compare res.name arg)).map
        (fun _ => (⟨res.beg_atom_idx, res.end_atom_idx⟩ : Structure))) := by
  unfold match_by_resname
  suffices h : ∀ (rs : List Residue) (acc : List Structure),
      rs.foldl (fun result res =>
        args.foldl (fun result arg =>
          if E.compare res.name arg then result ++ [⟨res.beg_atom_idx, res.end_atom_idx⟩]
          else result) result) acc =
      acc ++ rs.flatMap (fun res =>
        (args.filter (fun arg => E.compare res.name arg)).map
          (fun _ => (⟨res.beg_atom_idx, res.end_atom_idx⟩ : Structure))) by
    simpa using h mol.residues []
  intro rs
  induction rs with
  | nil => simp
  | cons r rs ih =>
    intro acc
    simp only [List.foldl_cons, List.flatMap_cons]
    rw [match_by_resname_inner, ih, List.append_assoc]

/-! ## The loop of compute_stats over the groups -/

theorem get_group_instance_scan_eq (group_id : ID) (insts : List GroupInstance) (c : Int)
    (i : Nat) :
    get_group_instance_scan group_id (c + i) insts c =
    (((insts.filter (fun inst => inst.group_id = group_id))[i]?).map (fun inst => inst.id)).getD
      INVALID_ID := by
  induction insts generalizing c i with
  | nil => simp [get_group_instance_scan]
  | cons inst rest ih =>
    unfold get_group_instance_scan
    by_cases hg : inst.group_id = group_id
    · simp only [hg, if_true, List.filter_cons, decide_True]
      cases i with
      | zero => simp
      | succ j =>
        have hne : ¬ c = c + ((j + 1 : Nat) : Int) := by omega
        simp only [hne, if_false, List.getElem?_cons_succ]
        have := ih (c + 1) j
        have he : c + 1 + (j : Int) = c + ((j + 1 : Nat) : Int) := by omega
        rw [he] at this
        exact this
    · simp only [hg, if_false, List.filter_cons, decide_False]
      exact ih c i

theorem get_group_instance_eq (ctx : StatisticsContext α) (group_id : ID) (i : Nat) :
    get_group_instance ctx group_id i =
    (((instances_of ctx group_id)[i]?).map (fun inst => inst.id)).getD INVALID_ID := by
  have := get_group_instance_scan_eq group_id ctx.group_instances 0 i
  simpa [get_group_instance, instances_of] using this

theorem compute_stats_instances_append (E : Env α) (i : Nat) (ms : List Structure) (g : Group)
    (insts : List GroupInstance) :
    compute_stats_instances E i ms g insts =
    ((compute_stats_instances E i ms g []).1, insts ++ (compute_stats_instances E i ms g []).2) := by
  induction ms generalizing i g insts with
  | nil => simp [compute_stats_instances]
  | cons m rest ih =>
    simp only [compute_stats_instances]
    rw [ih]
    conv_rhs => rw [ih]
    simp

theorem count_instance_fields (g : Group) (i : Nat) (instance_id : ID) :
    (count_instance g i instance_id).id = g.id ∧
    (count_instance g i instance_id).name = g.name ∧
    (count_instance g i instance_id).cmd_id = g.cmd_id ∧
    (count_instance g i instance_id).args = g.args ∧
    (count_instance g i instance_id).instance_count =
      (if i = 0 then 0 else g.instance_count) + 1 := by
  unfold count_instance
  by_cases hi : i = 0 <;> simp [hi]

/-- The instances appended for a group carry its id and, in order, the
matched structures; the name, id, command and arguments of the group stay. -/
theorem compute_stats_instances_shape (E : Env α) (i : Nat) (ms : List Structure) (g : Group) :
    ((compute_stats_instances E i ms g []).2.map (fun inst => inst.structure_) = ms) ∧
    (∀ inst ∈ (compute_stats_instances E i ms g []).2, inst.group_id = g.id) ∧
    (compute_stats_instances E i ms g []).1.id = g.id ∧
    (compute_stats_instances E i ms g []).1.name = g.name ∧
    (compute_stats_instances E i ms g []).1.cmd_id = g.cmd_id ∧
    (compute_stats_instances E i ms g []).1.args = g.args ∧
    (compute_stats_instances E i ms g []).1.instance_count =
      (if ms = [] then g.instance_count
       else (if i = 0 then 0 else g.instance_count) + ms.length) := by
  induction ms generalizing i g with
  | nil => simp [compute_stats_instances]
  | cons m rest ih =>
    simp only [compute_stats_instances]
    rw [compute_stats_instances_append]
    obtain ⟨h1, h2, h3, h4, h5, h6, h7⟩ :=
      ih (i + 1) (count_instance g i (new_instance E g i m).id)
    obtain ⟨c1, c2, c3, c4, c5⟩ := count_instance_fields g i (new_instance E g i m).id
    refine ⟨?_, ?_, ?_, ?_, ?_, ?_, ?_⟩
    · simp only [List.nil_append, List.singleton_append, List.map_cons, h1]
      rfl
    · intro inst hinst
      simp only [List.nil_append, List.mem_append, List.mem_singleton] at hinst
      rcases hinst with rfl | hinst
      · rfl
      · rw [h2 inst hinst, c1]
    · rw [h3, c1]
    · rw [h4, c2]
    · rw [h5, c3]
    · rw [h6, c4]
    · rw [h7, c5]
      simp only [Nat.succ_ne_zero, if_false, List.length_cons, reduceCtorEq]
      split <;> simp_all
      omega

theorem compute_stats_instances_count (E : Env α) (ms : List Structure) (g : Group)
    (hg : g.instance_count = 0) :
    (compute_stats_instances E 0 ms g []).1.instance_count = ms.length := by
  rw [(compute_stats_instances_shape E 0 ms g).2.2.2.2.2.2]
  split
  · rename_i h
    simp [h, hg]
  · simp

/-- What resolve_group returns: a group with the same id and name, and
instances that carry this id. -/
theorem resolve_group_shape (E : Env α) (cmds : List GroupCommand) (mol : MoleculeStructure)
    (g : Group) :
    (resolve_group E cmds mol g).1.id = g.id ∧
    (resolve_group E cmds mol g).1.name = g.name ∧
    (∀ inst ∈ (resolve_group E cmds mol g).2, inst.group_id = g.id) ∧
    (g.instance_count ≠ 0 → resolve_group E cmds mol g = (g, [])) := by
  unfold resolve_group
  split
  · split
    · simp
    · rename_i k gc hfind
      have h := compute_stats_instances_shape E 0 (gc.func (tokens E g.args) mol) g
      exact ⟨h.2.2.1, h.2.2.2.1, h.2.1, fun hne => absurd (by assumption) hne⟩
  · simp

/-- An unresolved group whose command is registered gets one instance for
each structure that the command returns, in order. -/
theorem resolve_group_unresolved (E : Env α) (cmds : List GroupCommand)
    (mol : MoleculeStructure) (g : Group) (k : Nat) (gc : GroupCommand)
    (hg : g.instance_count = 0) (hgc : find_id cmds g.cmd_id = some (k, gc)) :
    (resolve_group E cmds mol g).2.map (fun inst => inst.structure_) =
      gc.func (tokens E g.args) mol ∧
    (resolve_group E cmds mol g).1.instance_count = (gc.func (tokens E g.args) mol).length ∧
    ((gc.func (tokens E g.args) mol) = [] → (resolve_group E cmds mol g).1 = g) := by
  unfold resolve_group
  simp only [hg, if_true, hgc]
  refine ⟨(compute_stats_instances_shape E 0 _ g).1, compute_stats_instances_count E _ g hg, ?_⟩
  intro hnil
  rw [hnil]
  rfl

theorem compute_stats_group_eq (E : Env α) (mol : MoleculeStructure) (g : Group)
    (ctx : StatisticsContext α) (r : Group × StatisticsContext α)
    (h : compute_stats_group E mol g ctx = some r) :
    r = ((resolve_group E ctx.group_commands mol g).1,
         { ctx with group_instances :=
            ctx.group_instances ++ (resolve_group E ctx.group_commands mol g).2 }) := by
  unfold compute_stats_group at h
  unfold resolve_group
  split at h
  · rename_i hg
    simp only [hg, if_true]
    split at h
    · simp at h
    · rename_i k gc hfind
      dsimp only at h
      split at h
      · rename_i hlen
        have hnil : gc.func (tokens E g.args) mol = [] := List.length_eq_zero.mp hlen
        simp only [Option.some.injEq] at h
        rw [← h, hnil]
        simp [compute_stats_instances]
      · simp only [Option.some.injEq] at h
        rw [← h, compute_stats_instances_append]
  · rename_i hg
    simp only [Option.some.injEq] at h
    simp [hg, ← h]

theorem compute_stats_group_total (E : Env α) (mol : MoleculeStructure) (g : Group)
    (ctx : StatisticsContext α)
    (h : g.instance_count = 0 → (find_id ctx.group_commands g.cmd_id).isSome) :
    ∃ r, compute_stats_group E mol g ctx = some r := by
  unfold compute_stats_group
  by_cases hg : g.instance_count = 0
  · have := h hg
    cases hf : find_id ctx.group_commands g.cmd_id with
    | none => simp [hf] at this
    | some r =>
      simp only [hg, if_true]
      by_cases hl : (r.2.func (tokens E g.args) mol).length = 0
      · simp only [hl, if_true]
        exact ⟨_, rfl⟩
      · simp only [hl, if_false]
        exact ⟨_, rfl⟩
  · simp only [hg, if_false]
    exact ⟨_, rfl⟩

/-- The loop over the groups in closed form. -/
theorem compute_stats_groups_eq (E : Env α) (mol : MoleculeStructure) (gs : List Group)
    (ctx : StatisticsContext α) (r : List Group × StatisticsContext α)
    (h : compute_stats_groups E mol gs ctx = some r) :
    r = (gs.map (fun g => (resolve_group E ctx.group_commands mol g).1),
         { ctx with group_instances := ctx.group_instances ++
            gs.flatMap (fun g => (resolve_group E ctx.group_commands mol g).2) }) := by
  induction gs generalizing ctx r with
  | nil =>
    simp only [compute_stats_groups, Option.some.injEq] at h
    simp [← h]
  | cons g gs ih =>
    simp only [compute_stats_groups] at h
    cases h1 : compute_stats_group E mol g ctx with
    | none => simp [h1] at h
    | some r1 =>
      rw [h1, Option.some_bind] at h
      cases h2 : compute_stats_groups E mol gs r1.2 with
      | none => simp [h2] at h
      | some r2 =>
        rw [h2] at h
        simp only [Option.map_some', Option.some.injEq] at h
        have e1 := compute_stats_group_eq E mol g ctx r1 h1
        have e2 := ih r1.2 r2 h2
        rw [← h, e2, e1]
        simp [List.append_assoc]

theorem compute_stats_groups_total (E : Env α) (mol : MoleculeStructure) (gs : List Group)
    (ctx : StatisticsContext α)
    (h : ∀ g ∈ gs, g.instance_count = 0 → (find_id ctx.group_commands g.cmd_id).isSome) :
    ∃ r, compute_stats_groups E mol gs ctx = some r := by
  induction gs generalizing ctx with
  | nil => exact ⟨_, rfl⟩
  | cons g gs ih =>
    obtain ⟨r1, h1⟩ := compute_stats_group_total E mol g ctx (h g (List.mem_cons_self _ _))
    have e1 := compute_stats_group_eq E mol g ctx r1 h1
    have hc : r1.2.group_commands = ctx.group_commands := by rw [e1]
    obtain ⟨r2, h2⟩ := ih r1.2 (fun g1 hg1 => by
      rw [hc]; exact h g1 (List.mem_cons_of_mem _ hg1))
    exact ⟨(r1.1 :: r2.1, r2.2), by
      simp only [compute_stats_groups, h1, Option.some_bind, h2, Option.map_some']⟩

/-! ## The loop of compute_stats over the properties -/

theorem accumulate_avg_some (count n : Nat) (data avg avg1 : List α)
    (h : accumulate_avg count n data avg = some avg1) :
    avg1.length = avg.length ∧ count ≤ data.length := by
  unfold accumulate_avg at h
  have := for_range_invariant _ (fun j (t : List α) => t.length = avg.length ∧ j ≤ data.length)
    0 count avg avg1 (by
      intro k t t1 _ hk hb
      simp only [Nat.zero_add] at hb
      cases hd : data[k]? with
      | none => simp [hd] at hb
      | some d =>
        cases ha : t[k]? with
        | none => simp [hd, ha] at hb
        | some a =>
          simp only [hd, ha, Option.some_bind] at hb
          have hlt : k < data.length := (List.getElem?_eq_some.mp hd).1
          exact ⟨by rw [store_length _ _ _ _ hb, hk.1], hlt⟩) ⟨rfl, Nat.zero_le _⟩ h
  exact this

theorem accumulate_avg_total (count n : Nat) (data avg : List α)
    (hd : count ≤ data.length) (ha : count ≤ avg.length) :
    ∃ avg1, accumulate_avg count n data avg = some avg1 ∧ avg1.length = avg.length := by
  unfold accumulate_avg
  obtain ⟨avg1, h1, h2⟩ := for_range_total
    (fun j (avg : List α) => (data[j]?).bind (fun d => (avg[j]?).bind (fun a =>
      store avg j (a + d / (n : α)))))
    (fun _ (t : List α) => t.length = avg.length) 0 count avg (by
      intro k t hk ht
      simp only [Nat.zero_add]
      have hkd : k < data.length := by omega
      have hkt : k < t.length := by omega
      refine ⟨t.set k (t[k] + data[k] / (n : α)), ?_, by rw [List.length_set, ht]⟩
      rw [List.getElem?_eq_getElem hkd, List.getElem?_eq_getElem hkt]
      simp [store, hkt]) rfl
  exact ⟨avg1, h1, h2⟩

theorem count_data_fields (p : Property α) (i : Nat) (data_id : ID) :
    (count_data p i data_id).id = p.id ∧
    (count_data p i data_id).name = p.name ∧
    (count_data p i data_id).data_avg_id = p.data_avg_id ∧
    (count_data p i data_id).data_count = (if i = 0 then 0 else p.data_count) + 1 ∧
    (count_data p i data_id).data_beg_id = (if i = 0 then data_id else p.data_beg_id) := by
  unfold count_data
  by_cases hi : i = 0 <;> simp [hi]

theorem instance_series_frame (ctx : StatisticsContext α) (pd : List (PropertyData α))
    (dynamic : MoleculeDynamic α) (count : Nat) (prop_cmd : PropertyCommand α)
    (args : List CString) (group_id : ID) (idx : Nat) :
    instance_series { ctx with property_data := pd } dynamic count prop_cmd args group_id idx =
    instance_series ctx dynamic count prop_cmd args group_id idx := rfl

/-- One round of the loop over the instances: what a returning body did. -/
theorem compute_stats_data_some (E : Env α) (dynamic : MoleculeDynamic α) (count : Nat)
    (prop_cmd : PropertyCommand α) (args : List CString) (group : Group) (group_id : ID)
    (i : Nat) (s s1 : InstanceLoopState α)
    (h : compute_stats_data E dynamic count prop_cmd args group group_id i s = some s1) :
    ∃ series, instance_series s.2.1 dynamic count prop_cmd args group_id i = some series ∧
      series.length = count ∧
      s1.1 = count_data s.1 i (COMPUTE_ID E (data_name group.name s.1.name i)) ∧
      s1.2.1 = { s.2.1 with property_data := s.2.1.property_data ++
        [⟨COMPUTE_ID E (data_name group.name s.1.name i), s.1.id,
          get_group_instance s.2.1 group_id i, series⟩] } ∧
      s1.2.2.length = s.2.2.length := by
  unfold compute_stats_data at h
  dsimp only at h
  cases hf : find_id s.2.1.group_instances (get_group_instance s.2.1 group_id i) with
  | none => simp [hf] at h
  | some inst =>
    rw [hf, Option.some_bind] at h
    cases hr : prop_cmd.func (List.replicate count 0) args dynamic inst.2.structure_ with
    | none => simp [hr] at h
    | some r =>
      rw [hr, Option.some_bind] at h
      cases ha : accumulate_avg count group.instance_count r.2 s.2.2 with
      | none => simp [ha] at h
      | some avg =>
        rw [ha, Option.some_bind] at h
        simp only [Option.some.injEq] at h
        obtain ⟨hlen, hcount⟩ := accumulate_avg_some _ _ _ _ _ ha
        refine ⟨r.2.take count, ?_, ?_, ?_, ?_, ?_⟩
        · simp [instance_series, hf, hr]
        · simp [List.length_take, hcount]
        · rw [← h]; rfl
        · rw [← h]; rfl
        · rw [← h]; exact hlen

/-- The loop over the instances of a group, for a run that returns: it
appends one entry per instance, holding the series of that instance, and
counts them in the property. -/
theorem compute_stats_data_loop (E : Env α) (dynamic : MoleculeDynamic α) (count : Nat)
    (prop_cmd : PropertyCommand α) (args : List CString) (group : Group) (group_id : ID)
    (n : Nat) (p0 : Property α) (c0 : StatisticsContext α) (avg0 : List α)
    (s1 : InstanceLoopState α)
    (h : for_range (compute_stats_data E dynamic count prop_cmd args group group_id) 0 n
      (p0, c0, avg0) = some s1) :
    ∃ es : List (PropertyData α), es.length = n ∧
      s1.2.1 = { c0 with property_data := c0.property_data ++ es } ∧
      s1.2.2.length = avg0.length ∧
      s1.1.id = p0.id ∧ s1.1.name = p0.name ∧ s1.1.data_avg_id = p0.data_avg_id ∧
      (n = 0 → s1.1 = p0) ∧
      (0 < n → s1.1.data_beg_id = COMPUTE_ID E (data_name group.name p0.name 0) ∧
        s1.1.data_count = n) ∧
      ∀ i, i < n → ∃ series,
        instance_series c0 dynamic count prop_cmd args group_id i = some series ∧
        series.length = count ∧
        es[i]? = some ⟨COMPUTE_ID E (data_name group.name p0.name i), p0.id,
          get_group_instance c0 group_id i, series⟩ := by
  refine for_range_invariant (compute_stats_data E dynamic count prop_cmd args group group_id)
    (fun k (s : InstanceLoopState α) =>
      ∃ es : List (PropertyData α), es.length = k ∧
      s.2.1 = { c0 with property_data := c0.property_data ++ es } ∧
      s.2.2.length = avg0.length ∧
      s.1.id = p0.id ∧ s.1.name = p0.name ∧ s.1.data_avg_id = p0.data_avg_id ∧
      (k = 0 → s.1 = p0) ∧
      (0 < k → s.1.data_beg_id = COMPUTE_ID E (data_name group.name p0.name 0) ∧
        s.1.data_count = k) ∧
      ∀ i, i < k → ∃ series,
        instance_series c0 dynamic count prop_cmd args group_id i = some series ∧
        series.length = count ∧
        es[i]? = some ⟨COMPUTE_ID E (data_name group.name p0.name i), p0.id,
          get_group_instance c0 group_id i, series⟩)
    0 n (p0, c0, avg0) s1 ?_ ?_ h
  · intro k t t1 _ hP hb
    obtain ⟨es, hlen, hctx, havg, hid, hname, havgid, hzero, hpos, hes⟩ := hP
    rw [Nat.zero_add] at hb
    obtain ⟨series, hs, hslen, ht1, hc1, ha1⟩ := compute_stats_data_some _ _ _ _ _ _ _ _ _ _ hb
    obtain ⟨f1, f2, f3, f4, f5⟩ :=
      count_data_fields t.1 k (COMPUTE_ID E (data_name group.name t.1.name k))
    rw [hctx] at hs hc1
    refine ⟨es ++ [⟨COMPUTE_ID E (data_name group.name p0.name k), p0.id,
      get_group_instance c0 group_id k, series⟩], by simp [hlen], ?_, by rw [ha1, havg],
      by rw [ht1, f1, hid], by rw [ht1, f2, hname], by rw [ht1, f3, havgid],
      fun hk => absurd hk (Nat.succ_ne_zero k), ?_, ?_⟩
    · rw [hc1, hname, hid]
      simp only [List.append_assoc]
      rfl
    · intro _
      rw [ht1, f4, f5]
      by_cases hk : k = 0
      · subst hk
        simp [hname]
      · have := hpos (Nat.pos_of_ne_zero hk)
        simp [hk, this.1, this.2]
    · intro i hi
      by_cases hik : i < k
      · obtain ⟨sr, h1, h2, h3⟩ := hes i hik
        exact ⟨sr, h1, h2, by rw [List.getElem?_append_left (by omega)]; exact h3⟩
      · have hieq : i = k := by omega
        subst hieq
        refine ⟨series, hs, hslen, ?_⟩
        rw [List.getElem?_append_right (by omega)]
        simp [hlen]
  · exact ⟨[], rfl, by simp, rfl, rfl, rfl, rfl, fun _ => rfl, fun h0 => absurd h0 (by omega),
      fun i hi => absurd hi (by omega)⟩

/-- The loop body for a property that is evaluated: a property without data
whose command is INTRA and whose first argument names a group. A run that
returns appends the averaged entry followed by one entry per instance. -/
theorem compute_stats_property_bound (E : Env α) (dynamic : MoleculeDynamic α) (count : Nat)
    (prop : Property α) (ctx : StatisticsContext α) (r : Property α × StatisticsContext α)
    (prop_cmd : PropertyCommand α) (ci : Nat) (arg0 : CString) (rest : List CString)
    (group : Group) (gi : Nat)
    (hbeg : prop.data_beg_id = INVALID_ID)
    (hcmd : find_id ctx.property_commands prop.cmd_id = some (ci, prop_cmd))
    (hintra : prop_cmd.type = PropertyType.INTRA)
    (hargs : tokens E prop.args = arg0 :: rest)
    (hgid : get_group E ctx arg0 ≠ INVALID_ID)
    (hgroup : find_id ctx.groups (get_group E ctx arg0) = some (gi, group))
    (hrun : compute_stats_property E dynamic count prop ctx = some r) :
    ∃ (avg : List α) (es : List (PropertyData α)),
      avg.length = count ∧ es.length = group.instance_count ∧
      r.2 = { ctx with property_data := ctx.property_data ++
        ⟨COMPUTE_ID E (data_avg_name group.name prop.name), prop.id, INVALID_ID, avg⟩ :: es } ∧
      r.1.id = prop.id ∧
      r.1.data_avg_id = COMPUTE_ID E (data_avg_name group.name prop.name) ∧
      (0 < group.instance_count →
        r.1.data_beg_id = COMPUTE_ID E (data_name group.name prop.name 0) ∧
        r.1.data_count = group.instance_count) ∧
      (group.instance_count = 0 →
        r.1 = { prop with data_avg_id := COMPUTE_ID E (data_avg_name group.name prop.name) }) ∧
      ∀ i, i < group.instance_count → ∃ series,
        instance_series ctx dynamic count prop_cmd (arg0 :: rest) (get_group E ctx arg0) i =
          some series ∧
        series.length = count ∧
        es[i]? = some ⟨COMPUTE_ID E (data_name group.name prop.name i), prop.id,
          get_group_instance ctx (get_group E ctx arg0) i, series⟩ := by
  unfold compute_stats_property at hrun
  rw [if_pos hbeg] at hrun
  simp only [hcmd, hintra, hargs, hgid, if_false, hgroup, Option.map_eq_some'] at hrun
  obtain ⟨s, hloop, hr⟩ := hrun
  obtain ⟨es, hlen, hctx, havg, hid, _, havgid, hzero, hpos, hes⟩ :=
    compute_stats_data_loop _ _ _ _ _ _ _ _ _ _ _ _ hloop
  dsimp only at hctx havg hid havgid hzero hpos hes
  refine ⟨s.2.2, es, by simpa using havg, hlen, ?_, by rw [← hr]; exact hid,
    by rw [← hr]; exact havgid, fun hn => by rw [← hr]; exact hpos hn,
    fun hn => by rw [← hr]; exact hzero hn, hes⟩
  rw [← hr, hctx]
  simp [List.set_append]

/-- The loop body changes nothing of the context but the array of series,
to which it appends entries of the property, and keeps the id of the property. -/
theorem compute_stats_property_frame (E : Env α) (dynamic : MoleculeDynamic α) (count : Nat)
    (prop : Property α) (ctx : StatisticsContext α) (r : Property α × StatisticsContext α)
    (hrun : compute_stats_property E dynamic count prop ctx = some r) :
    r.1.id = prop.id ∧
    ∃ es : List (PropertyData α),
      r.2 = { ctx with property_data := ctx.property_data ++ es } ∧
      ∀ e ∈ es, e.property_id = prop.id := by
  have hsame : r = (prop, ctx) → r.1.id = prop.id ∧
      ∃ es : List (PropertyData α),
        r.2 = { ctx with property_data := ctx.property_data ++ es } ∧
        ∀ e ∈ es, e.property_id = prop.id := by
    intro h
    rw [h]
    exact ⟨rfl, [], by simp, by simp⟩
  by_cases hbeg : prop.data_beg_id = INVALID_ID
  · cases hcmd : find_id ctx.property_commands prop.cmd_id with
    | none =>
      unfold compute_stats_property at hrun
      simp [hbeg, hcmd] at hrun
    | some c =>
      cases htype : c.2.type with
      | INTER =>
        unfold compute_stats_property at hrun
        simp only [hbeg, if_true, hcmd, htype, Option.some.injEq] at hrun
        exact hsame hrun.symm
      | INTRA =>
        cases hargs : tokens E prop.args with
        | nil =>
          unfold compute_stats_property at hrun
          simp only [hbeg, if_true, hcmd, htype, hargs, Option.some.injEq] at hrun
          exact hsame hrun.symm
        | cons arg0 rest =>
          by_cases hgid : get_group E ctx arg0 = INVALID_ID
          · unfold compute_stats_property at hrun
            simp only [hbeg, if_true, hcmd, htype, hargs, hgid, Option.some.injEq] at hrun
            exact hsame hrun.symm
          · cases hgroup : find_id ctx.groups (get_group E ctx arg0) with
            | none =>
              unfold compute_stats_property at hrun
              simp [hbeg, hcmd, htype, hargs, hgid, hgroup] at hrun
            | some g =>
              obtain ⟨avg, es, _, _, hctx, hid, _, _, _, hes⟩ :=
                compute_stats_property_bound E dynamic count prop ctx r c.2 c.1 arg0 rest
                  g.2 g.1 hbeg hcmd htype hargs hgid hgroup hrun
              refine ⟨hid, _, hctx, ?_⟩
              intro e he
              rcases List.mem_cons.mp he with rfl | he
              · rfl
              · obtain ⟨i, hi⟩ := List.mem_iff_getElem?.mp he
                have hlt : i < es.length := (List.getElem?_eq_some.mp hi).1
                obtain ⟨sr, _, _, h3⟩ := hes i (by omega)
                rw [h3] at hi
                simp only [Option.some.injEq] at hi
                rw [← hi]
  · unfold compute_stats_property at hrun
    simp only [hbeg, if_false, Option.some.injEq] at hrun
    exact hsame hrun.symm

/-- The loop over the properties, for a run that returns: the ids of the
properties stay, the array of series grows at its end, and each property is
handled by the loop body in a context that differs from the first one by
appended series only. -/
theorem compute_stats_properties_some (E : Env α) (dynamic : MoleculeDynamic α) (count : Nat)
    (ps : List (Property α)) (ctx : StatisticsContext α)
    (r : List (Property α) × StatisticsContext α)
    (h : compute_stats_properties E dynamic count ps ctx = some r) :
    r.1.map (fun p => p.id) = ps.map (fun p => p.id) ∧
    (∃ es : List (PropertyData α), r.2 = { ctx with property_data := ctx.property_data ++ es }) ∧
    ∀ (k : Nat) (prop : Property α), ps[k]? = some prop → ∃ (es1 : List (PropertyData α))
      (rk : Property α × StatisticsContext α) (es2 : List (PropertyData α)),
      compute_stats_property E dynamic count prop
        { ctx with property_data := ctx.property_data ++ es1 } = some rk ∧
      r.1[k]? = some rk.1 ∧ r.2.property_data = rk.2.property_data ++ es2 := by
  induction ps generalizing ctx r with
  | nil =>
    simp only [compute_stats_properties, Option.some.injEq] at h
    rw [← h]
    exact ⟨rfl, ⟨[], by simp⟩, fun k prop hk => by simp at hk⟩
  | cons p ps ih =>
    simp only [compute_stats_properties] at h
    cases h1 : compute_stats_property E dynamic count p ctx with
    | none => simp [h1] at h
    | some r1 =>
      rw [h1, Option.some_bind] at h
      cases h2 : compute_stats_properties E dynamic count ps r1.2 with
      | none => simp [h2] at h
      | some r2 =>
        rw [h2] at h
        simp only [Option.map_some', Option.some.injEq] at h
        obtain ⟨hid1, e1, hctx1, _⟩ := compute_stats_property_frame E dynamic count p ctx r1 h1
        obtain ⟨hids, ⟨e2, hctx2⟩, hk2⟩ := ih r1.2 r2 h2
        rw [← h]
        refine ⟨by simp [hid1, hids], ⟨e1 ++ e2, by rw [hctx2, hctx1]; simp⟩, ?_⟩
        intro k prop hk
        cases k with
        | zero =>
          simp only [List.getElem?_cons_zero, Option.some.injEq] at hk
          subst hk
          refine ⟨[], r1, e2, by simpa using h1, by simp, ?_⟩
          rw [hctx2]
        | succ k =>
          simp only [List.getElem?_cons_succ] at hk
          obtain ⟨es1, rk, es2, hrk, hget, hpd⟩ := hk2 k prop hk
          refine ⟨e1 ++ es1, rk, es2, ?_, by simpa using hget, hpd⟩
          rw [hctx1] at hrk
          simpa using hrk

theorem get_group_instance_congr (c1 c2 : StatisticsContext α)
    (h : c1.group_instances = c2.group_instances) (group_id : ID) (idx : Int) :
    get_group_instance c1 group_id idx = get_group_instance c2 group_id idx := by
  unfold get_group_instance
  rw [h]

/-- The loop body returns when the command of the property is registered, the
group it is bound to counts no more instances than are stored, and the
compute functions return on the stored instances. -/
theorem compute_stats_property_total (E : Env α) (dynamic : MoleculeDynamic α) (count : Nat)
    (prop : Property α) (ctx : StatisticsContext α)
    (hcmd : prop.data_beg_id = INVALID_ID →
      (find_id ctx.property_commands prop.cmd_id).isSome)
    (hinst : ∀ g ∈ ctx.groups, g.instance_count ≤ (instances_of ctx g.id).length)
    (hfunc : ∀ c ∈ ctx.property_commands, ∀ inst ∈ ctx.group_instances,
      ∃ r, c.func (List.replicate count 0) (tokens E prop.args) dynamic inst.structure_ = some r ∧
        count ≤ r.2.length) :
    ∃ r, compute_stats_property E dynamic count prop ctx = some r := by
  unfold compute_stats_property
  by_cases hbeg : prop.data_beg_id = INVALID_ID
  · rw [if_pos hbeg]
    have hc := hcmd hbeg
    cases hfc : find_id ctx.property_commands prop.cmd_id with
    | none => simp [hfc] at hc
    | some c =>
      have hcmem : c.2 ∈ ctx.property_commands := find_id_mem _ _ c.1 c.2 hfc
      cases htype : c.2.type with
      | INTER => simp only [htype]; exact ⟨_, rfl⟩
      | INTRA =>
        cases hargs : tokens E prop.args with
        | nil => simp only [htype]; exact ⟨_, rfl⟩
        | cons arg0 rest =>
          by_cases hgid : get_group E ctx arg0 = INVALID_ID
          · simp only [htype, hgid, if_true]; exact ⟨_, rfl⟩
          · have hgsome : (find_id ctx.groups (get_group E ctx arg0)).isSome := by
              unfold get_group at hgid ⊢
              cases hfind : ctx.groups.find? (fun g => E.compare arg0 g.name) with
              | none => simp [hfind] at hgid
              | some g =>
                simp only [hfind]
                exact find_id_isSome_of_mem ctx.groups g (List.mem_of_find?_eq_some hfind)
            cases hgroup : find_id ctx.groups (get_group E ctx arg0) with
            | none => simp [hgroup] at hgsome
            | some g =>
              simp only [htype, hgid, if_false, hgroup]
              obtain ⟨hgget, hgeq⟩ := find_id_getElem _ _ g.1 g.2 hgroup
              have hgmem : g.2 ∈ ctx.groups := find_id_mem _ _ g.1 g.2 hgroup
              have hgcount := hinst g.2 hgmem
              have hgeq1 : g.2.id = get_group E ctx arg0 := hgeq
              rw [hgeq1] at hgcount
              obtain ⟨s1, hs1, _⟩ := for_range_total
                (compute_stats_data E dynamic count c.2 (arg0 :: rest) g.2 (get_group E ctx arg0))
                (fun _ (s : InstanceLoopState α) =>
                  s.2.1.group_instances = ctx.group_instances ∧ s.2.2.length = count)
                0 g.2.instance_count
                ({ prop with data_avg_id := COMPUTE_ID E (data_avg_name g.2.name prop.name) },
                 { ctx with property_data := ctx.property_data ++
                    [⟨COMPUTE_ID E (data_avg_name g.2.name prop.name), prop.id, INVALID_ID,
                      List.replicate count 0⟩] },
                 List.replicate count 0) (by
                  intro k t hk ht
                  rw [Nat.zero_add]
                  have hlt : k < (instances_of ctx (get_group E ctx arg0)).length := by omega
                  have hik : (instances_of ctx (get_group E ctx arg0))[k]? =
                      some ((instances_of ctx (get_group E ctx arg0))[k]) :=
                    List.getElem?_eq_getElem hlt
                  have hmem : (instances_of ctx (get_group E ctx arg0))[k] ∈ ctx.group_instances :=
                    List.mem_of_mem_filter (List.getElem_mem hlt)
                  have hget : get_group_instance t.2.1 (get_group E ctx arg0) k =
                      ((instances_of ctx (get_group E ctx arg0))[k]).id := by
                    rw [get_group_instance_congr t.2.1 ctx ht.1, get_group_instance_eq, hik]
                    rfl
                  have hfind := find_id_isSome_of_mem ctx.group_instances _ hmem
                  cases hf : find_id ctx.group_instances
                      (HasID.id ((instances_of ctx (get_group E ctx arg0))[k])) with
                  | none => simp [hf] at hfind
                  | some inst =>
                    have hinstmem : inst.2 ∈ ctx.group_instances := find_id_mem _ _ inst.1 inst.2 hf
                    obtain ⟨r, hr, hrlen⟩ := hfunc c.2 hcmem inst.2 hinstmem
                    rw [hargs] at hr
                    obtain ⟨avg1, ha, halen⟩ := accumulate_avg_total count g.2.instance_count
                      r.2 t.2.2 hrlen (by omega)
                    have hf1 : find_id ctx.group_instances
                        ((instances_of ctx (get_group E ctx arg0))[k]).id = some inst := hf
                    unfold compute_stats_data
                    dsimp only
                    rw [hget, ht.1, hf1, Option.some_bind, hr, Option.some_bind, ha,
                      Option.some_bind]
                    exact ⟨_, rfl, rfl, by rw [halen]; exact ht.2⟩)
                ⟨rfl, by simp⟩
              rw [hs1]
              exact ⟨_, rfl⟩
  · rw [if_neg hbeg]
    exact ⟨_, rfl⟩

theorem compute_stats_properties_total (E : Env α) (dynamic : MoleculeDynamic α) (count : Nat)
    (ps : List (Property α)) (ctx : StatisticsContext α)
    (hcmd : ∀ p ∈ ps, p.data_beg_id = INVALID_ID →
      (find_id ctx.property_commands p.cmd_id).isSome)
    (hinst : ∀ g ∈ ctx.groups, g.instance_count ≤ (instances_of ctx g.id).length)
    (hfunc : ∀ p ∈ ps, ∀ c ∈ ctx.property_commands, ∀ inst ∈ ctx.group_instances,
      ∃ r, c.func (List.replicate count 0) (tokens E p.args) dynamic inst.structure_ = some r ∧
        count ≤ r.2.length) :
    ∃ r, compute_stats_properties E dynamic count ps ctx = some r := by
  induction ps generalizing ctx with
  | nil => exact ⟨_, rfl⟩
  | cons p ps ih =>
    obtain ⟨r1, h1⟩ := compute_stats_property_total E dynamic count p ctx
      (hcmd p (List.mem_cons_self _ _)) hinst (hfunc p (List.mem_cons_self _ _))
    obtain ⟨_, es, hctx, _⟩ := compute_stats_property_frame E dynamic count p ctx r1 h1
    obtain ⟨r2, h2⟩ := ih r1.2
      (by rw [hctx]; exact fun q hq => hcmd q (List.mem_cons_of_mem _ hq))
      (by rw [hctx]; exact hinst)
      (by rw [hctx]; exact fun q hq => hfunc q (List.mem_cons_of_mem _ hq))
    exact ⟨(r1.1 :: r2.1, r2.2), by
      simp only [compute_stats_properties, h1, Option.some_bind, h2, Option.map_some']⟩

/-- The function compute_stats on a dynamic with a molecule and a trajectory:
the loop over the groups, then the loop over the properties. -/
theorem compute_stats_some (E : Env α) (ctx : StatisticsContext α) (dynamic : MoleculeDynamic α)
    (mol : MoleculeStructure) (traj : Trajectory α)
    (hmol : dynamic.molecule = some mol) (htraj : dynamic.trajectory = some traj)
    (r : Bool × StatisticsContext α) (h : compute_stats E ctx dynamic = some r) :
    r.1 = true ∧ ∃ p, compute_stats_properties E dynamic traj.num_frames ctx.properties
        (resolved_context E ctx mol) = some p ∧
      r.2 = { p.2 with properties := p.1 } := by
  unfold compute_stats at h
  simp only [hmol, htraj] at h
  cases hg : compute_stats_groups E mol ctx.groups ctx with
  | none => simp [hg] at h
  | some g =>
    rw [hg, Option.some_bind] at h
    have hgeq := compute_stats_groups_eq E mol ctx.groups ctx g hg
    simp only [Option.map_eq_some'] at h
    obtain ⟨p, hp, hr⟩ := h
    rw [hgeq] at hp
    exact ⟨by rw [← hr], p, hp, by rw [← hr]⟩

theorem filter_flatMap_length {β γ : Type} (F : β → List γ) (q : γ → Bool) (gs : List β)
    (g : β) (hg : g ∈ gs) :
    ((F g).filter q).length ≤ ((gs.flatMap F).filter q).length := by
  induction gs with
  | nil => simp at hg
  | cons a gs ih =>
    simp only [List.flatMap_cons, List.filter_append, List.length_append]
    rcases List.mem_cons.mp hg with rfl | h
    · omega
    · have := ih h
      omega

/-- After the loop over the groups no group counts more instances than are
stored under its id. -/
theorem resolved_context_instances (E : Env α) (ctx : StatisticsContext α)
    (mol : MoleculeStructure)
    (hcmds : ∀ g ∈ ctx.groups, g.instance_count = 0 →
      (find_id ctx.group_commands g.cmd_id).isSome)
    (hinst : ∀ g ∈ ctx.groups, g.instance_count ≤ (instances_of ctx g.id).length) :
    ∀ g ∈ (resolved_context E ctx mol).groups,
      g.instance_count ≤ (instances_of (resolved_context E ctx mol) g.id).length := by
  intro g1 hg1
  simp only [resolved_context, List.mem_map] at hg1
  obtain ⟨g, hg, rfl⟩ := hg1
  obtain ⟨hid, _, hall, hres⟩ := resolve_group_shape E ctx.group_commands mol g
  simp only [instances_of, resolved_context, List.filter_append, List.length_append]
  rw [hid]
  by_cases h0 : g.instance_count = 0
  · have hsome := hcmds g hg h0
    cases hf : find_id ctx.group_commands g.cmd_id with
    | none => simp [hf] at hsome
    | some c =>
      obtain ⟨hmap, hcount, _⟩ := resolve_group_unresolved E ctx.group_commands mol g c.1 c.2 h0 hf
      have hlen : (resolve_group E ctx.group_commands mol g).2.length =
          (c.2.func (tokens E g.args) mol).length := by
        rw [← hmap, List.length_map]
      have hfil : ((resolve_group E ctx.group_commands mol g).2.filter
          (fun inst => decide (inst.group_id = g.id))) = (resolve_group E ctx.group_commands mol g).2 := by
        rw [List.filter_eq_self]
        intro inst hinst1
        simpa using hall inst hinst1
      have := filter_flatMap_length (fun g => (resolve_group E ctx.group_commands mol g).2)
        (fun inst => decide (inst.group_id = g.id)) ctx.groups g hg
      rw [hfil] at this
      rw [hcount]
      omega
  · rw [hres h0]
    have := hinst g hg
    simp only [instances_of] at this
    show g.instance_count ≤ _
    omega

/-- Under the conditions Safe, compute_stats returns. -/
theorem compute_stats_total (E : Env α) (ctx : StatisticsContext α) (dynamic : MoleculeDynamic α)
    (mol : MoleculeStructure) (traj : Trajectory α)
    (hmol : dynamic.molecule = some mol) (htraj : dynamic.trajectory = some traj)
    (hsafe : Safe E ctx dynamic mol traj.num_frames) :
    ∃ r, compute_stats E ctx dynamic = some r := by
  obtain ⟨g, hg⟩ := compute_stats_groups_total E mol ctx.groups ctx hsafe.group_commands
  have hgeq := compute_stats_groups_eq E mol ctx.groups ctx g hg
  obtain ⟨p, hp⟩ := compute_stats_properties_total E dynamic traj.num_frames ctx.properties
    (resolved_context E ctx mol) hsafe.property_commands
    (resolved_context_instances E ctx mol hsafe.group_commands hsafe.instances)
    (fun q hq c hc inst hinst => (returns_series_iff _ _ _ _ _).mp
      (hsafe.funcs q hq c hc inst.structure_ (List.mem_map.mpr ⟨inst, hinst, rfl⟩)))
  refine ⟨(true, { p.2 with properties := p.1 }), ?_⟩
  unfold compute_stats
  simp only [hmol, htraj, hg, Option.some_bind]
  rw [hgeq]
  have hp1 : compute_stats_properties E dynamic traj.num_frames ctx.properties
      (resolved_context E ctx mol) = some p := hp
  unfold resolved_context at hp1
  simp only [hp1, Option.map_some']

/-! ## The engine after compute_stats -/

theorem find_id_map {T : Type} [HasID T] (F : T → T) (hF : ∀ x, HasID.id (F x) = HasID.id x)
    (l : List T) (id : ID) :
    find_id (l.map F) id = (find_id l id).map (fun r => (r.1, F r.2)) := by
  induction l with
  | nil => rfl
  | cons a l ih =>
    simp only [List.map_cons, find_id, hF]
    split
    · rfl
    · rw [ih]
      cases find_id l id <;> rfl

theorem get_group_resolved (E : Env α) (ctx : StatisticsContext α) (mol : MoleculeStructure)
    (name : CString) :
    get_group E (resolved_context E ctx mol) name = get_group E ctx name := by
  unfold get_group resolved_context
  simp only
  induction ctx.groups with
  | nil => rfl
  | cons g gs ih =>
    obtain ⟨hid, hname, _, _⟩ := resolve_group_shape E ctx.group_commands mol g
    simp only [List.map_cons, List.find?_cons, hname]
    cases E.compare name g.name with
    | true => exact hid
    | false => exact ih

theorem filter_flatMap_eq_nil (F : Group → List GroupInstance)
    (hF : ∀ h, ∀ inst ∈ F h, inst.group_id = h.id) (gs : List Group) (id : ID)
    (hne : ∀ h ∈ gs, h.id ≠ id) :
    (gs.flatMap F).filter (fun inst => decide (inst.group_id = id)) = [] := by
  rw [List.filter_eq_nil_iff]
  intro inst hinst
  obtain ⟨h, hh, hmem⟩ := List.mem_flatMap.mp hinst
  have := hF h inst hmem
  simp only [decide_eq_true_eq]
  rw [this]
  exact hne h hh

/-- Among the instances appended by the loop over the groups, those that
carry the id of a group are the ones appended for it, when ids are unique. -/
theorem filter_flatMap_of_nodup (F : Group → List GroupInstance)
    (hF : ∀ h, ∀ inst ∈ F h, inst.group_id = h.id) (gs : List Group) (g : Group)
    (hnodup : (gs.map (fun g => g.id)).Nodup) (hg : g ∈ gs) :
    (gs.flatMap F).filter (fun inst => decide (inst.group_id = g.id)) = F g := by
  induction gs with
  | nil => simp at hg
  | cons a gs ih =>
    simp only [List.map_cons, List.nodup_cons, List.mem_map, not_exists, not_and] at hnodup
    simp only [List.flatMap_cons, List.filter_append]
    rcases List.mem_cons.mp hg with rfl | hmem
    · rw [filter_flatMap_eq_nil F hF gs g.id (fun h hh heq => hnodup.1 h hh heq)]
      rw [List.append_nil, List.filter_eq_self]
      intro inst hinst
      simpa using hF g inst hinst
    · rw [ih hnodup.2 hmem]
      have hne : a.id ≠ g.id := fun heq => hnodup.1 g hmem heq.symm
      have : (F a).filter (fun inst => decide (inst.group_id = g.id)) = [] := by
        rw [List.filter_eq_nil_iff]
        intro inst hinst
        simp only [decide_eq_true_eq]
        rw [hF a inst hinst]
        exact hne
      rw [this, List.nil_append]

/-- The groups and instances that compute_stats returns are those that its
loop over the groups leaves. -/
theorem compute_stats_groups_after (E : Env α) (ctx : StatisticsContext α)
    (dynamic : MoleculeDynamic α) (mol : MoleculeStructure) (traj : Trajectory α)
    (hmol : dynamic.molecule = some mol) (htraj : dynamic.trajectory = some traj)
    (r : Bool × StatisticsContext α) (h : compute_stats E ctx dynamic = some r) :
    r.1 = true ∧ r.2.groups = (resolved_context E ctx mol).groups ∧
    r.2.group_instances = (resolved_context E ctx mol).group_instances := by
  obtain ⟨hb, p, hp, hr⟩ := compute_stats_some E ctx dynamic mol traj hmol htraj r h
  obtain ⟨_, ⟨es, hctx⟩, _⟩ := compute_stats_properties_some _ _ _ _ _ _ hp
  rw [hr, hctx]
  exact ⟨hb, rfl, rfl⟩

theorem get_group_instance_resolved (E : Env α) (ctx : StatisticsContext α)
    (mol : MoleculeStructure) (group_id : ID) (i : Nat)
    (hi : i < (instances_of ctx group_id).length) :
    get_group_instance (resolved_context E ctx mol) group_id i =
    get_group_instance ctx group_id i := by
  rw [get_group_instance_eq, get_group_instance_eq]
  have : instances_of (resolved_context E ctx mol) group_id =
      instances_of ctx group_id ++
        (ctx.groups.flatMap (fun g => (resolve_group E ctx.group_commands mol g).2)).filter
          (fun inst => decide (inst.group_id = group_id)) := by
    simp [instances_of, resolved_context, List.filter_append]
  rw [this, List.getElem?_append_left hi]

/-- The series of the instances stored before compute_stats are the same
before and after its loop over the groups. -/
theorem instance_series_resolved (E : Env α) (ctx : StatisticsContext α)
    (mol : MoleculeStructure) (dynamic : MoleculeDynamic α) (count : Nat)
    (prop_cmd : PropertyCommand α) (args : List CString) (group_id : ID) (i : Nat)
    (hi : i < (instances_of ctx group_id).length) :
    instance_series (resolved_context E ctx mol) dynamic count prop_cmd args group_id i =
    instance_series ctx dynamic count prop_cmd args group_id i := by
  unfold instance_series
  rw [get_group_instance_resolved E ctx mol group_id i hi]
  have hmem : (instances_of ctx group_id)[i] ∈ ctx.group_instances :=
    List.mem_of_mem_filter (List.getElem_mem hi)
  have hget : get_group_instance ctx group_id i = HasID.id ((instances_of ctx group_id)[i]) := by
    rw [get_group_instance_eq, List.getElem?_eq_getElem hi]
    rfl
  have hsome := find_id_isSome_of_mem ctx.group_instances _ hmem
  rw [hget]
  cases hf : find_id ctx.group_instances (HasID.id ((instances_of ctx group_id)[i])) with
  | none => simp [hf] at hsome
  | some inst =>
    have : find_id (resolved_context E ctx mol).group_instances
        (HasID.id ((instances_of ctx group_id)[i])) = some inst :=
      find_id_append _ _ _ _ hf
    rw [this]

/-! ## Facts on create_property and the built-in commands -/

/-- On every path create_property leaves the list of properties, the series,
the groups and the instances as they are. -/
theorem create_property_properties (E : Env α) (ctx : StatisticsContext α)
    (name cmd_and_args : CString) (r : ID × StatisticsContext α)
    (h : create_property E ctx name cmd_and_args = some r) :
    r.2.properties = ctx.properties ∧ r.2.property_data = ctx.property_data ∧
    r.2.groups = ctx.groups ∧ r.2.group_instances = ctx.group_instances := by
  unfold create_property at h
  dsimp only at h
  split at h
  · simp only [Option.some.injEq] at h
    rw [← h]
    exact ⟨rfl, rfl, rfl, rfl⟩
  · split at h
    · simp only [Option.some.injEq] at h
      rw [← h]
      exact ⟨rfl, rfl, rfl, rfl⟩
    · cases ht : (E.ctokenize cmd_and_args)[0]? with
      | none => simp [ht] at h
      | some t0 =>
        rw [ht, Option.some_bind] at h
        split at h <;>
        · simp only [Option.some.injEq] at h
          rw [← h]
          exact ⟨rfl, rfl, rfl, rfl⟩

/-- The loop of remove_property does not depend on its fuel once the fuel
exceeds the number of entries from the pointer to the end of the array. -/
theorem remove_property_data_fuel (prop_id : ID) (fuel fuel1 pd : Nat)
    (data : List (PropertyData α))
    (h : data.length < fuel + pd) (h1 : data.length < fuel1 + pd) :
    remove_property_data prop_id fuel pd data = remove_property_data prop_id fuel1 pd data := by
  induction fuel generalizing fuel1 pd data with
  | zero =>
    cases fuel1 with
    | zero => rfl
    | succ f1 =>
      have hnone : data[pd]? = none := List.getElem?_eq_none (by omega)
      have hne : ¬ pd = data.length := by omega
      simp [remove_property_data, hne, hnone]
  | succ f ih =>
    cases fuel1 with
    | zero =>
      have hnone : data[pd]? = none := List.getElem?_eq_none (by omega)
      have hne : ¬ pd = data.length := by omega
      simp [remove_property_data, hne, hnone]
    | succ f1 =>
      simp only [remove_property_data]
      by_cases heq : pd = data.length
      · simp [heq]
      · simp only [heq, if_false]
        cases hget : data[pd]? with
        | none => rfl
        | some entry =>
          have hlt : pd < data.length := (List.getElem?_eq_some.mp hget).1
          simp only []
          split
          · apply ih
            · simp only [array_remove, List.length_eraseIdx, hlt, if_true]; omega
            · simp only [array_remove, List.length_eraseIdx, hlt, if_true]; omega
          · apply ih <;> omega

/-- The fourth token never reaches the result of compute_atomic_dihedral. -/
theorem compute_atomic_dihedral_fourth_token {β : Type} (E : Env β) (data : List β)
    (a b c d d1 : CString) (dynamic : MoleculeDynamic β) (s : Structure) :
    compute_atomic_dihedral E data [a, b, c, d] dynamic s =
    compute_atomic_dihedral E data [a, b, c, d1] dynamic s := by
  simp [compute_atomic_dihedral]

/-- The function compute_atomic_distance returns false and leaves the buffer
when it is not given two tokens, when the structure is empty, or when one of
its two tokens is not an integer. -/
theorem compute_atomic_distance_rejects {β : Type} (E : Env β) (data : List β)
    (args : List CString) (dynamic : MoleculeDynamic β) (s : Structure)
    (h : args.length ≠ 2 ∨ s.beg_atom_idx = s.end_atom_idx ∨
      ∃ t ∈ args, E.to_int32 t = none) :
    compute_atomic_distance E data args dynamic s = some (false, data) := by
  unfold compute_atomic_distance
  by_cases hlen : args.length ≠ 2
  · rw [if_pos hlen]
  · rw [if_neg hlen]
    by_cases hs : s.beg_atom_idx = s.end_atom_idx
    · rw [if_pos hs]
    · rw [if_neg hs]
      rcases h with h | h | ⟨t, ht, hnone⟩
      · exact absurd h hlen
      · exact absurd h hs
      · have hl : args.length = 2 := Decidable.not_not.mp hlen
        obtain ⟨a, b, rfl⟩ := List.length_eq_two.mp hl
        simp only [List.mem_cons, List.mem_singleton, List.not_mem_nil, or_false] at ht
        rcases ht with rfl | rfl
        · simp [hnone]
        · cases ha : E.to_int32 a <;> simp [hnone, ha]

/-- The function compute_atomic_angle returns false and leaves the buffer
when it is not given three tokens, when the structure is empty, or when one
of its three tokens is not an integer. -/
theorem compute_atomic_angle_rejects {β : Type} [Sub β] (E : Env β) (data : List β)
    (args : List CString) (dynamic : MoleculeDynamic β) (s : Structure)
    (h : args.length ≠ 3 ∨ s.beg_atom_idx = s.end_atom_idx ∨
      ∃ t ∈ args, E.to_int32 t = none) :
    compute_atomic_angle E data args dynamic s = some (false, data) := by
  unfold compute_atomic_angle
  by_cases hlen : args.length ≠ 3
  · rw [if_pos hlen]
  · rw [if_neg hlen]
    by_cases hs : s.beg_atom_idx = s.end_atom_idx
    · rw [if_pos hs]
    · rw [if_neg hs]
      rcases h with h | h | ⟨t, ht, hnone⟩
      · exact absurd h hlen
      · exact absurd h hs
      · have hl : args.length = 3 := Decidable.not_not.mp hlen
        obtain ⟨a, b, c, rfl⟩ := List.length_eq_three.mp hl
        simp only [List.mem_cons, List.mem_singleton, List.not_mem_nil, or_false] at ht
        rcases ht with rfl | rfl | rfl
        · simp [hnone]
        · cases ha : E.to_int32 a <;> simp [hnone, ha]
        · cases ha : E.to_int32 a <;> cases hb : E.to_int32 b <;> simp [hnone, ha, hb]

/-- The function compute_atomic_dihedral returns false and leaves the buffer
when it is not given four tokens, when the structure is empty, or when one of
its first three tokens is not an integer. -/
theorem compute_atomic_dihedral_rejects {β : Type} (E : Env β) (data : List β)
    (args : List CString) (dynamic : MoleculeDynamic β) (s : Structure)
    (h : args.length ≠ 4 ∨ s.beg_atom_idx = s.end_atom_idx ∨
      ∃ t ∈ args.take 3, E.to_int32 t = none) :
    compute_atomic_dihedral E data args dynamic s = some (false, data) := by
  unfold compute_atomic_dihedral
  by_cases hlen : args.length ≠ 4
  · rw [if_pos hlen]
  · rw [if_neg hlen]
    by_cases hs : s.beg_atom_idx = s.end_atom_idx
    · rw [if_pos hs]
    · rw [if_neg hs]
      rcases h with h | h | ⟨t, ht, hnone⟩
      · exact absurd h hlen
      · exact absurd h hs
      · have hl : args.length = 4 := Decidable.not_not.mp hlen
        rcases args with _ | ⟨a, _ | ⟨b, _ | ⟨c, _ | ⟨d, _ | ⟨e, more⟩⟩⟩⟩⟩ <;>
          simp only [List.length_cons, List.length_nil] at hl <;> try omega
        simp only [List.take_succ_cons, List.take_zero, List.mem_cons, List.mem_singleton,
          List.not_mem_nil, or_false] at ht
        rcases ht with rfl | rfl | rfl
        · simp [hnone]
        · cases ha : E.to_int32 a <;> simp [hnone, ha]
        · cases ha : E.to_int32 a <;> cases hb : E.to_int32 b <;> simp [hnone, ha, hb]

/-! ## The averaged series -/

theorem entry_value_append_left (es es1 : List (PropertyData α)) (i j : Nat)
    (h : i < es.length) : entry_value (es ++ es1) i j = entry_value es i j := by
  unfold entry_value
  rw [List.getElem?_append_left h]

theorem entry_value_append_right (es : List (PropertyData α)) (e : PropertyData α) (j : Nat) :
    entry_value (es ++ [e]) es.length j = (e.data[j]?).getD 0 := by
  unfold entry_value
  rw [List.getElem?_append_right (Nat.le_refl _)]
  simp

/-- The values that the averaging loop leaves in the buffer. -/
theorem accumulate_avg_values (count n : Nat) (data avg avg1 : List α)
    (h : accumulate_avg count n data avg = some avg1) :
    ∀ j, j < count → ∃ a d, avg[j]? = some a ∧ data[j]? = some d ∧
      avg1[j]? = some (a + d / (n : α)) := by
  unfold accumulate_avg at h
  have := for_range_invariant _ (fun k (t : List α) =>
      (∀ j, j < k → ∃ a d, avg[j]? = some a ∧ data[j]? = some d ∧
        t[j]? = some (a + d / (n : α))) ∧ ∀ j, k ≤ j → t[j]? = avg[j]?)
    0 count avg avg1 (by
      intro k t t1 _ hk hb
      simp only [Nat.zero_add] at hb
      cases hd : data[k]? with
      | none => simp [hd] at hb
      | some d =>
        cases ha : t[k]? with
        | none => simp [hd, ha] at hb
        | some a =>
          simp only [hd, ha, Option.some_bind] at hb
          unfold store at hb
          split at hb
          · rename_i hlt
            simp only [Option.some.injEq] at hb
            subst hb
            constructor
            · intro j hj
              by_cases hjk : j = k
              · subst hjk
                refine ⟨a, d, ?_, hd, ?_⟩
                · rw [← hk.2 j (Nat.le_refl _)]
                  exact ha
                · simp [hlt]
              · obtain ⟨a1, d1, h1, h2, h3⟩ := hk.1 j (by omega)
                refine ⟨a1, d1, h1, h2, ?_⟩
                rw [List.getElem?_set_ne (fun h => hjk h.symm)]
                exact h3
            · intro j hj
              rw [List.getElem?_set_ne (by omega)]
              exact hk.2 j (by omega)
          · simp at hb) ⟨fun j hj => absurd hj (by omega), fun _ _ => rfl⟩ h
  exact this.1

/-- One round of the loop over the instances: the entry that is appended
and the values that are added to the averaging buffer. -/
theorem compute_stats_data_avg (E : Env α) (dynamic : MoleculeDynamic α) (count : Nat)
    (prop_cmd : PropertyCommand α) (args : List CString) (group : Group) (group_id : ID)
    (i : Nat) (s s1 : InstanceLoopState α)
    (h : compute_stats_data E dynamic count prop_cmd args group group_id i s = some s1) :
    ∃ e : PropertyData α, s1.2.1.property_data = s.2.1.property_data ++ [e] ∧
      ∀ j, j < count → ∃ a d, s.2.2[j]? = some a ∧ e.data[j]? = some d ∧
        s1.2.2[j]? = some (a + d / (group.instance_count : α)) := by
  unfold compute_stats_data at h
  dsimp only at h
  cases hf : find_id s.2.1.group_instances (get_group_instance s.2.1 group_id i) with
  | none => simp [hf] at h
  | some inst =>
    rw [hf, Option.some_bind] at h
    cases hr : prop_cmd.func (List.replicate count 0) args dynamic inst.2.structure_ with
    | none => simp [hr] at h
    | some r =>
      rw [hr, Option.some_bind] at h
      cases ha : accumulate_avg count group.instance_count r.2 s.2.2 with
      | none => simp [ha] at h
      | some avg =>
        rw [ha, Option.some_bind] at h
        simp only [Option.some.injEq] at h
        refine ⟨new_prop_data E group s.1 i (get_group_instance s.2.1 group_id i) count r.2,
          by rw [← h], ?_⟩
        intro j hj
        obtain ⟨a, d, h1, h2, h3⟩ := accumulate_avg_values _ _ _ _ _ ha j hj
        refine ⟨a, d, h1, ?_, by rw [← h]; exact h3⟩
        show (r.2.take count)[j]? = some d
        rw [List.getElem?_take_of_lt hj]
        exact h2

/-- The loop over the instances of a group, for a run that returns: the
averaging buffer holds, for each frame, its first value plus the values of the
appended series at that frame, each divided by the instance count. -/
theorem compute_stats_data_loop_avg (E : Env α) (dynamic : MoleculeDynamic α) (count : Nat)
    (prop_cmd : PropertyCommand α) (args : List CString) (group : Group) (group_id : ID)
    (n : Nat) (p0 : Property α) (c0 : StatisticsContext α) (avg0 : List α)
    (s1 : InstanceLoopState α) (havg0 : count ≤ avg0.length)
    (h : for_range (compute_stats_data E dynamic count prop_cmd args group group_id) 0 n
      (p0, c0, avg0) = some s1) :
    ∃ es : List (PropertyData α), es.length = n ∧
      s1.2.1.property_data = c0.property_data ++ es ∧
      ∀ j, j < count → ∃ a, avg0[j]? = some a ∧
        s1.2.2[j]? = some (a + Finset.sum (Finset.range n) (fun i =>
          entry_value es i j / (group.instance_count : α))) := by
  refine for_range_invariant (compute_stats_data E dynamic count prop_cmd args group group_id)
    (fun k (s : InstanceLoopState α) =>
      ∃ es : List (PropertyData α), es.length = k ∧
      s.2.1.property_data = c0.property_data ++ es ∧
      ∀ j, j < count → ∃ a, avg0[j]? = some a ∧
        s.2.2[j]? = some (a + Finset.sum (Finset.range k) (fun i =>
          entry_value es i j / (group.instance_count : α))))
    0 n (p0, c0, avg0) s1 ?_ ?_ h
  · intro k t t1 _ hP hb
    obtain ⟨es, hlen, hctx, hval⟩ := hP
    rw [Nat.zero_add] at hb
    obtain ⟨e, he, hstep⟩ := compute_stats_data_avg _ _ _ _ _ _ _ _ _ _ hb
    refine ⟨es ++ [e], by simp [hlen], by rw [he, hctx, List.append_assoc], ?_⟩
    intro j hj
    obtain ⟨a, ha, hs⟩ := hval j hj
    obtain ⟨a1, d, h1, h2, h3⟩ := hstep j hj
    rw [hs] at h1
    simp only [Option.some.injEq] at h1
    refine ⟨a, ha, ?_⟩
    rw [h3, ← h1, Finset.sum_range_succ, ← hlen, entry_value_append_right, h2, Option.getD_some,
      add_assoc]
    congr 3
    apply Finset.sum_congr rfl
    intro i hi
    rw [entry_value_append_left _ _ _ _ (by simpa using hi)]
  · refine ⟨[], rfl, by simp, ?_⟩
    intro j hj
    exact ⟨avg0[j], List.getElem?_eq_getElem (by omega), by simp⟩


/-- The averaged entry of a property that is evaluated: whatever entries the
loop body appended, the averaged one holds for each frame the sum of the
values of the instance series at that frame, each divided by the instance
count. -/
theorem compute_stats_property_avg (E : Env α) (dynamic : MoleculeDynamic α) (count : Nat)
    (prop : Property α) (ctx : StatisticsContext α) (r : Property α × StatisticsContext α)
    (prop_cmd : PropertyCommand α) (ci : Nat) (arg0 : CString) (rest : List CString)
    (group : Group) (gi : Nat)
    (hbeg : prop.data_beg_id = INVALID_ID)
    (hcmd : find_id ctx.property_commands prop.cmd_id = some (ci, prop_cmd))
    (hintra : prop_cmd.type = PropertyType.INTRA)
    (hargs : tokens E prop.args = arg0 :: rest)
    (hgid : get_group E ctx arg0 ≠ INVALID_ID)
    (hgroup : find_id ctx.groups (get_group E ctx arg0) = some (gi, group))
    (hrun : compute_stats_property E dynamic count prop ctx = some r)
    (avg : List α) (es : List (PropertyData α))
    (hdata : r.2.property_data = ctx.property_data ++
      ⟨COMPUTE_ID E (data_avg_name group.name prop.name), prop.id, INVALID_ID, avg⟩ :: es) :
    ∀ j, j < count → avg[j]? = some (Finset.sum (Finset.range group.instance_count)
      (fun i => entry_value es i j / (group.instance_count : α))) := by
  unfold compute_stats_property at hrun
  rw [if_pos hbeg] at hrun
  simp only [hcmd, hintra, hargs, hgid, if_false, hgroup, Option.map_eq_some'] at hrun
  obtain ⟨s, hloop, hr⟩ := hrun
  obtain ⟨es1, _, hctx, hval⟩ :=
    compute_stats_data_loop_avg _ _ _ _ _ _ _ _ _ _ _ _ (by simp) hloop
  dsimp only at hctx hval
  have hpd : r.2.property_data = ctx.property_data ++
      ⟨COMPUTE_ID E (data_avg_name group.name prop.name), prop.id, INVALID_ID, s.2.2⟩ ::
        es1 := by
    rw [← hr]
    show s.2.1.property_data.set _ _ = _
    rw [hctx]
    simp [List.set_append]
  rw [hpd] at hdata
  have hcons := List.append_cancel_left hdata
  simp only [List.cons.injEq, PropertyData.mk.injEq, true_and] at hcons
  obtain ⟨havg, hes⟩ := hcons
  intro j hj
  obtain ⟨a, ha, hs⟩ := hval j hj
  rw [List.getElem?_replicate] at ha
  simp only [hj, if_true, Option.some.injEq] at ha
  rw [← havg, ← hes, hs, ← ha, zero_add]

/-- The series of a property after compute_stats, for a listed property
without data whose command has the type INTRA and whose first argument names
a group that has instances once the groups are resolved: the entries that the
getters return and the values of the averaged one. -/
theorem compute_stats_series_layout (E : Env α)
    (ctx : StatisticsContext α)
    (dynamic : MoleculeDynamic α) (mol : MoleculeStructure) (traj : Trajectory α)
    (prop : Property α) (ci : Nat) (prop_cmd : PropertyCommand α)
    (arg0 : CString) (rest : List CString) (gi : Nat) (group : Group)
    (hmol : dynamic.molecule = some mol) (htraj : dynamic.trajectory = some traj)
    (hsafe : Safe E ctx dynamic mol traj.num_frames)
    (hpids : (ctx.properties.map (fun p => p.id)).Nodup)
    (hprop : prop ∈ ctx.properties) (hbeg : prop.data_beg_id = INVALID_ID)
    (hcmd : find_id ctx.property_commands prop.cmd_id = some (ci, prop_cmd))
    (hintra : prop_cmd.type = PropertyType.INTRA)
    (hargs : tokens E prop.args = arg0 :: rest)
    (hname : get_group E ctx arg0 = group.id) (hvalid : group.id ≠ INVALID_ID)
    (hgroup : find_id (resolved_context E ctx mol).groups group.id = some (gi, group))
    (hn : 0 < group.instance_count)
    (havg_id : COMPUTE_ID E (data_avg_name group.name prop.name) ≠ INVALID_ID)
    (hbeg_id : COMPUTE_ID E (data_name group.name prop.name 0) ≠ INVALID_ID)
    (honce : ∀ r, compute_stats E ctx dynamic = some r →
      series_id_count r.2 (COMPUTE_ID E (data_avg_name group.name prop.name)) ≤ 1 ∧
      series_id_count r.2 (COMPUTE_ID E (data_name group.name prop.name 0)) ≤ 1) :
    ∃ ctx1 avg es, compute_stats E ctx dynamic = some (true, ctx1) ∧
      get_property_avg_data ctx1 prop.id = some avg ∧
      (∀ i : Nat, i < group.instance_count → ∃ e : PropertyData α, es[i]? = some e ∧
        get_property_data ctx1 prop.id i = some e.data ∧ e.data.length = traj.num_frames) ∧
      ∀ j, j < traj.num_frames → avg[j]? = some (Finset.sum
        (Finset.range group.instance_count)
        (fun i => entry_value es i j / (group.instance_count : α))) := by
  obtain ⟨r, hr⟩ := compute_stats_total E ctx dynamic mol traj hmol htraj hsafe
  obtain ⟨hb, p, hp, hr2⟩ := compute_stats_some E ctx dynamic mol traj hmol htraj r hr
  obtain ⟨hmapids, _, hat⟩ := compute_stats_properties_some _ _ _ _ _ _ hp
  obtain ⟨k, hk⟩ := List.mem_iff_getElem?.mp hprop
  obtain ⟨es1, rk, es2, hstep, hget, hpd⟩ := hat k prop hk
  obtain ⟨c, hc, hstep⟩ : ∃ c : StatisticsContext α,
      c = { resolved_context E ctx mol with
            property_data := (resolved_context E ctx mol).property_data ++ es1 } ∧
      compute_stats_property E dynamic traj.num_frames prop c = some rk := ⟨_, rfl, hstep⟩
  have hcmd1 : find_id c.property_commands prop.cmd_id = some (ci, prop_cmd) := by
    rw [hc]; exact hcmd
  have hname1 : get_group E c arg0 = group.id := by
    rw [hc]; exact (get_group_resolved E ctx mol arg0).trans hname
  have hgroup1 : find_id c.groups (get_group E c arg0) = some (gi, group) := by
    rw [hname1, hc]
    exact hgroup
  have hgid1 : get_group E c arg0 ≠ INVALID_ID := by rw [hname1]; exact hvalid
  obtain ⟨avg, es, _, heslen, hctx, hid, havgid, hcounted, _, hseries⟩ :=
    compute_stats_property_bound E dynamic traj.num_frames prop c rk prop_cmd ci arg0 rest
      group gi hbeg hcmd1 hintra hargs hgid1 hgroup1 hstep
  have hvalues := compute_stats_property_avg E dynamic traj.num_frames prop c rk prop_cmd ci
    arg0 rest group gi hbeg hcmd1 hintra hargs hgid1 hgroup1 hstep avg es (by rw [hctx])
  obtain ⟨hbegid, hcount⟩ := hcounted hn
  have hprops : r.2.properties = p.1 := by rw [hr2]
  have hdata : r.2.property_data =
      c.property_data ++
        (⟨COMPUTE_ID E (data_avg_name group.name prop.name), prop.id, INVALID_ID, avg⟩ :: es) ++
        es2 := by
    rw [hr2]
    show p.2.property_data = _
    rw [hpd, hctx]
  have hfindp : find_id r.2.properties prop.id = some (k, rk.1) := by
    rw [hprops, ← hid]
    apply find_id_of_count p.1 k rk.1 hget
    have hnd : (p.1.map HasID.id).Nodup := by
      have : p.1.map HasID.id = p.1.map (fun q => q.id) := rfl
      rw [this, hmapids]
      exact hpids
    exact List.nodup_iff_count_le_one.mp hnd _
  obtain ⟨honce_avg, honce_beg⟩ := honce r hr
  have hfind_avg : find_id r.2.property_data
      (COMPUTE_ID E (data_avg_name group.name prop.name)) =
      some (c.property_data.length,
        ⟨COMPUTE_ID E (data_avg_name group.name prop.name), prop.id, INVALID_ID, avg⟩) := by
    apply find_id_of_count r.2.property_data _
      (⟨COMPUTE_ID E (data_avg_name group.name prop.name), prop.id, INVALID_ID, avg⟩ :
        PropertyData α)
    · rw [hdata, List.append_assoc, List.getElem?_append_right (Nat.le_refl _)]
      simp
    · exact honce_avg
  obtain ⟨s0, _, _, hes0⟩ := hseries 0 (by omega)
  have hfind_beg : find_id r.2.property_data
      (COMPUTE_ID E (data_name group.name prop.name 0)) =
      some (c.property_data.length + 1,
        ⟨COMPUTE_ID E (data_name group.name prop.name 0), prop.id,
          get_group_instance c (get_group E c arg0) 0, s0⟩) := by
    apply find_id_of_count r.2.property_data _
      (⟨COMPUTE_ID E (data_name group.name prop.name 0), prop.id, _, s0⟩ : PropertyData α)
    · rw [hdata]
      rw [List.append_assoc, List.getElem?_append_right (by omega)]
      simp only [Nat.add_sub_cancel_left, List.cons_append, List.getElem?_cons_succ]
      rw [List.getElem?_append_left (by omega)]
      exact hes0
    · exact honce_beg
  refine ⟨r.2, avg, es, by rw [hr, ← hb], ?_, ?_, hvalues⟩
  · unfold get_property_avg_data
    rw [hfindp]
    simp only [havgid, ne_eq, havg_id, not_false_eq_true, if_true, hfind_avg, Option.map_some']
  · intro i hi
    obtain ⟨series, _, hs2, hs3⟩ := hseries i hi
    refine ⟨_, hs3, ?_, hs2⟩
    unfold get_property_data
    rw [hfindp]
    simp only [hbegid, ne_eq, hbeg_id, not_false_eq_true, hcount, Nat.cast_lt, hi, and_self,
      if_true, hfind_beg, Option.some_bind]
    unfold load
    have hnonneg : (0 : Int) ≤ ((c.property_data.length + 1 : Nat) : Int) + (i : Int) := by
      omega
    rw [if_pos hnonneg]
    have hidx : (((c.property_data.length + 1 : Nat) : Int) + (i : Int)).toNat =
        c.property_data.length + (i + 1) := by
      omega
    rw [hidx, hdata, List.append_assoc, List.getElem?_append_right (by omega)]
    simp only [Nat.add_sub_cancel_left, List.cons_append, List.getElem?_cons_succ]
    rw [List.getElem?_append_left (by omega), hs3]
    rfl

/-! ## The atoms that the built-in commands read -/

theorem compute_atomic_distance_inside (E : Env α) (data : List α) (args : List CString)
    (d1 d2 : MoleculeDynamic α) (t1 t2 : Trajectory α) (s : Structure)
    (h1 : d1.trajectory = some t1) (h2 : d2.trajectory = some t2)
    (hsame : same_inside t1 t2 s)
    (hoff : ∀ t ∈ args, ∀ o, E.to_int32 t = some o →
      0 ≤ o ∧ s.beg_atom_idx + o < s.end_atom_idx) :
    compute_atomic_distance E data args d1 s = compute_atomic_distance E data args d2 s := by
  unfold compute_atomic_distance
  by_cases hlen : args.length = 2
  · obtain ⟨ta, tb, rfl⟩ := List.length_eq_two.mp hlen
    by_cases hb : s.beg_atom_idx = s.end_atom_idx
    · simp [hb]
    · simp only [List.length_cons, List.length_nil, ne_eq, not_true_eq_false, if_false, hb]
      cases ha : E.to_int32 ta with
      | none => simp [ha]
      | some a =>
        cases hb1 : E.to_int32 tb with
        | none => simp [ha, hb1]
        | some b =>
          have hA := hoff ta (by simp) a ha
          have hB := hoff tb (by simp) b hb1
          have hbody : (fun (i : Nat) (data : List α) =>
              (atom_position t1 i (s.beg_atom_idx + a)).bind (fun pos_a =>
                (atom_position t1 i (s.beg_atom_idx + b)).bind (fun pos_b =>
                  store data i (E.distance pos_a pos_b)))) =
              (fun (i : Nat) (data : List α) =>
              (atom_position t2 i (s.beg_atom_idx + a)).bind (fun pos_a =>
                (atom_position t2 i (s.beg_atom_idx + b)).bind (fun pos_b =>
                  store data i (E.distance pos_a pos_b)))) := by
            funext i data
            rw [hsame.2 i _ (by omega) hA.2, hsame.2 i _ (by omega) hB.2]
          simp only [List.getElem?_cons_zero, List.getElem?_cons_succ, ha, hb1, h1, h2,
            bind, Option.bind, Option.some_bind, hsame.1]
          simp only [Option.bind] at hbody
          rw [hbody]
  · simp [hlen]


theorem compute_atomic_angle_inside (E : Env α) (data : List α) (args : List CString)
    (d1 d2 : MoleculeDynamic α) (t1 t2 : Trajectory α) (s : Structure)
    (h1 : d1.trajectory = some t1) (h2 : d2.trajectory = some t2)
    (hsame : same_inside t1 t2 s)
    (hoff : ∀ t ∈ args, ∀ o, E.to_int32 t = some o →
      0 ≤ o ∧ s.beg_atom_idx + o < s.end_atom_idx) :
    compute_atomic_angle E data args d1 s = compute_atomic_angle E data args d2 s := by
  unfold compute_atomic_angle
  by_cases hlen : args.length = 3
  · obtain ⟨ta, tb, tc, rfl⟩ := List.length_eq_three.mp hlen
    by_cases hb : s.beg_atom_idx = s.end_atom_idx
    · simp [hb]
    · simp only [List.length_cons, List.length_nil, ne_eq, not_true_eq_false, if_false, hb]
      cases ha : E.to_int32 ta with
      | none => simp [ha]
      | some a =>
        cases hb1 : E.to_int32 tb with
        | none => simp [ha, hb1]
        | some b =>
          cases hc : E.to_int32 tc with
          | none => simp [ha, hb1, hc]
          | some c =>
            have hA := hoff ta (by simp) a ha
            have hB := hoff tb (by simp) b hb1
            have hC := hoff tc (by simp) c hc
            have hbody : (fun (i : Nat) (data : List α) =>
                (atom_position t1 i (s.beg_atom_idx + a)).bind (fun pos_a =>
                  (atom_position t1 i (s.beg_atom_idx + b)).bind (fun pos_b =>
                    (atom_position t1 i (s.beg_atom_idx + c)).bind (fun pos_c =>
                      store data i (E.angle (pos_a - pos_b) (pos_c - pos_b)))))) =
                (fun (i : Nat) (data : List α) =>
                (atom_position t2 i (s.beg_atom_idx + a)).bind (fun pos_a =>
                  (atom_position t2 i (s.beg_atom_idx + b)).bind (fun pos_b =>
                    (atom_position t2 i (s.beg_atom_idx + c)).bind (fun pos_c =>
                      store data i (E.angle (pos_a - pos_b) (pos_c - pos_b)))))) := by
              funext i data
              rw [hsame.2 i _ (by omega) hA.2, hsame.2 i _ (by omega) hB.2,
                hsame.2 i _ (by omega) hC.2]
            simp only [List.getElem?_cons_zero, List.getElem?_cons_succ, ha, hb1, hc, h1, h2,
              bind, Option.bind, Option.some_bind, hsame.1]
            simp only [Option.bind] at hbody
            rw [hbody]
  · simp [hlen]

theorem compute_atomic_dihedral_inside (E : Env α) (data : List α) (args : List CString)
    (d1 d2 : MoleculeDynamic α) (t1 t2 : Trajectory α) (s : Structure)
    (h1 : d1.trajectory = some t1) (h2 : d2.trajectory = some t2)
    (hsame : same_inside t1 t2 s)
    (hoff : ∀ t ∈ args, ∀ o, E.to_int32 t = some o →
      0 ≤ o ∧ s.beg_atom_idx + o < s.end_atom_idx) :
    compute_atomic_dihedral E data args d1 s = compute_atomic_dihedral E data args d2 s := by
  unfold compute_atomic_dihedral
  by_cases hlen : args.length = 4
  · obtain ⟨ta, rest, rfl⟩ := List.exists_cons_of_length_eq_add_one hlen
    have hlen3 : rest.length = 3 := by simpa using hlen
    obtain ⟨tb, tc, td, rfl⟩ := List.length_eq_three.mp hlen3
    by_cases hb : s.beg_atom_idx = s.end_atom_idx
    · simp [hb]
    · simp only [List.length_cons, List.length_nil, ne_eq, not_true_eq_false, if_false, hb]
      cases ha : E.to_int32 ta with
      | none => simp [ha]
      | some a =>
        cases hb1 : E.to_int32 tb with
        | none => simp [ha, hb1]
        | some b =>
          cases hc : E.to_int32 tc with
          | none => simp [ha, hb1, hc]
          | some c =>
            have hA := hoff ta (by simp) a ha
            have hB := hoff tb (by simp) b hb1
            have hC := hoff tc (by simp) c hc
            have hbody : (fun (i : Nat) (data : List α) =>
                (atom_position t1 i (s.beg_atom_idx + a)).bind (fun pos_a =>
                  (atom_position t1 i (s.beg_atom_idx + b)).bind (fun pos_b =>
                    (atom_position t1 i (s.beg_atom_idx + c)).bind (fun pos_c =>
                      (atom_position t1 i (s.beg_atom_idx + c)).bind (fun pos_d =>
                        store data i (E.dihedral_angle pos_a pos_b pos_c pos_d)))))) =
                (fun (i : Nat) (data : List α) =>
                (atom_position t2 i (s.beg_atom_idx + a)).bind (fun pos_a =>
                  (atom_position t2 i (s.beg_atom_idx + b)).bind (fun pos_b =>
                    (atom_position t2 i (s.beg_atom_idx + c)).bind (fun pos_c =>
                      (atom_position t2 i (s.beg_atom_idx + c)).bind (fun pos_d =>
                        store data i (E.dihedral_angle pos_a pos_b pos_c pos_d)))))) := by
              funext i data
              rw [hsame.2 i _ (by omega) hA.2, hsame.2 i _ (by omega) hB.2,
                hsame.2 i _ (by omega) hC.2]
            simp only [List.getElem?_cons_zero, List.getElem?_cons_succ, ha, hb1, hc, h1, h2,
              bind, Option.bind, Option.some_bind, hsame.1]
            simp only [Option.bind] at hbody
            rw [hbody]
  · simp [hlen]

end lemmas

/-! ## Lemmas on compute_histogram -/

section histogram_lemmas

set_option linter.unusedSectionVars false

variable {α : Type} [LinearOrderedField α] [FloorRing α]

theorem clamp_range (x n : Int) (hn : 0 < n) : 0 ≤ clamp x 0 (n - 1) ∧ clamp x 0 (n - 1) < n := by
  unfold clamp
  constructor
  · exact le_min (le_max_right _ _) (by omega)
  · exact lt_of_le_of_lt (min_le_right _ _) (by omega)

theorem sum_set_add_one (bins : List α) (j : Nat) (hj : j < bins.length) :
    (bins.set j (bins[j] + 1)).sum = bins.sum + 1 := by
  induction bins generalizing j with
  | nil => simp at hj
  | cons a rest ih =>
    cases j with
    | zero =>
      simp only [List.set_cons_zero, List.sum_cons, List.getElem_cons_zero]
      ring
    | succ j =>
      simp only [List.set_cons_succ, List.sum_cons, List.getElem_cons_succ]
      rw [ih j (by simpa using hj)]
      ring

theorem countP_take_succ (data : List α) (p : α → Bool) (k : Nat) (hk : k < data.length) :
    (data.take (k + 1)).countP p = (data.take k).countP p + (if p data[k] then 1 else 0) := by
  rw [List.take_succ, List.getElem?_eq_getElem hk, List.countP_append]
  simp [List.countP_cons]

theorem compute_histogram_range_counts (hist : Histogram α) (num_bins : Int) (data : List α)
    (min_val max_val : α) (hbins : 0 < num_bins) (hrange : min_val < max_val)
    (hfit : ∀ v ∈ data,
      -2 ^ 31 ≤ trunc ((v - min_val) * num_bins / (max_val - min_val)) ∧
      trunc ((v - min_val) * num_bins / (max_val - min_val)) < 2 ^ 31) :
    ∃ bins, compute_histogram_range hist num_bins data min_val max_val =
        some { hist with bins := bins } ∧
      bins_count num_bins min_val max_val data data.length bins := by
  unfold compute_histogram_range
  rw [if_neg (by simpa using hbins)]
  have hne : max_val - min_val ≠ 0 := sub_ne_zero.mpr (ne_of_gt hrange)
  obtain ⟨bins, hr, hP⟩ := for_range_total
    (fun k (bins : List α) =>
      (data[k]?).bind (fun v =>
      (if max_val - min_val = 0 then none
        else cast_int32 ((v - min_val) * ((num_bins : α) / (max_val - min_val)))).bind (fun t =>
        let bin_idx := clamp t 0 (num_bins - 1)
        (load bins bin_idx).bind (fun count => store bins bin_idx.toNat (count + 1)))))
    (fun k bins => bins_count num_bins min_val max_val data k bins) 0 data.length
    (List.replicate num_bins.toNat 0)
    (by
      intro k bins hk hP
      simp only [Nat.zero_add]
      rw [List.getElem?_eq_getElem hk, Option.some_bind, if_neg hne]
      have hv := hfit data[k] (List.getElem_mem _)
      have heq : (data[k] - min_val) * ((num_bins : α) / (max_val - min_val)) =
          (data[k] - min_val) * num_bins / (max_val - min_val) := by
        rw [mul_div_assoc]
      rw [heq]
      have hcast : cast_int32 ((data[k] - min_val) * num_bins / (max_val - min_val)) =
          some (trunc ((data[k] - min_val) * num_bins / (max_val - min_val))) := by
        unfold cast_int32
        rw [if_pos hv]
      rw [hcast, Option.some_bind]
      have hb : clamp (trunc ((data[k] - min_val) * num_bins / (max_val - min_val))) 0
          (num_bins - 1) = bin_of num_bins min_val max_val data[k] := rfl
      simp only [hb]
      have hcl := clamp_range (trunc ((data[k] - min_val) * num_bins / (max_val - min_val)))
        num_bins hbins
      rw [hb] at hcl
      have hj : (bin_of num_bins min_val max_val data[k]).toNat < bins.length := by
        rw [hP.1]
        omega
      have hload : load bins (bin_of num_bins min_val max_val data[k]) =
          some bins[(bin_of num_bins min_val max_val data[k]).toNat] := by
        unfold load
        rw [if_pos hcl.1, List.getElem?_eq_getElem hj]
      rw [hload, Option.some_bind]
      have hstore : store bins (bin_of num_bins min_val max_val data[k]).toNat
          (bins[(bin_of num_bins min_val max_val data[k]).toNat] + 1) =
          some (bins.set (bin_of num_bins min_val max_val data[k]).toNat
            (bins[(bin_of num_bins min_val max_val data[k]).toNat] + 1)) := by
        unfold store
        rw [if_pos hj]
      refine ⟨_, hstore, ?_, ?_, ?_⟩
      · rw [List.length_set]
        exact hP.1
      · rw [sum_set_add_one bins _ hj, hP.2.1]
        push_cast
        rfl
      · intro b hb1
        rw [countP_take_succ data _ k hk]
        by_cases hbj : (bin_of num_bins min_val max_val data[k]).toNat = b
        · subst hbj
          rw [List.getElem?_set_self hj]
          have hold := hP.2.2 _ hb1
          rw [List.getElem?_eq_getElem hj] at hold
          simp only [Option.some.injEq] at hold
          rw [hold]
          have : bin_of num_bins min_val max_val data[k] =
              ((bin_of num_bins min_val max_val data[k]).toNat : Int) := by
            rw [Int.toNat_of_nonneg hcl.1]
          simp only [← this, decide_True, if_true]
          push_cast
          rfl
        · rw [List.getElem?_set_ne hbj, hP.2.2 b hb1]
          have : ¬ bin_of num_bins min_val max_val data[k] = (b : Int) := by
            intro h
            apply hbj
            rw [h]
            rfl
          simp [this])
    (by
      refine ⟨by simp, by simp, ?_⟩
      intro b hb
      rw [List.getElem?_replicate, if_pos hb]
      simp)
  exact ⟨bins, by dsimp only; rw [hr]; rfl, hP⟩

theorem foldl_min_max (data : List α) (lo hi : α) :
    (data.foldl (fun (r : α × α) d => (min r.1 d, max r.2 d)) (lo, hi)).1 =
      data.foldl min lo ∧
    (data.foldl (fun (r : α × α) d => (min r.1 d, max r.2 d)) (lo, hi)).2 =
      data.foldl max hi := by
  induction data generalizing lo hi with
  | nil => exact ⟨rfl, rfl⟩
  | cons d rest ih => exact ih (min lo d) (max hi d)

theorem foldl_min_le (data : List α) (lo : α) :
    data.foldl min lo ≤ lo ∧ (∀ v ∈ data, data.foldl min lo ≤ v) ∧
    (data.foldl min lo = lo ∨ data.foldl min lo ∈ data) := by
  induction data generalizing lo with
  | nil => simp
  | cons d rest ih =>
    obtain ⟨h1, h2, h3⟩ := ih (min lo d)
    refine ⟨le_trans h1 (min_le_left _ _), ?_, ?_⟩
    · intro v hv
      rcases List.mem_cons.mp hv with rfl | hv
      · exact le_trans h1 (min_le_right _ _)
      · exact h2 v hv
    · simp only [List.foldl_cons, List.mem_cons]
      rcases h3 with h3 | h3
      · rcases min_choice lo d with hm | hm
        · left
          rw [h3, hm]
        · right
          left
          rw [h3, hm]
      · right
        right
        exact h3

theorem foldl_max_ge (data : List α) (hi : α) :
    hi ≤ data.foldl max hi ∧ (∀ v ∈ data, v ≤ data.foldl max hi) ∧
    (data.foldl max hi = hi ∨ data.foldl max hi ∈ data) := by
  induction data generalizing hi with
  | nil => simp
  | cons d rest ih =>
    obtain ⟨h1, h2, h3⟩ := ih (max hi d)
    refine ⟨le_trans (le_max_left _ _) h1, ?_, ?_⟩
    · intro v hv
      rcases List.mem_cons.mp hv with rfl | hv
      · exact le_trans (le_max_right _ _) h1
      · exact h2 v hv
    · simp only [List.foldl_cons, List.mem_cons]
      rcases h3 with h3 | h3
      · rcases max_choice hi d with hm | hm
        · left
          rw [h3, hm]
        · right
          left
          rw [h3, hm]
      · right
        right
        exact h3

/-- The range that compute_histogram computes for data that is not empty and
lies between -FLT_MAX and FLT_MAX: the least and the greatest value. -/
theorem compute_histogram_range_of_data (E : Env α) (hist : Histogram α) (num_bins : Int)
    (data : List α) (hdata : data ≠ [])
    (hfinite : ∀ v ∈ data, -E.FLT_MAX ≤ v ∧ v ≤ E.FLT_MAX) :
    ∃ lo hi, lo ∈ data ∧ hi ∈ data ∧ (∀ v ∈ data, lo ≤ v ∧ v ≤ hi) ∧
      compute_histogram E hist num_bins data =
        compute_histogram_range hist num_bins data lo hi := by
  unfold compute_histogram
  have hlen : data.length ≠ 0 := fun h => hdata (List.eq_nil_of_length_eq_zero h)
  rw [if_neg hlen]
  obtain ⟨e1, e2⟩ := foldl_min_max data E.FLT_MAX (-E.FLT_MAX)
  simp only [e1, e2]
  obtain ⟨a1, a2, a3⟩ := foldl_min_le data E.FLT_MAX
  obtain ⟨b1, b2, b3⟩ := foldl_max_ge data (-E.FLT_MAX)
  obtain ⟨d, hd⟩ := List.exists_mem_of_ne_nil data hdata
  have hmin : data.foldl min E.FLT_MAX ∈ data := by
    rcases a3 with h | h
    · have h1 := a2 d hd
      have h2 := (hfinite d hd).2
      rw [h] at h1
      have : d = E.FLT_MAX := le_antisymm h2 h1
      rw [h, ← this]
      exact hd
    · exact h
  have hmax : data.foldl max (-E.FLT_MAX) ∈ data := by
    rcases b3 with h | h
    · have h1 := b2 d hd
      have h2 := (hfinite d hd).1
      rw [h] at h1
      have : d = -E.FLT_MAX := le_antisymm h1 h2
      rw [h, ← this]
      exact hd
    · exact h
  exact ⟨_, _, hmin, hmax, fun v hv => ⟨a2 v hv, b2 v hv⟩, rfl⟩

end histogram_lemmas

end stats

namespace load

/-! ## Lemmas on the arrays of loaded objects -/

section lemmas
set_option linter.unusedSectionVars false
variable {α C : Type} [Ring α] [Div α]

/-- What the lookup loop returns when it returns. -/
theorem find_key_some {T : Type} (key_of : T → Nat) (slots : List T) (key : Nat)
    (i n : Nat) (r : Option Nat) (h : find_key key_of slots key i n = some r) :
    match r with
    | some j => i ≤ j ∧ j < i + n ∧ ∃ e, slots[j]? = some e ∧ key_of e = key
    | none => ∀ j, i ≤ j → j < i + n → ∃ e, slots[j]? = some e ∧ key_of e ≠ key := by
  induction n generalizing i with
  | zero =>
    simp only [find_key, Option.some.injEq] at h
    subst h
    intro j h1 h2
    omega
  | succ n ih =>
    unfold find_key at h
    cases hs : slots[i]? with
    | none => simp [hs] at h
    | some e =>
      simp only [hs] at h
      by_cases hk : key_of e = key
      · simp only [hk, if_true, Option.some.injEq] at h
        subst h
        exact ⟨Nat.le_refl _, by omega, e, hs, hk⟩
      · simp only [hk, if_false] at h
        have := ih (i + 1) h
        cases r with
        | some j =>
          obtain ⟨h1, h2, h3⟩ := this
          exact ⟨by omega, by omega, h3⟩
        | none =>
          intro j h1 h2
          by_cases hj : j = i
          · subst hj
            exact ⟨e, hs, hk⟩
          · exact this j (by omega) (by omega)

/-- The lookup loop returns when the counted entries lie in the array. -/
theorem find_key_total {T : Type} (key_of : T → Nat) (slots : List T) (key : Nat)
    (i n : Nat) (h : i + n ≤ slots.length) : ∃ r, find_key key_of slots key i n = some r := by
  induction n generalizing i with
  | zero => exact ⟨none, rfl⟩
  | succ n ih =>
    unfold find_key
    have hi : i < slots.length := by omega
    rw [List.getElem?_eq_getElem hi]
    by_cases hk : key_of slots[i] = key
    · exact ⟨some i, by simp [hk]⟩
    · obtain ⟨r, hr⟩ := ih (i + 1) (by omega)
      exact ⟨r, by simp [hk, hr]⟩

/-- The keys of the counted entries of an array. -/
theorem find_key_absent {T : Type} (key_of : T → Nat) (slots : List T) (key : Nat)
    (n : Nat) (hn : n ≤ slots.length)
    (h : ∀ j e, j < n → slots[j]? = some e → key_of e ≠ key) :
    find_key key_of slots key 0 n = some none := by
  obtain ⟨r, hr⟩ := find_key_total key_of slots key 0 n (by omega)
  have := find_key_some key_of slots key 0 n r hr
  cases r with
  | none => exact hr
  | some j =>
    obtain ⟨_, h2, e, he, hk⟩ := this
    exact absurd hk (h j e (by omega) he)

/-- A key that a counted entry carries is found, at an entry that carries it. -/
theorem find_key_present {T : Type} (key_of : T → Nat) (slots : List T) (key : Nat)
    (n : Nat) (hn : n ≤ slots.length) (j : Nat) (e : T) (hj : j < n)
    (he : slots[j]? = some e) (hk : key_of e = key) :
    ∃ j1 e1, find_key key_of slots key 0 n = some (some j1) ∧ j1 < n ∧
      slots[j1]? = some e1 ∧ key_of e1 = key := by
  obtain ⟨r, hr⟩ := find_key_total key_of slots key 0 n (by omega)
  have := find_key_some key_of slots key 0 n r hr
  cases r with
  | none =>
    obtain ⟨e1, h1, h2⟩ := this j (Nat.zero_le _) (by omega)
    rw [he] at h1
    simp only [Option.some.injEq] at h1
    subst h1
    exact absurd hk h2
  | some j1 =>
    obtain ⟨_, h2, e1, he1, hk1⟩ := this
    exact ⟨j1, e1, hr, by omega, he1, hk1⟩


/-- Distinct keys, by the indices of the entries. -/
theorem distinct_keys_iff {T : Type} (key_of : T → Nat) (slots : List T) (n : Nat)
    (hn : n ≤ slots.length) :
    distinct_keys key_of slots n ↔
    ∀ j1 j2 e1 e2, j1 < n → j2 < n → slots[j1]? = some e1 → slots[j2]? = some e2 →
      key_of e1 = key_of e2 → j1 = j2 := by
  unfold distinct_keys
  have hget : ∀ j, j < n → ((slots.take n).map key_of)[j]? = (slots[j]?).map key_of := by
    intro j hj
    rw [List.getElem?_map, List.getElem?_take_of_lt hj]
  have hlen : ((slots.take n).map key_of).length = n := by simp [hn]
  rw [List.nodup_iff_getElem?_ne_getElem?]
  constructor
  · intro h j1 j2 e1 e2 h1 h2 he1 he2 hk
    by_contra hne
    rcases Nat.lt_or_gt_of_ne hne with hlt | hlt
    · apply h j1 j2 hlt (by omega)
      rw [hget j1 h1, hget j2 h2, he1, he2]
      simp [hk]
    · apply h j2 j1 hlt (by omega)
      rw [hget j1 h1, hget j2 h2, he1, he2]
      simp [hk]
  · intro h i j hij hj
    rw [hlen] at hj
    rw [hget i (by omega), hget j hj]
    have hi : i < slots.length := by omega
    have hj1 : j < slots.length := by omega
    rw [List.getElem?_eq_getElem hi, List.getElem?_eq_getElem hj1]
    intro heq
    simp only [Option.map_some', Option.some.injEq] at heq
    have := h i j _ _ (by omega) hj (List.getElem?_eq_getElem hi) (List.getElem?_eq_getElem hj1)
      heq
    omega

/-- Swap back and pop: after the last counted entry is copied over entry i
and the count is decremented, the keys stay distinct, the key of entry i is
no longer found, and every other counted entry is found by its key. -/
theorem swap_back_find {T : Type} (key_of : T → Nat) (slots : List T) (n i : Nat)
    (hn : n ≤ slots.length) (hd : distinct_keys key_of slots n) (hi : i < n) (e last : T)
    (he : slots[i]? = some e) (hlast : slots[n - 1]? = some last) :
    distinct_keys key_of (slots.set i last) (n - 1) ∧
    find_key key_of (slots.set i last) (key_of e) 0 (n - 1) = some none ∧
    (i < n - 1 → (slots.set i last)[i]? = some last) ∧
    ∀ j x, j < n → j ≠ i → slots[j]? = some x →
      ∃ j1, find_key key_of (slots.set i last) (key_of x) 0 (n - 1) = some (some j1) ∧
        (slots.set i last)[j1]? = some x := by
  have hd1 := (distinct_keys_iff key_of slots n hn).mp hd
  have hlen : n - 1 ≤ (slots.set i last).length := by
    rw [List.length_set]
    omega
  -- the counted entries of the new array
  have hnew : ∀ j x, j < n - 1 → (slots.set i last)[j]? = some x →
      (j = i ∧ x = last) ∨ (j ≠ i ∧ slots[j]? = some x) := by
    intro j x hj hx
    by_cases hji : j = i
    · subst hji
      rw [List.getElem?_set_self (by omega)] at hx
      simp only [Option.some.injEq] at hx
      exact Or.inl ⟨rfl, hx.symm⟩
    · rw [List.getElem?_set_ne (fun h => hji h.symm)] at hx
      exact Or.inr ⟨hji, hx⟩
  have hd2 : distinct_keys key_of (slots.set i last) (n - 1) := by
    rw [distinct_keys_iff key_of _ _ hlen]
    intro j1 j2 e1 e2 h1 h2 he1 he2 hk
    rcases hnew j1 e1 h1 he1 with ⟨ha, hb⟩ | ⟨ha, hb⟩ <;>
      rcases hnew j2 e2 h2 he2 with ⟨hc, hf⟩ | ⟨hc, hf⟩
    · omega
    · subst hb
      have := hd1 (n - 1) j2 _ _ (by omega) (by omega) hlast hf hk
      omega
    · subst hf
      have := hd1 j1 (n - 1) _ _ (by omega) (by omega) hb hlast hk
      omega
    · exact hd1 j1 j2 _ _ (by omega) (by omega) hb hf hk
  refine ⟨hd2, ?_, ?_, ?_⟩
  · apply find_key_absent key_of _ _ _ hlen
    intro j x hj hx hk
    rcases hnew j x hj hx with ⟨ha, hb⟩ | ⟨ha, hb⟩
    · subst hb
      have := hd1 (n - 1) i _ _ (by omega) hi hlast he hk
      omega
    · have := hd1 j i _ _ (by omega) hi hb he hk
      exact ha this
  · intro hlt
    rw [List.getElem?_set_self (by omega)]
  · intro j x hj hji hx
    -- the place of x in the new array
    have hplace : ∃ j0, j0 < n - 1 ∧ (slots.set i last)[j0]? = some x := by
      by_cases hjl : j = n - 1
      · subst hjl
        rw [hlast] at hx
        simp only [Option.some.injEq] at hx
        subst hx
        exact ⟨i, by omega, by rw [List.getElem?_set_self (by omega)]⟩
      · exact ⟨j, by omega, by rw [List.getElem?_set_ne (fun h => hji h.symm)]; exact hx⟩
    obtain ⟨j0, hj0, hx0⟩ := hplace
    obtain ⟨j1, e1, hf, hj1, he1, hk1⟩ :=
      find_key_present key_of _ (key_of x) (n - 1) hlen j0 x hj0 hx0 rfl
    refine ⟨j1, hf, ?_⟩
    have := ((distinct_keys_iff key_of _ _ hlen).mp hd2) j1 j0 _ _ hj1 hj0 he1 hx0 hk1
    rw [this]
    exact hx0


/-- A write that keeps the key of an entry keeps the keys distinct. -/
theorem distinct_keys_set {T : Type} (key_of : T → Nat) (slots : List T) (n i : Nat)
    (hn : n ≤ slots.length) (e e1 : T) (he : slots[i]? = some e) (hk : key_of e1 = key_of e)
    (hd : distinct_keys key_of slots n) : distinct_keys key_of (slots.set i e1) n := by
  have hd1 := (distinct_keys_iff key_of slots n hn).mp hd
  have hi : i < slots.length := (List.getElem?_eq_some.mp he).1
  rw [distinct_keys_iff key_of _ _ (by rw [List.length_set]; exact hn)]
  have hold : ∀ (j : Nat) (x : T), (slots.set i e1)[j]? = some x →
      ∃ y, slots[j]? = some y ∧ key_of y = key_of x := by
    intro j x hx
    by_cases hji : j = i
    · subst hji
      rw [List.getElem?_set_self hi] at hx
      simp only [Option.some.injEq] at hx
      subst hx
      exact ⟨e, he, hk.symm⟩
    · rw [List.getElem?_set_ne (fun h => hji h.symm)] at hx
      exact ⟨x, hx, rfl⟩
  intro j1 j2 x1 x2 h1 h2 hx1 hx2 hkk
  obtain ⟨y1, hy1, hk1⟩ := hold j1 x1 hx1
  obtain ⟨y2, hy2, hk2⟩ := hold j2 x2 hx2
  exact hd1 j1 j2 y1 y2 h1 h2 hy1 hy2 (by rw [hk1, hk2, hkk])

/-- The function remove_loaded_molecule on a key that is found, in an array
with distinct keys. -/
theorem remove_loaded_molecule_found (E : Library α C) (s : State α C) (km im : Nat)
    (hnum_m : s.num_loaded_molecules ≤ s.loaded_molecules.length)
    (hkeys_m : distinct_keys (fun e => e.key) s.loaded_molecules s.num_loaded_molecules)
    (hfind_m : find_loaded_molecule s km = some (some im)) :
    ∃ s1, remove_loaded_molecule E s km = some s1 ∧
      s1.num_loaded_molecules + 1 = s.num_loaded_molecules ∧
      s1.num_loaded_molecules ≤ s1.loaded_molecules.length ∧
      distinct_keys (fun e => e.key) s1.loaded_molecules s1.num_loaded_molecules ∧
      find_loaded_molecule s1 km = some none ∧
      (∀ k p x, k ≠ km → find_loaded_molecule s k = some (some p) →
        s.loaded_molecules[p]? = some x →
        ∃ p1, find_loaded_molecule s1 k = some (some p1) ∧
          s1.loaded_molecules[p1]? = some x) ∧
      (im < s1.num_loaded_molecules →
        s1.loaded_molecules[im]? = s.loaded_molecules[s.num_loaded_molecules - 1]?) := by
  have hf := find_key_some _ _ _ _ _ _ hfind_m
  obtain ⟨_, hlt, e, he, hk⟩ := hf
  simp only [Nat.zero_add] at hlt
  have hlast : s.num_loaded_molecules - 1 < s.loaded_molecules.length := by omega
  obtain ⟨h1, h2, h3, h4⟩ := swap_back_find (fun e : LoadedMolecule => e.key)
    s.loaded_molecules s.num_loaded_molecules im hnum_m hkeys_m hlt e
    s.loaded_molecules[s.num_loaded_molecules - 1] he (List.getElem?_eq_getElem hlast)
  refine ⟨{ s with
      loaded_molecules := s.loaded_molecules.set im
        s.loaded_molecules[s.num_loaded_molecules - 1]
      num_loaded_molecules := s.num_loaded_molecules - 1 }, ?_, ?_, ?_, h1, ?_, ?_, ?_⟩
  · unfold remove_loaded_molecule
    rw [hfind_m, Option.some_bind]
    simp only [List.getElem?_eq_getElem hlast, Option.map_some']
  · show s.num_loaded_molecules - 1 + 1 = s.num_loaded_molecules
    omega
  · show s.num_loaded_molecules - 1 ≤ (s.loaded_molecules.set im _).length
    rw [List.length_set]
    omega
  · rw [← hk]
    exact h2
  · intro k p x hkne hfind hx
    obtain ⟨_, hp, y, hy, hky⟩ := find_key_some _ _ _ _ _ _ hfind
    simp only [Nat.zero_add] at hp
    have hxy : y = x := by
      have : s.loaded_molecules[p]? = some y := hy
      rw [hx] at this
      simpa using this.symm
    subst hxy
    have hpi : p ≠ im := by
      intro hpi
      subst hpi
      have : s.loaded_molecules[p]? = some e := he
      rw [hx] at this
      simp only [Option.some.injEq] at this
      subst this
      exact hkne (hky.symm.trans hk)
    obtain ⟨p1, hp1, hx1⟩ := h4 p y hp hpi hx
    exact ⟨p1, by rw [← hky]; exact hp1, hx1⟩
  · intro hlt1
    rw [List.getElem?_eq_getElem hlast]
    exact h3 hlt1

/-- The function remove_loaded_trajectory on a key that is found at an entry
with a loader, in an array with distinct keys. -/
theorem remove_loaded_trajectory_found (E : Library α C) (s : State α C) (kt it : Nat)
    (hnum_t : s.num_loaded_trajectories ≤ s.loaded_trajectories.length)
    (hkeys_t : distinct_keys (fun e => e.key) s.loaded_trajectories s.num_loaded_trajectories)
    (hfind_t : find_loaded_trajectory s kt = some (some it))
    (hloader : ((s.loaded_trajectories[it]?).bind (fun e => e.loader)).isSome = true) :
    ∃ e l, s.loaded_trajectories[it]? = some e ∧ e.key = kt ∧ e.loader = some l ∧
    ∃ s1, remove_loaded_trajectory E s kt = some s1 ∧
      s1.num_loaded_trajectories + 1 = s.num_loaded_trajectories ∧
      s1.num_loaded_trajectories ≤ s1.loaded_trajectories.length ∧
      distinct_keys (fun e => e.key) s1.loaded_trajectories s1.num_loaded_trajectories ∧
      find_loaded_trajectory s1 kt = some none ∧
      (∀ k p x, k ≠ kt → find_loaded_trajectory s k = some (some p) →
        s.loaded_trajectories[p]? = some x →
        ∃ p1, find_loaded_trajectory s1 k = some (some p1) ∧
          s1.loaded_trajectories[p1]? = some x) ∧
      (it < s1.num_loaded_trajectories →
        s1.loaded_trajectories[it]? =
          s.loaded_trajectories[s.num_loaded_trajectories - 1]?) ∧
      s1.loaded_molecules = s.loaded_molecules ∧
      s1.num_loaded_molecules = s.num_loaded_molecules ∧
      s1.interfaces = s.interfaces ∧
      s1.calls = s.calls ++ [Call.frame_cache_free kt, Call.destroy l e.traj] := by
  have hf := find_key_some _ _ _ _ _ _ hfind_t
  obtain ⟨_, hlt, e, he, hk⟩ := hf
  simp only [Nat.zero_add] at hlt
  obtain ⟨l, hl⟩ : ∃ l, e.loader = some l := by
    rw [he, Option.some_bind] at hloader
    cases hl : e.loader with
    | none => simp [hl] at hloader
    | some l => exact ⟨l, rfl⟩
  have hlenf : (s.loaded_trajectories.set it
      { e with cache := e.cache.map E.frame_cache_free }).length =
      s.loaded_trajectories.length := List.length_set _ _ _
  have hlast : s.num_loaded_trajectories - 1 < (s.loaded_trajectories.set it
      { e with cache := e.cache.map E.frame_cache_free }).length := by
    rw [hlenf]
    omega
  have hkeysf := distinct_keys_set (fun e : LoadedTrajectory α C => e.key)
    s.loaded_trajectories s.num_loaded_trajectories it hnum_t e
    { e with cache := e.cache.map E.frame_cache_free } he rfl hkeys_t
  have hit : it < s.loaded_trajectories.length := by omega
  obtain ⟨h1, h2, h3, h4⟩ := swap_back_find (fun e : LoadedTrajectory α C => e.key)
    (s.loaded_trajectories.set it { e with cache := e.cache.map E.frame_cache_free })
    s.num_loaded_trajectories it (by rw [hlenf]; exact hnum_t) hkeysf hlt
    { e with cache := e.cache.map E.frame_cache_free }
    (s.loaded_trajectories.set it
      { e with cache := e.cache.map E.frame_cache_free })[s.num_loaded_trajectories - 1]
    (List.getElem?_set_self hit) (List.getElem?_eq_getElem hlast)
  refine ⟨e, l, he, hk, hl, { s with
      loaded_trajectories := (s.loaded_trajectories.set it
          { e with cache := e.cache.map E.frame_cache_free }).set it
        (s.loaded_trajectories.set it
          { e with cache := e.cache.map E.frame_cache_free })[s.num_loaded_trajectories - 1]
      num_loaded_trajectories := s.num_loaded_trajectories - 1
      calls := s.calls ++ [Call.frame_cache_free e.key, Call.destroy l e.traj] },
    ?_, ?_, ?_, h1, ?_, ?_, ?_, rfl, rfl, rfl, by show _ ++ _ = _ ++ _; rw [hk]⟩
  · unfold remove_loaded_trajectory
    rw [hfind_t, Option.some_bind]
    simp only [he, Option.some_bind, hl]
    rw [List.getElem?_eq_getElem (by rw [List.length_set]; omega)]
    rfl
  · show s.num_loaded_trajectories - 1 + 1 = s.num_loaded_trajectories
    omega
  · show s.num_loaded_trajectories - 1 ≤ (List.set _ it _).length
    rw [List.length_set, hlenf]
    omega
  · rw [← hk]
    exact h2
  · intro k p x hkne hfind hx
    obtain ⟨_, hp, y, hy, hky⟩ := find_key_some _ _ _ _ _ _ hfind
    simp only [Nat.zero_add] at hp
    have hxy : y = x := by
      have : s.loaded_trajectories[p]? = some y := hy
      rw [hx] at this
      simpa using this.symm
    subst hxy
    have hpi : p ≠ it := by
      intro hpi
      subst hpi
      have : s.loaded_trajectories[p]? = some e := he
      rw [hx] at this
      simp only [Option.some.injEq] at this
      subst this
      exact hkne (hky.symm.trans hk)
    obtain ⟨p1, hp1, hx1⟩ := h4 p y hp hpi
      (by rw [List.getElem?_set_ne (fun h => hpi h.symm)]; exact hx)
    exact ⟨p1, by rw [← hky]; exact hp1, hx1⟩
  · intro hlt1
    have hlt2 : it < s.num_loaded_trajectories - 1 := hlt1
    have := h3 hlt2
    rw [this]
    rw [List.getElem_set_ne (by omega)]
    exact (List.getElem?_eq_getElem (by omega)).symm

end lemmas

/-! ## Lemmas on open_file and decode_frame_data -/

theorem CLAMP_le (v lo hi : Nat) : CLAMP v lo hi ≤ hi := by
  unfold CLAMP MIN
  split <;> omega

/-- The number of frames that open_file asks for, when nothing wraps. -/
theorem cache_frames_eq {α C : Type} [Ring α] [Div α] (E : Library α C) (mol : md_molecule_t α)
    (t : Nat) (n : Int)
    (hatoms : 0 ≤ mol.atom_count) (hsize : mol.atom_count * 12 < 2 ^ 64)
    (hframes : 0 ≤ E.num_frames t ∧ E.num_frames t < 2 ^ 63)
    (hram : E.physical_ram < 2 ^ 64)
    (h : cache_frames E mol t = some n) :
    mol.atom_count ≠ 0 ∧
    n = min (E.num_frames t)
      ((CLAMP (MEGABYTES E.VIAMD_FRAME_CACHE_SIZE) (MEGABYTES 4) (E.physical_ram / 4) /
        (mol.atom_count.toNat * 3 * 4) : Nat) : Int) := by
  unfold cache_frames at h
  have hc := CLAMP_le (MEGABYTES E.VIAMD_FRAME_CACHE_SIZE) (MEGABYTES 4) (E.physical_ram / 4)
  generalize CLAMP (MEGABYTES E.VIAMD_FRAME_CACHE_SIZE) (MEGABYTES 4) (E.physical_ram / 4) = c
    at h hc ⊢
  have hu1 : to_uint64 (E.num_frames t) = (E.num_frames t).toNat := by
    unfold to_uint64
    rw [Int.emod_eq_of_lt hframes.1 (by omega)]
  have hu2 : to_uint64 mol.atom_count = mol.atom_count.toNat := by
    unfold to_uint64
    rw [Int.emod_eq_of_lt hatoms (by omega)]
  have hsz : mol.atom_count.toNat * 3 * 4 % 2 ^ 64 = mol.atom_count.toNat * 3 * 4 := by
    apply Nat.mod_eq_of_lt
    omega
  have hcm : c % 2 ^ 64 = c := Nat.mod_eq_of_lt (by omega)
  simp only [hu1, hu2, hsz, hcm] at h
  by_cases hz : mol.atom_count.toNat * 3 * 4 = 0
  · simp [hz] at h
  · simp only [hz, if_false, Option.some.injEq] at h
    refine ⟨by omega, ?_⟩
    generalize c / (mol.atom_count.toNat * 3 * 4) = q at h ⊢
    have hmin : MIN (E.num_frames t).toNat q = min (E.num_frames t).toNat q := by
      unfold MIN
      split <;> omega
    rw [hmin] at h
    have hlt : min (E.num_frames t).toNat q < 2 ^ 63 := by omega
    unfold to_int64 at h
    rw [Nat.mod_eq_of_lt (by omega), if_pos hlt] at h
    rw [← h]
    omega

theorem copy_out_fits {α : Type} (out : Option (List α)) (src : List α) (num_atoms : Int)
    (h0 : 0 ≤ num_atoms) (hsrc : num_atoms.toNat ≤ src.length)
    (hdst : ∀ dst, out = some dst → num_atoms.toNat ≤ dst.length) :
    copy_out out src num_atoms =
      some (out.map (fun dst => src.take num_atoms.toNat ++ dst.drop num_atoms.toNat)) := by
  cases out with
  | none => rfl
  | some dst =>
    have := hdst dst rfl
    simp [copy_out, memcpy_floats, h0, hsrc, this]

/-! ## Lemmas on the recentering of a decoded frame -/

section recenter_lemmas

set_option linter.unusedSectionVars false

variable {α C : Type} [Field α]

theorem getD_translated (xs : List α) (n : Nat) (d : α) (i : Nat) (hn : n ≤ xs.length)
    (hi : i < n) : ((xs.take n).map (fun v => v + d)).getD i 0 = xs.getD i 0 + d := by
  have h1 : i < xs.length := by omega
  have h2 : i < ((xs.take n).map (fun v => v + d)).length := by
    rw [List.length_map, List.length_take]
    omega
  rw [List.getD_eq_getElem _ _ h2, List.getD_eq_getElem _ _ h1]
  simp

theorem weighted_sum_translated (xs mass : List α) (n : Nat) (d : α) (indices : List Nat)
    (hn : n ≤ xs.length) (hi : ∀ i ∈ indices, i < n) :
    weighted_sum ((xs.take n).map (fun v => v + d)) mass indices =
      weighted_sum xs mass indices + d * total_mass mass indices := by
  unfold weighted_sum total_mass
  induction indices with
  | nil => simp
  | cons i rest ih =>
    simp only [List.map_cons, List.sum_cons]
    rw [ih (fun j hj => hi j (List.mem_cons_of_mem _ hj)),
      getD_translated xs n d i hn (hi i (List.mem_cons_self _ _))]
    ring

theorem center_translated (ws m g : α) (hm : m ≠ 0) : (ws + (g - ws / m) * m) / m = g := by
  field_simp

/-- What postprocess leaves of a decoded frame when the recenter target is
not empty and the structures are not made whole: every atom is moved by the
vector trans. -/
theorem postprocess_recenters (E : Library α C) (loaded_traj : LoadedTrajectory α C)
    (mol : md_molecule_t α) (frame_data : md_frame_data_t α)
    (hmol : loaded_traj.mol = some mol) (hmask : loaded_traj.recenter_target ≠ [])
    (hx : frame_data.header.num_atoms.toNat ≤ frame_data.x.length)
    (hy : frame_data.header.num_atoms.toNat ≤ frame_data.y.length)
    (hz : frame_data.header.num_atoms.toNat ≤ frame_data.z.length)
    (hdep : loaded_traj.deperiodize = false ∨ frame_data.header.unit_cell.flags = 0) :
    postprocess E loaded_traj frame_data = some
      { frame_data with
        x := (frame_data.x.take frame_data.header.num_atoms.toNat).map
            (fun v => v + (recenter_trans E mol loaded_traj.recenter_target frame_data).x) ++
          frame_data.x.drop frame_data.header.num_atoms.toNat
        y := (frame_data.y.take frame_data.header.num_atoms.toNat).map
            (fun v => v + (recenter_trans E mol loaded_traj.recenter_target frame_data).y) ++
          frame_data.y.drop frame_data.header.num_atoms.toNat
        z := (frame_data.z.take frame_data.header.num_atoms.toNat).map
            (fun v => v + (recenter_trans E mol loaded_traj.recenter_target frame_data).z) ++
          frame_data.z.drop frame_data.header.num_atoms.toNat } := by
  have hne : md_bitfield_empty loaded_traj.recenter_target = false := by
    unfold md_bitfield_empty
    cases h : loaded_traj.recenter_target with
    | nil => exact absurd h hmask
    | cons a l => rfl
  have hpop : md_bitfield_popcount loaded_traj.recenter_target > 0 := by
    unfold md_bitfield_popcount
    cases h : loaded_traj.recenter_target with
    | nil => exact absurd h hmask
    | cons a l => simp
  have hgate : (loaded_traj.deperiodize &&
      decide (frame_data.header.unit_cell.flags ≠ 0)) = false := by
    rcases hdep with h | h
    · rw [h]
      rfl
    · rw [h]
      simp
  unfold postprocess
  simp only [hne, hpop, hmol, hgate, Bool.not_false, Bool.true_and, decide_True, if_true,
    Option.some_bind, Bool.false_eq_true, if_false]
  have htrans : (if decide (frame_data.header.unit_cell.flags ≠ 0) = true then
        ((mat3_mul_vec3 frame_data.header.unit_cell.basis (vec3_set1 1)).scale (1 / 2)).sub
          (if decide (frame_data.header.unit_cell.flags ≠ 0) = true then
            E.vec3_deperiodize
              (E.compute_com_ortho frame_data.x frame_data.y frame_data.z mol.atom_mass
                loaded_traj.recenter_target
                (mat3_mul_vec3 frame_data.header.unit_cell.basis (vec3_set1 1)))
              ((mat3_mul_vec3 frame_data.header.unit_cell.basis (vec3_set1 1)).scale (1 / 2))
              (mat3_mul_vec3 frame_data.header.unit_cell.basis (vec3_set1 1))
          else E.compute_com frame_data.x frame_data.y frame_data.z mol.atom_mass
            loaded_traj.recenter_target)
      else (if decide (frame_data.header.unit_cell.flags ≠ 0) = true then
            E.vec3_deperiodize
              (E.compute_com_ortho frame_data.x frame_data.y frame_data.z mol.atom_mass
                loaded_traj.recenter_target
                (mat3_mul_vec3 frame_data.header.unit_cell.basis (vec3_set1 1)))
              ((mat3_mul_vec3 frame_data.header.unit_cell.basis (vec3_set1 1)).scale (1 / 2))
              (mat3_mul_vec3 frame_data.header.unit_cell.basis (vec3_set1 1))
          else E.compute_com frame_data.x frame_data.y frame_data.z mol.atom_mass
            loaded_traj.recenter_target).neg) =
      recenter_trans E mol loaded_traj.recenter_target frame_data := by
    unfold recenter_trans recenter_com box_ext
    simp only [decide_eq_true_eq]
  rw [htrans]
  unfold vec3_batch_translate_inplace translate_inplace
  simp only [hx, hy, hz, if_true, Option.some_bind, Option.map_some']

end recenter_lemmas

end load

namespace molecule_utils

open stats (vec3 for_range Residue load for_range_total for_range_invariant)

/-! ## Lemmas on compute_chains -/

section lemmas

theorem consecutive_ranges_append (cs : List Chain) (c : Chain) (a b : Int) :
    consecutive_ranges (cs ++ [c]) a b ↔
      consecutive_ranges cs a c.beg_res_idx ∧ c.beg_res_idx < c.end_res_idx ∧
        c.end_res_idx = b := by
  induction cs generalizing a with
  | nil =>
    simp only [List.nil_append, consecutive_ranges]
    constructor
    · rintro ⟨h1, h2, h3⟩
      exact ⟨h1.symm, h2, h3⟩
    · rintro ⟨h1, h2, h3⟩
      exact ⟨h1.symm, h2, h3⟩
  | cons d cs ih =>
    show (d.beg_res_idx = a ∧ d.beg_res_idx < d.end_res_idx ∧
        consecutive_ranges (cs ++ [c]) d.end_res_idx b) ↔
      (d.beg_res_idx = a ∧ d.beg_res_idx < d.end_res_idx ∧
        consecutive_ranges cs d.end_res_idx c.beg_res_idx) ∧ _
    rw [ih]
    tauto

theorem load_eq_getElem {β : Type} (xs : List β) (i : Int) (h0 : 0 ≤ i)
    (h1 : i.toNat < xs.length) : load xs i = some (xs.get ⟨i.toNat, h1⟩) := by
  unfold load
  rw [if_pos h0, List.getElem?_eq_getElem h1]
  rfl

theorem chains_assigned_set (n i : Nat) (rc : List Int) (k : Nat) (v : Int) (hv : 0 ≤ v)
    (h : chains_assigned n i rc) : chains_assigned n i (rc.set k v) := by
  refine ⟨by rw [List.length_set]; exact h.1, ?_⟩
  intro j w hj
  rw [List.getElem?_set] at hj
  split at hj
  · split at hj
    · simp only [Option.some.injEq] at hj
      subst hj
      exact ⟨by omega, fun _ => hv⟩
    · simp at hj
  · exact h.2 j w hj

theorem scan_residue_bonds_assigned (n i : Nat) (rbs : List Bond)
    (hrbs : ∀ b ∈ rbs, 0 ≤ b.idx_a ∧ b.idx_a < n ∧ 0 ≤ b.idx_b ∧ b.idx_b < n)
    (rc : List Int) (k : Nat) (h : chains_assigned n (i + 1) rc) :
    ∃ rc1 k1, scan_residue_bonds i rbs rc k = some (rc1, k1) ∧ chains_assigned n (i + 1) rc1 := by
  induction rbs generalizing rc k with
  | nil => exact ⟨rc, k, rfl, h⟩
  | cons b rest ih =>
    have hb := hrbs b (List.mem_cons_self _ _)
    have hrest : ∀ b ∈ rest, 0 ≤ b.idx_a ∧ b.idx_a < n ∧ 0 ≤ b.idx_b ∧ b.idx_b < n :=
      fun c hc => hrbs c (List.mem_cons_of_mem _ hc)
    unfold scan_residue_bonds
    by_cases hia : (i : Int) = b.idx_a
    · rw [if_pos hia]
      have hlen : b.idx_a.toNat < rc.length := by rw [h.1]; omega
      rw [load_eq_getElem rc b.idx_a hb.1 hlen, Option.some_bind]
      have hval : 0 ≤ rc.get ⟨b.idx_a.toNat, hlen⟩ := by
        have := h.2 b.idx_a.toNat (rc.get ⟨b.idx_a.toNat, hlen⟩)
          (by rw [List.getElem?_eq_getElem hlen]; rfl)
        exact this.2 (by omega)
      have hst : store rc b.idx_b (rc.get ⟨b.idx_a.toNat, hlen⟩) =
          some (rc.set b.idx_b.toNat (rc.get ⟨b.idx_a.toNat, hlen⟩)) := by
        unfold store
        rw [if_pos ⟨hb.2.2.1, by rw [h.1]; omega⟩]
      rw [hst, Option.some_bind]
      exact ih hrest _ _ (chains_assigned_set n (i + 1) rc _ _ hval h)
    · rw [if_neg hia]
      by_cases hlt : (i : Int) < b.idx_a
      · rw [if_pos hlt]
        exact ⟨rc, k, rfl, h⟩
      · rw [if_neg hlt]
        exact ih hrest _ _ h

theorem assign_residue_chains_nonneg (n : Nat) (rbs : List Bond)
    (hrbs : ∀ b ∈ rbs, 0 ≤ b.idx_a ∧ b.idx_a < n ∧ 0 ≤ b.idx_b ∧ b.idx_b < n) :
    ∃ r, assign_residue_chains n rbs = some r ∧ r.1.length = n ∧ ∀ v ∈ r.1, 0 ≤ v := by
  unfold assign_residue_chains
  obtain ⟨r, hr, hP⟩ := for_range_total
    (fun i (st : List Int × Int × Nat) =>
      (st.1[i]?).bind (fun chain =>
        let st1 : Option (List Int × Int) :=
          if chain = -1 then (store st.1 i st.2.1).map (fun rc => (rc, st.2.1 + 1))
          else some (st.1, st.2.1)
        st1.bind (fun st1 =>
          (scan_residue_bonds i (rbs.drop st.2.2) st1.1 st.2.2).map
            (fun r => (r.1, st1.2, r.2)))))
    (fun i st => chains_assigned n i st.1 ∧ 0 ≤ st.2.1) 0 n
    (List.replicate n (-1), 0, 0)
    (by
      rintro k ⟨rc, curr, idx⟩ hk ⟨hP, hcurr⟩
      simp only [Nat.zero_add]
      simp only at hP hcurr
      have hlen : k < rc.length := by rw [hP.1]; exact hk
      rw [List.getElem?_eq_getElem hlen, Option.some_bind]
      have hdrop : ∀ b ∈ rbs.drop idx,
          0 ≤ b.idx_a ∧ b.idx_a < n ∧ 0 ≤ b.idx_b ∧ b.idx_b < n :=
        fun b hb => hrbs b (List.mem_of_mem_drop hb)
      by_cases hc : rc[k] = -1
      · simp only [hc, if_true]
        have hst : store rc (k : Int) curr = some (rc.set k curr) := by
          unfold store
          rw [if_pos ⟨by omega, by simpa using hlen⟩]
          simp
        rw [hst]
        simp only [Option.map_some', Option.some_bind]
        have hP1 : chains_assigned n (k + 1) (rc.set k curr) := by
          refine ⟨by rw [List.length_set]; exact hP.1, ?_⟩
          intro j w hj
          by_cases hkj : k = j
          · subst hkj
            rw [List.getElem?_set_self hlen] at hj
            simp only [Option.some.injEq] at hj
            subst hj
            exact ⟨by omega, fun _ => hcurr⟩
          · rw [List.getElem?_set_ne hkj] at hj
            have := hP.2 j w hj
            exact ⟨this.1, fun hjk => this.2 (by omega)⟩
        obtain ⟨rc1, k1, hs, hP2⟩ := scan_residue_bonds_assigned n k _ hdrop _ idx hP1
        refine ⟨(rc1, curr + 1, k1), by rw [hs]; rfl, hP2, by simp only; omega⟩
      · simp only [hc, if_false, Option.some_bind]
        have hP1 : chains_assigned n (k + 1) rc := by
          refine ⟨hP.1, ?_⟩
          intro j w hj
          have := hP.2 j w hj
          refine ⟨this.1, fun hjk => ?_⟩
          by_cases hjk2 : j < k
          · exact this.2 hjk2
          · have hjeq : j = k := by omega
            subst hjeq
            rw [List.getElem?_eq_getElem hlen] at hj
            simp only [Option.some.injEq] at hj
            subst hj
            omega
        obtain ⟨rc1, k1, hs, hP2⟩ := scan_residue_bonds_assigned n k _ hdrop _ idx hP1
        exact ⟨(rc1, curr, k1), by rw [hs]; rfl, hP2, hcurr⟩)
    (by
      refine ⟨⟨by simp, ?_⟩, le_refl _⟩
      intro j v hj
      rw [List.getElem?_replicate] at hj
      split at hj
      · simp only [Option.some.injEq] at hj
        subst hj
        exact ⟨le_refl _, fun h => absurd h (Nat.not_lt_zero _)⟩
      · simp at hj)
  refine ⟨r, hr, hP.1.1, ?_⟩
  intro v hv
  obtain ⟨j, hj⟩ := List.mem_iff_getElem?.mp hv
  have hjn : j < n := by
    rw [← hP.1.1]
    exact (List.getElem?_eq_some_iff.mp hj).1
  exact (hP.1.2 j v hj).2 hjn


theorem collect_residue_bonds_in_range (n : Nat) (bonds : List Bond) (l : List Int)
    (hbonds : ∀ b ∈ bonds,
      0 ≤ b.idx_a ∧ b.idx_a < l.length ∧ 0 ≤ b.idx_b ∧ b.idx_b < l.length)
    (hl : ∀ r ∈ l, 0 ≤ r ∧ r < n) :
    ∃ rbs, collect_residue_bonds bonds l = some rbs ∧
      ∀ b ∈ rbs, 0 ≤ b.idx_a ∧ b.idx_a < n ∧ 0 ≤ b.idx_b ∧ b.idx_b < n := by
  unfold collect_residue_bonds
  obtain ⟨rbs, hr, hP⟩ := for_range_total
    (fun k residue_bonds =>
      (bonds[k]?).bind (fun bond =>
      (load l bond.idx_a).bind (fun res_a =>
      (load l bond.idx_b).map (fun res_b =>
        if res_a ≠ res_b then residue_bonds ++ [(⟨res_a, res_b⟩ : Bond)] else residue_bonds))))
    (fun _ rbs => ∀ b ∈ rbs, 0 ≤ b.idx_a ∧ b.idx_a < n ∧ 0 ≤ b.idx_b ∧ b.idx_b < n)
    0 bonds.length []
    (by
      intro k rbs hk hP
      simp only [Nat.zero_add]
      rw [List.getElem?_eq_getElem hk, Option.some_bind]
      have hb := hbonds bonds[k] (List.getElem_mem _)
      have ha1 : (bonds[k].idx_a).toNat < l.length := by omega
      have hb1 : (bonds[k].idx_b).toNat < l.length := by omega
      rw [load_eq_getElem l _ hb.1 ha1, Option.some_bind,
        load_eq_getElem l _ hb.2.2.1 hb1, Option.map_some']
      refine ⟨_, rfl, ?_⟩
      have hra := hl _ (List.get_mem l _ ha1)
      have hrb := hl _ (List.get_mem l _ hb1)
      split
      · intro b hb
        rw [List.mem_append, List.mem_singleton] at hb
        rcases hb with hb | hb
        · exact hP b hb
        · subst hb
          exact ⟨hra.1, hra.2, hrb.1, hrb.2⟩
      · exact hP)
    (by intro b hb; simp at hb)
  exact ⟨rbs, hr, hP⟩

theorem collect_chains_partition (MAX_LENGTH : Nat) (rc : List Int) (hrc : ∀ v ∈ rc, 0 ≤ v) :
    ∃ chains, collect_chains MAX_LENGTH rc = some chains ∧
      consecutive_ranges chains 0 rc.length ∧ (rc = [] → chains = []) := by
  unfold collect_chains
  obtain ⟨st, hr, hP⟩ := for_range_total
    (fun i (st : List Chain × Int) =>
      (rc[i]?).bind (fun chain =>
        let st1 : List Chain × Int :=
          if chain ≠ st.2 then (st.1 ++ [⟨chain_label MAX_LENGTH chain, i, i⟩], chain) else st
        (st1.1.getLast?).map (fun back =>
          (st1.1.dropLast ++ [{ back with end_res_idx := back.end_res_idx + 1 }], st1.2))))
    (fun i st => consecutive_ranges st.1 0 i ∧
      ((i = 0 ∧ st.1 = [] ∧ st.2 = -1) ∨ (0 < i ∧ st.1 ≠ [])))
    0 rc.length ([], -1)
    (by
      rintro k ⟨chains, curr⟩ hk ⟨hcons, hcase⟩
      simp only [Nat.zero_add]
      simp only at hcons hcase
      rw [List.getElem?_eq_getElem hk, Option.some_bind]
      have hv : 0 ≤ rc[k] := hrc _ (List.getElem_mem _)
      by_cases hne : rc[k] ≠ curr
      · simp only [hne, if_true, ne_eq, not_false_eq_true, List.getLast?_concat,
          List.dropLast_concat, Option.map_some']
        refine ⟨_, rfl, ?_, Or.inr ⟨by omega, by simp⟩⟩
        rw [consecutive_ranges_append]
        exact ⟨hcons, by simp, by simp⟩
      · have hcne : chains ≠ [] := by
          rcases hcase with ⟨_, _, hc⟩ | ⟨_, hc⟩
          · exfalso
            apply hne
            rw [hc]
            omega
          · exact hc
        simp only [hne, if_false]
        obtain ⟨init, back, hib⟩ : ∃ init back, chains = init ++ [back] :=
          ⟨chains.dropLast, chains.getLast hcne, (List.dropLast_append_getLast hcne).symm⟩
        subst hib
        simp only [List.getLast?_concat, List.dropLast_concat, Option.map_some']
        refine ⟨_, rfl, ?_, Or.inr ⟨by omega, by simp⟩⟩
        rw [consecutive_ranges_append] at hcons ⊢
        refine ⟨hcons.1, ?_, ?_⟩
        · simp only
          omega
        · simp only [Nat.cast_add, Nat.cast_one]
          omega)
    ⟨rfl, Or.inl ⟨rfl, rfl, rfl⟩⟩
  refine ⟨st.1, by rw [hr]; rfl, hP.1, ?_⟩
  intro hnil
  rcases hP.2 with ⟨_, h, _⟩ | ⟨h, _⟩
  · exact h
  · rw [hnil] at h
    simp at h

end lemmas

end molecule_utils

namespace stats

/-! ## The claims -/

/-- C1: create_property on the initialized engine, name p1 and command string
dist g1 0 1, whose first token is a registered property command. It returns
a valid id, yet get_property(p1) is INVALID_ID afterwards, no index gives the
id and no property is listed: the property that was filled in is not pushed. -/
theorem create_property_not_listed :
    (find_id example_context.property_commands (COMPUTE_ID model_env "dist")).isSome = true ∧
    (create_property model_env example_context "p1" "dist g1 0 1").map (fun r =>
      (decide (r.1 = INVALID_ID), get_property model_env r.2 "p1", get_property_idx r.2 0,
        r.2.properties.length)) = some (false, INVALID_ID, INVALID_ID, 0) := by
  decide

/-- C2: the example engine with the group g1 of three instances and the
property p1, after compute_stats: four series of p1 are stored, the averaged
one and one per instance. After remove_property(p1) the property is no longer
listed, but two series with property_id p1 are still stored. -/
theorem remove_property_leaves_series :
    ((compute_stats model_env
        (example_engine (example_group "g1" "ALA") (example_property "dist" "g1 0 1"))
        example_dynamic).bind (fun r =>
      (remove_property model_env r.2 (COMPUTE_ID model_env "p1")).map (fun ctx1 =>
        ((r.2.property_data.filter
            (fun e => e.property_id = COMPUTE_ID model_env "p1")).length,
         get_property model_env ctx1 "p1",
         ctx1.properties.length,
         (ctx1.property_data.filter
            (fun e => e.property_id = COMPUTE_ID model_env "p1")).length)))) =
    some (4, INVALID_ID, 0, 2) := by
  decide

/-- C3, as stated, fails for a command of the type INTER: the example engine
with the group g1 of three stored instances and the listed property p1 whose
command pair is registered with the type INTER and whose first argument
token is g1. After compute_stats the property has data_count 0 and no
averaged series. -/
theorem compute_stats_inter_property_uncomputed :
    tokens model_env (example_property "pair" "g1 0 1").args = ["g1", "0", "1"] ∧
    get_group_instance_count
      (example_inter_engine (example_group "g1" "ALA") (example_property "pair" "g1 0 1"))
      (get_group model_env
        (example_inter_engine (example_group "g1" "ALA") (example_property "pair" "g1 0 1"))
        "g1") = 3 ∧
    (compute_stats model_env
        (example_inter_engine (example_group "g1" "ALA") (example_property "pair" "g1 0 1"))
        example_dynamic).map (fun r =>
      (decide (get_property model_env r.2 "p1" = COMPUTE_ID model_env "p1"),
       get_property_data_count r.2 (COMPUTE_ID model_env "p1"),
       get_property_data r.2 (COMPUTE_ID model_env "p1") 0,
       get_property_avg_data r.2 (COMPUTE_ID model_env "p1"))) =
    some (true, 0, some [], some []) := by
  decide

/-- C3, as amended: a listed property without data whose command has the type
INTRA and whose first argument token names a group with n >= 1 instances. For
a dynamic with a molecule and a trajectory and an engine state that satisfies
the conditions Safe and has unique property ids, provided the ids of the
averaged series and of the first series are valid and carried by one stored
series each after the run: compute_stats returns, and afterwards the property
has data_count n, get_property_data(id, i) is the series of instance i of the
group for each i below n, get_property_avg_data(id) is one further series, and
these n + 1 series have as many values as the trajectory has frames. -/
theorem compute_stats_intra_property_series {α : Type} [Ring α] [Div α] (E : Env α)
    (ctx : StatisticsContext α)
    (dynamic : MoleculeDynamic α) (mol : MoleculeStructure) (traj : Trajectory α)
    (prop : Property α) (ci : Nat) (prop_cmd : PropertyCommand α)
    (arg0 : CString) (rest : List CString) (gi : Nat) (group : Group)
    (hmol : dynamic.molecule = some mol) (htraj : dynamic.trajectory = some traj)
    (hsafe : Safe E ctx dynamic mol traj.num_frames)
    (hpids : (ctx.properties.map (fun p => p.id)).Nodup)
    (hprop : prop ∈ ctx.properties) (hbeg : prop.data_beg_id = INVALID_ID)
    (hcmd : find_id ctx.property_commands prop.cmd_id = some (ci, prop_cmd))
    (hintra : prop_cmd.type = PropertyType.INTRA)
    (hargs : tokens E prop.args = arg0 :: rest)
    (hname : get_group E ctx arg0 = group.id) (hvalid : group.id ≠ INVALID_ID)
    (hgroup : find_id ctx.groups group.id = some (gi, group))
    (hn : 0 < group.instance_count)
    (havg_id : COMPUTE_ID E (data_avg_name group.name prop.name) ≠ INVALID_ID)
    (hbeg_id : COMPUTE_ID E (data_name group.name prop.name 0) ≠ INVALID_ID)
    (honce : ∀ r, compute_stats E ctx dynamic = some r →
      series_id_count r.2 (COMPUTE_ID E (data_avg_name group.name prop.name)) ≤ 1 ∧
      series_id_count r.2 (COMPUTE_ID E (data_name group.name prop.name 0)) ≤ 1) :
    ∃ ctx1, compute_stats E ctx dynamic = some (true, ctx1) ∧
      get_property_data_count ctx1 prop.id = group.instance_count ∧
      (∀ i : Nat, i < group.instance_count → ∃ series,
        instance_series ctx dynamic traj.num_frames prop_cmd (tokens E prop.args) group.id i =
          some series ∧
        get_property_data ctx1 prop.id i = some series ∧
        series.length = traj.num_frames) ∧
      (∃ avg, get_property_avg_data ctx1 prop.id = some avg ∧
        avg.length = traj.num_frames) := by
  obtain ⟨r, hr⟩ := compute_stats_total E ctx dynamic mol traj hmol htraj hsafe
  obtain ⟨hb, p, hp, hr2⟩ := compute_stats_some E ctx dynamic mol traj hmol htraj r hr
  obtain ⟨hmapids, _, hat⟩ := compute_stats_properties_some _ _ _ _ _ _ hp
  obtain ⟨k, hk⟩ := List.mem_iff_getElem?.mp hprop
  obtain ⟨es1, rk, es2, hstep, hget, hpd⟩ := hat k prop hk
  have hgmem : group ∈ ctx.groups := find_id_mem _ _ gi group hgroup
  have hstored : group.instance_count ≤ (instances_of ctx group.id).length :=
    hsafe.instances group hgmem
  -- the context in which the loop body handles the property
  obtain ⟨c, hc, hstep⟩ : ∃ c : StatisticsContext α,
      c = { resolved_context E ctx mol with
            property_data := (resolved_context E ctx mol).property_data ++ es1 } ∧
      compute_stats_property E dynamic traj.num_frames prop c = some rk := ⟨_, rfl, hstep⟩
  have hcmd1 : find_id c.property_commands prop.cmd_id = some (ci, prop_cmd) := by
    rw [hc]; exact hcmd
  have hname1 : get_group E c arg0 = group.id := by
    rw [hc]; exact (get_group_resolved E ctx mol arg0).trans hname
  have hgroup1 : find_id c.groups (get_group E c arg0) = some (gi, group) := by
    rw [hname1, hc]
    show find_id (ctx.groups.map (fun g => (resolve_group E ctx.group_commands mol g).1))
      group.id = some (gi, group)
    rw [find_id_map (fun g => (resolve_group E ctx.group_commands mol g).1)
      (fun h => (resolve_group_shape E ctx.group_commands mol h).1), hgroup]
    have := (resolve_group_shape E ctx.group_commands mol group).2.2.2 (by omega)
    simp [this]
  have hseries_eq : ∀ i, i < group.instance_count →
      instance_series c dynamic traj.num_frames prop_cmd (arg0 :: rest) (get_group E c arg0) i =
      instance_series ctx dynamic traj.num_frames prop_cmd (tokens E prop.args) group.id i := by
    intro i hi
    rw [hname1, hargs, hc]
    exact instance_series_resolved E ctx mol dynamic traj.num_frames prop_cmd
      (arg0 :: rest) group.id i (by omega)
  obtain ⟨avg, es, havglen, heslen, hctx, hid, havgid, hcounted, _, hseries⟩ :=
    compute_stats_property_bound E dynamic traj.num_frames prop c rk prop_cmd ci arg0 rest
      group gi hbeg hcmd1 hintra hargs (by rw [hname1]; exact hvalid) hgroup1 hstep
  obtain ⟨hbegid, hcount⟩ := hcounted hn
  -- the property and its series in the engine that is returned
  have hprops : r.2.properties = p.1 := by rw [hr2]
  have hdata : r.2.property_data =
      c.property_data ++
        (⟨COMPUTE_ID E (data_avg_name group.name prop.name), prop.id, INVALID_ID, avg⟩ :: es) ++
        es2 := by
    rw [hr2]
    show p.2.property_data = _
    rw [hpd, hctx]
  have hfindp : find_id r.2.properties prop.id = some (k, rk.1) := by
    rw [hprops, ← hid]
    apply find_id_of_count p.1 k rk.1 hget
    have hnd : (p.1.map HasID.id).Nodup := by
      have : p.1.map HasID.id = p.1.map (fun q => q.id) := rfl
      rw [this, hmapids]
      exact hpids
    exact List.nodup_iff_count_le_one.mp hnd _
  obtain ⟨honce_avg, honce_beg⟩ := honce r hr
  have hfind_avg : find_id r.2.property_data
      (COMPUTE_ID E (data_avg_name group.name prop.name)) =
      some (c.property_data.length,
        ⟨COMPUTE_ID E (data_avg_name group.name prop.name), prop.id, INVALID_ID, avg⟩) := by
    apply find_id_of_count r.2.property_data _
      (⟨COMPUTE_ID E (data_avg_name group.name prop.name), prop.id, INVALID_ID, avg⟩ :
        PropertyData α)
    · rw [hdata, List.append_assoc, List.getElem?_append_right (Nat.le_refl _)]
      simp
    · exact honce_avg
  obtain ⟨s0, _, _, hes0⟩ := hseries 0 (by omega)
  have hfind_beg : find_id r.2.property_data
      (COMPUTE_ID E (data_name group.name prop.name 0)) =
      some (c.property_data.length + 1,
        ⟨COMPUTE_ID E (data_name group.name prop.name 0), prop.id,
          get_group_instance c (get_group E c arg0) 0, s0⟩) := by
    apply find_id_of_count r.2.property_data _
      (⟨COMPUTE_ID E (data_name group.name prop.name 0), prop.id, _, s0⟩ : PropertyData α)
    · rw [hdata]
      rw [List.append_assoc, List.getElem?_append_right (by omega)]
      simp only [Nat.add_sub_cancel_left, List.cons_append, List.getElem?_cons_succ]
      rw [List.getElem?_append_left (by omega)]
      exact hes0
    · exact honce_beg
  refine ⟨r.2, by rw [hr, ← hb], ?_, ?_, ?_⟩
  · unfold get_property_data_count
    rw [hfindp]
    exact hcount
  · intro i hi
    obtain ⟨series, hs1, hs2, hs3⟩ := hseries i hi
    refine ⟨series, ?_, ?_, hs2⟩
    · rw [← hseries_eq i hi]
      exact hs1
    · unfold get_property_data
      rw [hfindp]
      simp only [hbegid, ne_eq, hbeg_id, not_false_eq_true, hcount, Nat.cast_lt, hi, and_self,
        if_true, hfind_beg, Option.some_bind]
      unfold load
      have hnonneg : (0 : Int) ≤ ((c.property_data.length + 1 : Nat) : Int) + (i : Int) := by
        omega
      rw [if_pos hnonneg]
      have hidx : (((c.property_data.length + 1 : Nat) : Int) + (i : Int)).toNat =
          c.property_data.length + (i + 1) := by
        omega
      rw [hidx, hdata, List.append_assoc, List.getElem?_append_right (by omega)]
      simp only [Nat.add_sub_cancel_left, List.cons_append, List.getElem?_cons_succ]
      rw [List.getElem?_append_left (by omega), hs3]
      rfl
  · refine ⟨avg, ?_, havglen⟩
    unfold get_property_avg_data
    rw [hfindp]
    simp only [havgid, ne_eq, havg_id, not_false_eq_true, if_true, hfind_avg, Option.map_some']

/-- Witness of C3 as amended: the example engine with the group named 0 of
three stored instances and the property p1 with the command dist and the
arguments 0 1. -/
theorem compute_stats_intra_property_series_witness :
    ∃ ctx1, compute_stats model_env
        (example_resolved_engine (example_group "0" "ALA") (example_property "dist" "0 1"))
        example_dynamic = some (true, ctx1) ∧
      get_property_data_count ctx1 (COMPUTE_ID model_env "p1") = 3 ∧
      get_property_data ctx1 (COMPUTE_ID model_env "p1") 2 = some [1, 1] ∧
      (∃ avg, get_property_avg_data ctx1 (COMPUTE_ID model_env "p1") = some avg ∧
        avg.length = 2) := by
  have hall : (compute_stats model_env
      (example_resolved_engine (example_group "0" "ALA") (example_property "dist" "0 1"))
      example_dynamic).all (fun r =>
        decide (series_id_count r.2 (COMPUTE_ID model_env (data_avg_name "0" "p1")) ≤ 1 ∧
          series_id_count r.2 (COMPUTE_ID model_env (data_name "0" "p1" 0)) ≤ 1)) = true := by
    decide
  obtain ⟨ctx1, h1, h2, h3, h4⟩ := compute_stats_intra_property_series model_env
    (example_resolved_engine (example_group "0" "ALA") (example_property "dist" "0 1"))
    example_dynamic example_molecule example_trajectory (example_property "dist" "0 1") 0
    ⟨COMPUTE_ID model_env "dist", compute_atomic_distance model_env, (0, model_env.FLT_MAX),
      PropertyType.INTRA, false, "å"⟩ "0" ["1"] 0
    (resolve_group model_env example_context.group_commands example_molecule
      (example_group "0" "ALA")).1
    rfl rfl ⟨by decide, by decide, by decide, by decide⟩ (by decide) (by decide) (by decide)
    rfl rfl (by decide) (by decide) (by decide) (by decide) (by decide) (by decide) (by decide)
    (fun r hr => by rw [hr] at hall; simpa using hall)
  obtain ⟨series, hs, hd, _⟩ := h3 2 (by decide)
  have hval : instance_series
      (example_resolved_engine (example_group "0" "ALA") (example_property "dist" "0 1"))
      example_dynamic example_trajectory.num_frames
      ⟨COMPUTE_ID model_env "dist", compute_atomic_distance model_env, (0, model_env.FLT_MAX),
        PropertyType.INTRA, false, "å"⟩
      (tokens model_env (example_property "dist" "0 1").args)
      (resolve_group model_env example_context.group_commands example_molecule
        (example_group "0" "ALA")).1.id 2 = some [1, 1] := by decide
  rw [hval] at hs
  simp only [Option.some.injEq] at hs
  subst hs
  exact ⟨ctx1, h1, h2, hd, h4⟩

/-- C4: the example engine with the resolved group g1 and the property p1
with the command dist and the arguments g1 0 1. The compute function is
handed three tokens, returns false for every instance and leaves the buffer
as it was; compute_stats nevertheless sets data_beg_id, counts three series
and stores four entries for the property. -/
theorem compute_stats_ignores_failure :
    (∀ s ∈ [(⟨0, 5⟩ : Structure), ⟨5, 9⟩, ⟨9, 14⟩],
      compute_atomic_distance model_env [0, 0] (tokens model_env "g1 0 1") example_dynamic s =
        some (false, [0, 0])) ∧
    (compute_stats model_env
        (example_resolved_engine (example_group "g1" "ALA") (example_property "dist" "g1 0 1"))
        example_dynamic).map (fun r =>
      (r.2.properties.map (fun p => (decide (p.data_beg_id = INVALID_ID), p.data_count)),
       r.2.property_data.map (fun e => decide (e.property_id = COMPUTE_ID model_env "p1")))) =
    some ([(false, 3)], [true, true, true, true]) := by
  decide

/-- C5: the example engine with the group g1 bound to a residue name that
matches nothing and the property p1 bound to g1. The first compute_stats
leaves one stored series, the second one, run right after it on the same
dynamic, leaves two. -/
theorem compute_stats_twice_adds_series :
    (compute_stats model_env
        (example_engine (example_group "g1" "XYZ") (example_property "dist" "g1 0 1"))
        example_dynamic).bind (fun r1 =>
      (compute_stats model_env r1.2 example_dynamic).map (fun r2 =>
        (r1.2.property_data.length, r2.2.property_data.length))) = some (1, 2) := by
  decide

/-- C6: the example engine with the group g1 bound to a residue name that
matches nothing (instance_count stays 0) and the property p1 bound to g1.
After compute_stats the property has a valid data_avg_id and one series is
stored for it. -/
theorem compute_stats_unresolved_group_adds_avg :
    (compute_stats model_env
        (example_engine (example_group "g1" "XYZ") (example_property "dist" "g1 0 1"))
        example_dynamic).map (fun r =>
      (get_group_instance_count r.2 (COMPUTE_ID model_env "g1"),
       r.2.properties.map (fun p =>
         (decide (p.data_avg_id = INVALID_ID), decide (p.data_beg_id = INVALID_ID))),
       r.2.property_data.map (fun e =>
         (decide (e.property_id = COMPUTE_ID model_env "p1"), e.data)))) =
    some (0, [(false, true)], [(true, [0, 0])]) := by
  decide

/-- C7: compute_atomic_dihedral on the structure 0-5 with the tokens 0 1 2 3.
In each frame it writes the dihedral angle of the atoms 0, 1, 2 and 2: the
fourth point is the atom of the third token, not atom 3. -/
theorem compute_atomic_dihedral_fourth_point :
    compute_atomic_dihedral model_env [0, 0] ["0", "1", "2", "3"] example_dynamic ⟨0, 5⟩ =
      some (true,
        [model_env.dihedral_angle ⟨0, 0, 0⟩ ⟨1, 0, 0⟩ ⟨2, 0, 0⟩ ⟨2, 0, 0⟩,
         model_env.dihedral_angle ⟨20, 0, 0⟩ ⟨21, 0, 0⟩ ⟨22, 0, 0⟩ ⟨22, 0, 0⟩]) ∧
    atom_position example_trajectory 0 3 = some ⟨3, 0, 0⟩ ∧
    model_env.dihedral_angle ⟨0, 0, 0⟩ ⟨1, 0, 0⟩ ⟨2, 0, 0⟩ ⟨2, 0, 0⟩ ≠
      model_env.dihedral_angle ⟨0, 0, 0⟩ ⟨1, 0, 0⟩ ⟨2, 0, 0⟩ ⟨3, 0, 0⟩ := by
  decide

/-- C8: compute_atomic_dihedral on the structure 0-5 with the tokens 0 1 2 x,
the last of which is not an integer. It returns true and overwrites both
elements of the buffer. -/
theorem compute_atomic_dihedral_accepts_non_integer :
    model_env.to_int32 "x" = none ∧
    compute_atomic_dihedral model_env [0, 0] ["0", "1", "2", "x"] example_dynamic ⟨0, 5⟩ =
      some (true, [2210, 24430]) := by
  decide

/-- C9: compute_stats resolves an unresolved group. For a dynamic with a
molecule and a trajectory, an engine state that satisfies the conditions Safe
and has unique group ids, and a group with instance_count 0 under whose id no
instance is stored: compute_stats returns, and afterwards
get_group_instance_count is the number k of structures that the extract
function of the group returns; the stored instances of the group are k
instances that carry, in order, these structures; get_group_instance(group, i)
is the id of instance i for i below k and INVALID_ID from k on; and with no
match the group record is unchanged. -/
theorem compute_stats_resolves_group {α : Type} [Ring α] [Div α] (E : Env α)
    (ctx : StatisticsContext α)
    (dynamic : MoleculeDynamic α) (mol : MoleculeStructure) (traj : Trajectory α)
    (g : Group) (ci : Nat) (gc : GroupCommand)
    (hmol : dynamic.molecule = some mol) (htraj : dynamic.trajectory = some traj)
    (hsafe : Safe E ctx dynamic mol traj.num_frames)
    (hids : (ctx.groups.map (fun g => g.id)).Nodup)
    (hg : g ∈ ctx.groups) (hun : g.instance_count = 0)
    (hnone : instances_of ctx g.id = [])
    (hgc : find_id ctx.group_commands g.cmd_id = some (ci, gc)) :
    ∃ ctx1, compute_stats E ctx dynamic = some (true, ctx1) ∧
      get_group_instance_count ctx1 g.id = (gc.func (tokens E g.args) mol).length ∧
      (instances_of ctx1 g.id).map (fun inst => inst.structure_) =
        gc.func (tokens E g.args) mol ∧
      (∀ i : Nat, i < (gc.func (tokens E g.args) mol).length →
        ∃ inst, (instances_of ctx1 g.id)[i]? = some inst ∧
          get_group_instance ctx1 g.id i = inst.id ∧ inst.group_id = g.id ∧
          (gc.func (tokens E g.args) mol)[i]? = some inst.structure_) ∧
      (∀ i : Nat, (gc.func (tokens E g.args) mol).length ≤ i →
        get_group_instance ctx1 g.id i = INVALID_ID) ∧
      (gc.func (tokens E g.args) mol = [] → g ∈ ctx1.groups ∧ instances_of ctx1 g.id = []) := by
  obtain ⟨r, hr⟩ := compute_stats_total E ctx dynamic mol traj hmol htraj hsafe
  obtain ⟨hb, hgroups, hinsts⟩ := compute_stats_groups_after E ctx dynamic mol traj hmol htraj r hr
  obtain ⟨hid, _, hall, _⟩ := resolve_group_shape E ctx.group_commands mol g
  obtain ⟨hmap, hcount, hnil⟩ := resolve_group_unresolved E ctx.group_commands mol g ci gc hun hgc
  have hinstof : instances_of r.2 g.id = (resolve_group E ctx.group_commands mol g).2 := by
    unfold instances_of at hnone ⊢
    rw [hinsts]
    simp only [resolved_context, List.filter_append, hnone, List.nil_append]
    exact filter_flatMap_of_nodup _
      (fun h => (resolve_group_shape E ctx.group_commands mol h).2.2.1) ctx.groups g hids hg
  have hgmem : (resolve_group E ctx.group_commands mol g).1 ∈ r.2.groups := by
    rw [hgroups]
    exact List.mem_map.mpr ⟨g, hg, rfl⟩
  refine ⟨r.2, ?_, ?_, ?_, ?_, ?_, ?_⟩
  · rw [hr, ← hb]
  · unfold get_group_instance_count
    rw [hgroups]
    simp only [resolved_context]
    rw [find_id_map (fun g => (resolve_group E ctx.group_commands mol g).1)
      (fun h => (resolve_group_shape E ctx.group_commands mol h).1)]
    obtain ⟨k, hk⟩ := List.mem_iff_getElem?.mp hg
    have hcnt : (ctx.groups.map HasID.id).count (HasID.id g) ≤ 1 :=
      List.nodup_iff_count_le_one.mp hids _
    have hfind : find_id ctx.groups g.id = some (k, g) := find_id_of_count ctx.groups k g hk hcnt
    rw [hfind]
    exact hcount
  · rw [hinstof, hmap]
  · intro i hi
    have hlen : i < (resolve_group E ctx.group_commands mol g).2.length := by
      rw [← hmap, List.length_map] at hi
      exact hi
    refine ⟨(resolve_group E ctx.group_commands mol g).2[i], ?_, ?_, ?_, ?_⟩
    · rw [hinstof]
      exact List.getElem?_eq_getElem hlen
    · rw [get_group_instance_eq, hinstof, List.getElem?_eq_getElem hlen]
      rfl
    · exact hall _ (List.getElem_mem hlen)
    · have := congrArg (fun l => l[i]?) hmap
      simp only [List.getElem?_map, List.getElem?_eq_getElem hlen, Option.map_some'] at this
      exact this.symm
  · intro i hi
    rw [get_group_instance_eq, hinstof]
    have hlen : (resolve_group E ctx.group_commands mol g).2.length ≤ i := by
      rw [← hmap, List.length_map] at hi
      exact hi
    rw [List.getElem?_eq_none hlen]
    rfl
  · intro hempty
    rw [hnil hempty] at hgmem
    refine ⟨hgmem, ?_⟩
    rw [hinstof]
    have := congrArg List.length hmap
    rw [hempty, List.length_map, List.length_nil] at this
    exact List.length_eq_zero.mp this

/-- Witness of C9: the example engine with the unresolved group g1 bound to
the residue name ALA, which three residues of the example molecule carry. -/
theorem compute_stats_resolves_group_witness :
    ∃ ctx1, compute_stats model_env
        (example_engine (example_group "g1" "ALA") (example_property "dist" "g1 0 1"))
        example_dynamic = some (true, ctx1) ∧
      get_group_instance_count ctx1 (COMPUTE_ID model_env "g1") = 3 ∧
      (instances_of ctx1 (COMPUTE_ID model_env "g1")).map (fun inst => inst.structure_) =
        [⟨0, 5⟩, ⟨5, 9⟩, ⟨9, 14⟩] ∧
      get_group_instance ctx1 (COMPUTE_ID model_env "g1") 3 = INVALID_ID := by
  obtain ⟨ctx1, h1, h2, h3, _, h5, _⟩ := compute_stats_resolves_group model_env
    (example_engine (example_group "g1" "ALA") (example_property "dist" "g1 0 1"))
    example_dynamic example_molecule example_trajectory (example_group "g1" "ALA") 0
    ⟨COMPUTE_ID model_env "resname", match_by_resname model_env⟩
    rfl rfl ⟨by decide, by decide, by decide, by decide⟩ (by decide) (by decide) (by decide)
    (by decide) rfl
  exact ⟨ctx1, h1, h2, h3, h5 3 (by decide)⟩

/-- C10, as stated, fails when an argument is repeated: with the arguments
ALA ALA the matcher returns two structures for each of the three residues
named ALA, six results for three matching residues. -/
theorem match_by_resname_repeated_argument :
    match_by_resname model_env ["ALA", "ALA"] example_molecule =
      [⟨0, 5⟩, ⟨0, 5⟩, ⟨5, 9⟩, ⟨5, 9⟩, ⟨9, 14⟩, ⟨9, 14⟩] ∧
    (example_molecule.residues.filter (fun res =>
      ["ALA", "ALA"].any (fun arg => model_env.compare res.name arg))).length = 3 := by
  decide

/-- C10, as amended: when no residue name compares equal to more than one of
the arguments, match_by_resname returns one structure for each residue whose
name compares equal to an argument, in residue order, the structure being the
atom range of the residue; the other residues contribute nothing. -/
theorem match_by_resname_matching_residues {α : Type} (E : Env α) (args : List CString)
    (mol : MoleculeStructure)
    (hone : ∀ res ∈ mol.residues,
      (args.filter (fun arg => E.compare res.name arg)).length ≤ 1) :
    match_by_resname E args mol =
    (mol.residues.filter (fun res => args.any (fun arg => E.compare res.name arg))).map
      (fun res => (⟨res.beg_atom_idx, res.end_atom_idx⟩ : Structure)) := by
  rw [match_by_resname_eq]
  obtain ⟨residues⟩ := mol
  simp only at hone ⊢
  induction residues with
  | nil => rfl
  | cons res rs ih =>
    have h1 := hone res (List.mem_cons_self _ _)
    rw [List.flatMap_cons, ih (fun r hr => hone r (List.mem_cons_of_mem _ hr)), List.filter_cons]
    cases hf : args.filter (fun arg => E.compare res.name arg) with
    | nil =>
      have hany : args.any (fun arg => E.compare res.name arg) = false := by
        rw [List.any_eq_false]
        intro x hx hcmp
        have : x ∈ args.filter (fun arg => E.compare res.name arg) :=
          List.mem_filter.mpr ⟨hx, hcmp⟩
        rw [hf] at this
        simp at this
      simp [hany]
    | cons a rest =>
      have hrest : rest = [] := by
        rw [hf] at h1
        simp only [List.length_cons] at h1
        exact List.length_eq_zero.mp (by omega)
      have hmem : a ∈ args.filter (fun arg => E.compare res.name arg) := by
        rw [hf]; exact List.mem_cons_self _ _
      have hany : args.any (fun arg => E.compare res.name arg) = true := by
        rw [List.any_eq_true]
        exact ⟨a, (List.mem_filter.mp hmem).1, (List.mem_filter.mp hmem).2⟩
      simp [hany, hrest]

/-- Witness of C10 as amended: the argument ALA and the example molecule. -/
theorem match_by_resname_matching_residues_witness :
    match_by_resname model_env ["ALA"] example_molecule = [⟨0, 5⟩, ⟨5, 9⟩, ⟨9, 14⟩] :=
  match_by_resname_matching_residues model_env ["ALA"] example_molecule (by decide)

/-- C11: a listed property without data whose command has the type INTRA and
whose first argument token names a group that has n >= 1 instances once
compute_stats has resolved the groups, over a field, where the arithmetic is
exact, and under the other conditions of C3 as amended. compute_stats
returns, and afterwards, with data i the series that
get_property_data(id, i) returns for i below n, the series avg that
get_property_avg_data(id) returns satisfies
avg[j] = (data 0 [j] + ... + data (n - 1) [j]) / n for every frame j. -/
theorem compute_stats_avg_is_mean {α : Type} [Field α] (E : Env α)
    (ctx : StatisticsContext α)
    (dynamic : MoleculeDynamic α) (mol : MoleculeStructure) (traj : Trajectory α)
    (prop : Property α) (ci : Nat) (prop_cmd : PropertyCommand α)
    (arg0 : CString) (rest : List CString) (gi : Nat) (group : Group)
    (hmol : dynamic.molecule = some mol) (htraj : dynamic.trajectory = some traj)
    (hsafe : Safe E ctx dynamic mol traj.num_frames)
    (hpids : (ctx.properties.map (fun p => p.id)).Nodup)
    (hprop : prop ∈ ctx.properties) (hbeg : prop.data_beg_id = INVALID_ID)
    (hcmd : find_id ctx.property_commands prop.cmd_id = some (ci, prop_cmd))
    (hintra : prop_cmd.type = PropertyType.INTRA)
    (hargs : tokens E prop.args = arg0 :: rest)
    (hname : get_group E ctx arg0 = group.id) (hvalid : group.id ≠ INVALID_ID)
    (hgroup : find_id (resolved_context E ctx mol).groups group.id = some (gi, group))
    (hn : 0 < group.instance_count)
    (havg_id : COMPUTE_ID E (data_avg_name group.name prop.name) ≠ INVALID_ID)
    (hbeg_id : COMPUTE_ID E (data_name group.name prop.name 0) ≠ INVALID_ID)
    (honce : ∀ r, compute_stats E ctx dynamic = some r →
      series_id_count r.2 (COMPUTE_ID E (data_avg_name group.name prop.name)) ≤ 1 ∧
      series_id_count r.2 (COMPUTE_ID E (data_name group.name prop.name 0)) ≤ 1) :
    ∃ (ctx1 : StatisticsContext α) (avg : List α) (data : Nat → List α),
      compute_stats E ctx dynamic = some (true, ctx1) ∧
      get_property_avg_data ctx1 prop.id = some avg ∧
      (∀ i : Nat, i < group.instance_count →
        get_property_data ctx1 prop.id i = some (data i) ∧
        (data i).length = traj.num_frames) ∧
      ∀ j, j < traj.num_frames → avg[j]? = some
        ((Finset.sum (Finset.range group.instance_count) (fun i => (data i).getD j 0)) /
          (group.instance_count : α)) := by
  obtain ⟨ctx1, avg, es, hrun, havg, hdata, hval⟩ := compute_stats_series_layout E ctx dynamic
    mol traj prop ci prop_cmd arg0 rest gi group hmol htraj hsafe hpids hprop hbeg hcmd hintra
    hargs hname hvalid hgroup hn havg_id hbeg_id honce
  refine ⟨ctx1, avg, fun i => ((es[i]?).map (fun e => e.data)).getD [], hrun, havg, ?_, ?_⟩
  · intro i hi
    obtain ⟨e, he, hget, hlen⟩ := hdata i hi
    simp only [he, Option.map_some', Option.getD_some]
    exact ⟨hget, hlen⟩
  · intro j hj
    rw [hval j hj, Finset.sum_div]
    congr 1
    apply Finset.sum_congr rfl
    intro i hi
    obtain ⟨e, he, _, _⟩ := hdata i (by simpa using hi)
    simp only [entry_value, he, Option.map_some', Option.getD_some, Option.some_bind,
      List.getD_eq_getElem?_getD]

/-- Witness of C11: the engine over the rationals with the group named 0, which
compute_stats resolves to three instances, and the property p1 with the
command dist and the arguments 0 1, on a trajectory of two frames. -/
theorem compute_stats_avg_is_mean_witness :
    ∃ (ctx1 : StatisticsContext ℚ) (avg : List ℚ) (data : Nat → List ℚ),
      compute_stats model_env_rat example_rat_engine example_rat_dynamic = some (true, ctx1) ∧
      get_property_avg_data ctx1 (COMPUTE_ID model_env_rat "p1") = some avg ∧
      (∀ i : Nat, i < 3 →
        get_property_data ctx1 (COMPUTE_ID model_env_rat "p1") i = some (data i) ∧
        (data i).length = 2) ∧
      ∀ j, j < 2 → avg[j]? = some
        ((Finset.sum (Finset.range 3) (fun i => (data i).getD j 0)) / ((3 : Nat) : ℚ)) := by
  have hall : (compute_stats model_env_rat example_rat_engine example_rat_dynamic).all
      (fun r =>
        decide (series_id_count r.2 (COMPUTE_ID model_env_rat (data_avg_name "0" "p1")) ≤ 1 ∧
          series_id_count r.2 (COMPUTE_ID model_env_rat (data_name "0" "p1" 0)) ≤ 1)) = true := by
    decide
  exact compute_stats_avg_is_mean model_env_rat example_rat_engine example_rat_dynamic
    example_molecule ⟨2, [⟨(List.range 14).map (fun i => ⟨(i : ℚ) * i, 0, 0⟩)⟩,
      ⟨(List.range 14).map (fun i => ⟨2 * (i : ℚ), 0, 0⟩)⟩]⟩
    ⟨COMPUTE_ID model_env_rat "p1", INVALID_ID, INVALID_ID, 0, 0, 1,
      COMPUTE_ID model_env_rat "dist", "p1", "0 1"⟩ 0
    ⟨COMPUTE_ID model_env_rat "dist", compute_atomic_distance model_env_rat,
      (0, model_env_rat.FLT_MAX), PropertyType.INTRA, false, "å"⟩ "0" ["1"] 0
    (resolve_group model_env_rat
      (initialize_stats model_env_rat empty_context).group_commands example_molecule
      (example_group "0" "ALA")).1
    rfl rfl ⟨by decide, by decide, by decide, by decide⟩ (by decide)
    (List.mem_singleton.mpr rfl) rfl
    rfl rfl (by decide) (by decide) (by decide) (by decide) (by decide) (by decide) (by decide)
    (fun r hr => by rw [hr] at hall; simpa using hall)

/-- C12: registering a command. When the hash of the keyword is already
registered, register_property_command and register_group_command return the
engine as it was, so the number of commands and the entry of the keyword stay.
When it is not registered, the registry of the kind grows at its end by one
entry, which carries the hash and the arguments of the call, and the registry
of the other kind stays. -/
theorem register_command_registry {α : Type} [Ring α] [Div α] (E : Env α)
    (ctx : StatisticsContext α) (command : CString)
    (compute_function : PropertyComputeFunc α) (val_range : α × α) (type : PropertyType)
    (periodic : Bool) (unit : CString) (func : StructureExtractFunc) :
    ((find_id ctx.property_commands (COMPUTE_ID E command)).isSome = true →
      register_property_command E ctx command compute_function val_range type periodic unit =
        ctx) ∧
    ((find_id ctx.property_commands (COMPUTE_ID E command)).isSome = false →
      (register_property_command E ctx command compute_function val_range type periodic
        unit).property_commands =
        ctx.property_commands ++
          [⟨COMPUTE_ID E command, compute_function, val_range, type, periodic, unit⟩] ∧
      (register_property_command E ctx command compute_function val_range type periodic
        unit).group_commands = ctx.group_commands) ∧
    ((find_id ctx.group_commands (COMPUTE_ID E command)).isSome = true →
      register_group_command E ctx command func = ctx) ∧
    ((find_id ctx.group_commands (COMPUTE_ID E command)).isSome = false →
      (register_group_command E ctx command func).group_commands =
        ctx.group_commands ++ [⟨COMPUTE_ID E command, func⟩] ∧
      (register_group_command E ctx command func).property_commands =
        ctx.property_commands) := by
  refine ⟨?_, ?_, ?_, ?_⟩
  · intro h
    unfold register_property_command
    cases hf : find_id ctx.property_commands (COMPUTE_ID E command) with
    | none => simp [hf] at h
    | some c => simp [hf]
  · intro h
    unfold register_property_command
    cases hf : find_id ctx.property_commands (COMPUTE_ID E command) with
    | none =>
      simp only [hf]
      exact ⟨rfl, rfl⟩
    | some c => simp [hf] at h
  · intro h
    unfold register_group_command
    cases hf : find_id ctx.group_commands (COMPUTE_ID E command) with
    | none => simp [hf] at h
    | some c => simp [hf]
  · intro h
    unfold register_group_command
    cases hf : find_id ctx.group_commands (COMPUTE_ID E command) with
    | none =>
      simp only [hf]
      exact ⟨trivial, trivial⟩
    | some c => simp [hf] at h


/-- Witness of C12: on the initialized engine the keywords dist and resname are
registered, the keywords pair and chain are not. -/
theorem register_command_registry_witness :
    (register_property_command model_env example_context "dist" example_compute (0, 1)
        PropertyType.INTER true "nm" = example_context) ∧
    ((register_property_command model_env example_context "pair" example_compute (0, 1)
        PropertyType.INTER true "nm").property_commands =
      example_context.property_commands ++
        [⟨COMPUTE_ID model_env "pair", example_compute, (0, 1), PropertyType.INTER, true, "nm"⟩]) ∧
    (register_group_command model_env example_context "resname" (match_by_resname model_env) =
      example_context) ∧
    ((register_group_command model_env example_context "chain"
        (match_by_resname model_env)).group_commands =
      example_context.group_commands ++ [⟨COMPUTE_ID model_env "chain", (match_by_resname model_env)⟩]) :=
  ⟨(register_command_registry model_env example_context "dist" example_compute (0, 1)
      PropertyType.INTER true "nm" (match_by_resname model_env)).1 (by decide),
   ((register_command_registry model_env example_context "pair" example_compute (0, 1)
      PropertyType.INTER true "nm" (match_by_resname model_env)).2.1 (by decide)).1,
   (register_command_registry model_env example_context "resname" example_compute (0, 1)
      PropertyType.INTER true "nm" (match_by_resname model_env)).2.2.1 (by decide),
   ((register_command_registry model_env example_context "chain" example_compute (0, 1)
      PropertyType.INTER true "nm" (match_by_resname model_env)).2.2.2 (by decide)).1⟩

/-- C13: create_group for a name and a command string, in an engine where a
listed group carries the id of the name exactly when its name compares equal
to it, with a comparison that finds the name equal to itself and a tokenizer
that finds a token in a non-empty string. When a listed group has the name,
the command string is empty or its first token is not a registered group
command, create_group returns INVALID_ID and the engine as it was. Otherwise
it returns the id of a group that it appends to the groups, with the name,
instance_count 0 and no instance, leaves the instances, the properties and
the series as they were, and get_group(name) is the returned id afterwards. -/
theorem create_group_outcome {α : Type} [Ring α] [Div α] (E : Env α)
    (ctx : StatisticsContext α) (name cmd_and_args : CString)
    (hname : ∀ g ∈ ctx.groups, (E.compare name g.name = true ↔ g.id = COMPUTE_ID E name))
    (hrefl : E.compare name name = true)
    (htok : cmd_and_args.length ≠ 0 → E.ctokenize cmd_and_args ≠ []) :
    (((∃ g ∈ ctx.groups, E.compare name g.name = true) ∨ cmd_and_args.length = 0 ∨
        (∀ t0, (E.ctokenize cmd_and_args)[0]? = some t0 →
          (find_id ctx.group_commands
            (COMPUTE_ID E (substr cmd_and_args t0.beg t0.stop))).isSome = false)) →
      create_group E ctx name cmd_and_args = some (INVALID_ID, ctx)) ∧
    (¬ ((∃ g ∈ ctx.groups, E.compare name g.name = true) ∨ cmd_and_args.length = 0 ∨
        (∀ t0, (E.ctokenize cmd_and_args)[0]? = some t0 →
          (find_id ctx.group_commands
            (COMPUTE_ID E (substr cmd_and_args t0.beg t0.stop))).isSome = false)) →
      ∃ ctx1 g, create_group E ctx name cmd_and_args = some (g.id, ctx1) ∧
        ctx1.groups = ctx.groups ++ [g] ∧ g.id = COMPUTE_ID E name ∧ g.name = name ∧
        g.instance_count = 0 ∧ g.instance_beg_id = INVALID_ID ∧
        ctx1.group_instances = ctx.group_instances ∧ ctx1.properties = ctx.properties ∧
        ctx1.property_data = ctx.property_data ∧
        get_group E ctx1 name = g.id) := by
  have hfind : (∃ g ∈ ctx.groups, E.compare name g.name = true) ↔
      (find_id ctx.groups (COMPUTE_ID E name)).isSome = true := by
    constructor
    · rintro ⟨g, hg, hc⟩
      have hid := (hname g hg).mp hc
      rw [← hid]
      exact find_id_isSome_of_mem _ _ hg
    · intro h
      cases hf : find_id ctx.groups (COMPUTE_ID E name) with
      | none => simp [hf] at h
      | some r =>
        have hmem := find_id_mem _ _ r.1 r.2 hf
        have hid := (find_id_getElem _ _ r.1 r.2 hf).2
        exact ⟨r.2, hmem, (hname r.2 hmem).mpr hid⟩
  constructor
  · intro h
    unfold create_group
    dsimp only
    cases hf : find_id ctx.groups (COMPUTE_ID E name) with
    | some r => rfl
    | none =>
      dsimp only
      by_cases hlen : cmd_and_args.length = 0
      · rw [if_pos hlen]
      · rw [if_neg hlen]
        rcases h with h | h | h
        · rw [hfind, hf] at h
          simp at h
        · exact absurd h hlen
        · cases ht : (E.ctokenize cmd_and_args)[0]? with
          | none =>
            have := htok hlen
            cases hl : E.ctokenize cmd_and_args with
            | nil => exact absurd hl this
            | cons a l => simp [hl] at ht
          | some t0 =>
            rw [Option.some_bind]
            have hnone := h t0 ht
            cases hc : find_id ctx.group_commands
                (COMPUTE_ID E (substr cmd_and_args t0.beg t0.stop)) with
            | none => rfl
            | some c => simp [hc] at hnone
  · intro h
    simp only [not_or] at h
    obtain ⟨h1, hlen, h3⟩ := h
    rw [hfind] at h1
    have hf : find_id ctx.groups (COMPUTE_ID E name) = none := by
      cases hf : find_id ctx.groups (COMPUTE_ID E name) with
      | none => rfl
      | some r => simp [hf] at h1
    simp only [not_forall] at h3
    obtain ⟨t0, ht, hcmd⟩ := h3
    obtain ⟨c, hc⟩ : ∃ c, find_id ctx.group_commands
        (COMPUTE_ID E (substr cmd_and_args t0.beg t0.stop)) = some c := by
      cases hc : find_id ctx.group_commands (COMPUTE_ID E (substr cmd_and_args t0.beg t0.stop))
        with
      | none => simp [hc] at hcmd
      | some c => exact ⟨c, rfl⟩
    have hcg : create_group E ctx name cmd_and_args = some (COMPUTE_ID E name,
        { ctx with
          string_buffer := ctx.string_buffer ++ [name] ++
            [command_args cmd_and_args (E.ctokenize cmd_and_args)]
          groups := ctx.groups ++ [⟨COMPUTE_ID E name, INVALID_ID, 0,
            COMPUTE_ID E (substr cmd_and_args t0.beg t0.stop), name,
            command_args cmd_and_args (E.ctokenize cmd_and_args)⟩] }) := by
      unfold create_group
      simp only [hf, if_neg hlen, ht, Option.some_bind, hc]
      rfl
    refine ⟨_, ⟨COMPUTE_ID E name, INVALID_ID, 0,
      COMPUTE_ID E (substr cmd_and_args t0.beg t0.stop), name,
      command_args cmd_and_args (E.ctokenize cmd_and_args)⟩, hcg, rfl, rfl, rfl, rfl, rfl,
      rfl, rfl, rfl, ?_⟩
    · unfold get_group
      have hnone : ctx.groups.find? (fun g => E.compare name g.name) = none := by
        rw [List.find?_eq_none]
        intro g hg hcmp
        have := (hname g hg).mp hcmp
        have hs : (find_id ctx.groups g.id).isSome := find_id_isSome_of_mem ctx.groups g hg
        rw [this, hf] at hs
        simp at hs
      simp only [List.find?_append, hnone, Option.none_or, List.find?_cons, hrefl]


/-- Witness of C13: in the example engine with the group g0, the name g0 is
rejected and the name g1 with the command string resname ALA is accepted. -/
theorem create_group_outcome_witness :
    create_group model_env
      (example_engine (example_group "g0" "ALA") (example_property "dist" "g0 0 1"))
      "g0" "resname ALA" =
      some (INVALID_ID,
        example_engine (example_group "g0" "ALA") (example_property "dist" "g0 0 1")) ∧
    ∃ ctx1 g, create_group model_env
        (example_engine (example_group "g0" "ALA") (example_property "dist" "g0 0 1"))
        "g1" "resname ALA" = some (g.id, ctx1) ∧
      ctx1.groups = [example_group "g0" "ALA"] ++ [g] ∧ g.instance_count = 0 ∧
      get_group model_env ctx1 "g1" = g.id := by
  refine ⟨(create_group_outcome model_env
      (example_engine (example_group "g0" "ALA") (example_property "dist" "g0 0 1"))
      "g0" "resname ALA" (by decide) (by decide) (by decide)).1
      (Or.inl ⟨example_group "g0" "ALA", by decide, by decide⟩), ?_⟩
  obtain ⟨ctx1, g, h1, h2, _, _, h3, _, _, _, _, h4⟩ := (create_group_outcome model_env
      (example_engine (example_group "g0" "ALA") (example_property "dist" "g0 0 1"))
      "g1" "resname ALA" (by decide) (by decide) (by decide)).2 (by
        rintro (⟨g, hg, hc⟩ | h | h)
        · revert hc
          have : g = example_group "g0" "ALA" := by simpa [example_engine] using hg
          rw [this]
          decide
        · revert h
          decide
        · have := h ⟨0, 7⟩ (by decide)
          revert this
          decide)
  exact ⟨ctx1, g, h1, h2, h3, h4⟩

end stats

namespace load

/-- C14: open_file on a file for which the loader, the one passed or the one
of the extension, creates a decoder whose atom count differs from the atom
count of the molecule. It returns the null pointer, the only calls it makes
are the create of the loader and the destroy of the decoder just created, and
the arrays of loaded trajectories and molecules, their counters and the
structs handed out are as before. -/
theorem open_file_atom_count_mismatch {α C : Type} [Ring α] [Div α] (E : Library α C)
    (s : State α C) (filename : str_t) (loader : Option md_trajectory_loader_i)
    (mol : md_molecule_t α) (alloc : Nat) (deperiodize_on_load : Bool) (addr : Nat)
    (l : md_trajectory_loader_i) (internal_traj : Nat)
    (halloc : alloc ≠ 0)
    (hloader : loader = some l ∨
      (loader = none ∧ traj.get_loader_from_ext E (E.extract_ext filename) = some l))
    (hcreate : E.create l filename = some internal_traj)
    (hatoms : E.num_atoms internal_traj ≠ mol.atom_count) :
    ∃ s1, traj.open_file E s filename loader mol alloc deperiodize_on_load addr =
        some (none, s1) ∧
      s1.loaded_trajectories = s.loaded_trajectories ∧
      s1.num_loaded_trajectories = s.num_loaded_trajectories ∧
      s1.loaded_molecules = s.loaded_molecules ∧
      s1.num_loaded_molecules = s.num_loaded_molecules ∧
      s1.interfaces = s.interfaces ∧
      s1.calls = s.calls ++
        [Call.create l filename internal_traj, Call.destroy l (some internal_traj)] := by
  refine ⟨{ s with calls := s.calls ++
    [Call.create l filename internal_traj, Call.destroy l (some internal_traj)] }, ?_,
    rfl, rfl, rfl, rfl, rfl, rfl⟩
  unfold traj.open_file
  have h1 : ASSERT E (decide (alloc ≠ 0)) = some () := by simp [ASSERT, halloc]
  rw [h1, Option.some_bind]
  have hl : traj.resolve_loader E filename loader = some l := by
    rcases hloader with h | ⟨h, h2⟩
    · rw [h]
      rfl
    · rw [h]
      exact h2
  simp [hl, hcreate, hatoms]

/-- Witness of C14: the file a.pdb, whose decoder has three atoms, opened for a
molecule of four atoms. -/
theorem open_file_atom_count_mismatch_witness :
    ∃ s1, traj.open_file model_library (State.init : State Int model_cache) "a.pdb" none
        ⟨4, [1, 1, 1, 1], []⟩ 1 false 1000 = some (none, s1) ∧
      s1.loaded_trajectories = (State.init : State Int model_cache).loaded_trajectories ∧
      s1.num_loaded_trajectories = 0 ∧
      s1.calls = [Call.create .pdb "a.pdb" 105, Call.destroy .pdb (some 105)] := by
  obtain ⟨s1, h1, h2, h3, _, _, _, h4⟩ := open_file_atom_count_mismatch model_library
    (State.init : State Int model_cache) "a.pdb" none ⟨4, [1, 1, 1, 1], []⟩ 1 false 1000
    .pdb 105 (by decide) (Or.inr ⟨rfl, by decide⟩) (by decide) (by decide)
  exact ⟨s1, h1, h2, h3, h4⟩

/-- C15: with a string comparison that decides equality,
traj::get_loader_from_ext yields a loader exactly for the extensions pdb, xtc,
trr, xyz, xmol and arc, mol::get_loader_from_ext exactly for pdb, gro, xyz,
xmol, arc and cif, and open_file without a loader, on a file whose extension
has no trajectory loader, returns the null pointer and the state as it was. -/
theorem get_loader_from_ext_supported {α C : Type} [Ring α] [Div α] (E : Library α C)
    (hequal : ∀ a b, E.str_equal a b = true ↔ a = b) (ext : str_t) :
    ((traj.get_loader_from_ext E ext).isSome = true ↔
      ext ∈ ["pdb", "xtc", "trr", "xyz", "xmol", "arc"]) ∧
    ((mol.get_loader_from_ext E ext).isSome = true ↔
      ext ∈ ["pdb", "gro", "xyz", "xmol", "arc", "cif"]) ∧
    ∀ (s : State α C) (filename : str_t) (mol : md_molecule_t α) (alloc : Nat)
      (deperiodize_on_load : Bool) (addr : Nat), alloc ≠ 0 →
      (traj.get_loader_from_ext E (E.extract_ext filename)).isSome = false →
      traj.open_file E s filename none mol alloc deperiodize_on_load addr = some (none, s) := by
  have hb : ∀ a b, E.str_equal a b = decide (a = b) := by
    intro a b
    by_cases h : a = b
    · simp [h, (hequal b b).mpr rfl]
    · have : E.str_equal a b ≠ true := fun h1 => h ((hequal a b).mp h1)
      simp [h, this]
  refine ⟨?_, ?_, ?_⟩
  · unfold traj.get_loader_from_ext table
    simp only [List.find?_cons, hb, List.find?_nil]
    by_cases h1 : ext = "pdb"; · subst h1; decide
    by_cases h2 : ext = "gro"; · subst h2; decide
    by_cases h3 : ext = "xtc"; · subst h3; decide
    by_cases h4 : ext = "trr"; · subst h4; decide
    by_cases h5 : ext = "xyz"; · subst h5; decide
    by_cases h6 : ext = "xmol"; · subst h6; decide
    by_cases h7 : ext = "arc"; · subst h7; decide
    by_cases h8 : ext = "cif"; · subst h8; decide
    simp [h1, h2, h3, h4, h5, h6, h7, h8]
  · unfold mol.get_loader_from_ext table
    simp only [List.find?_cons, hb, List.find?_nil]
    by_cases h1 : ext = "pdb"; · subst h1; decide
    by_cases h2 : ext = "gro"; · subst h2; decide
    by_cases h3 : ext = "xtc"; · subst h3; decide
    by_cases h4 : ext = "trr"; · subst h4; decide
    by_cases h5 : ext = "xyz"; · subst h5; decide
    by_cases h6 : ext = "xmol"; · subst h6; decide
    by_cases h7 : ext = "arc"; · subst h7; decide
    by_cases h8 : ext = "cif"; · subst h8; decide
    simp [h1, h2, h3, h4, h5, h6, h7, h8]
  · intro s filename mol alloc dep addr halloc hnone
    unfold traj.open_file
    have h1 : ASSERT E (decide (alloc ≠ 0)) = some () := by simp [ASSERT, halloc]
    rw [h1, Option.some_bind]
    cases hl : traj.get_loader_from_ext E (E.extract_ext filename) with
    | none => simp [traj.resolve_loader, hl]
    | some l => simp [hl] at hnone

/-- Witness of C15: the extension gro has a molecule loader and no trajectory
loader, and open_file on b.gro returns the null pointer. -/
theorem get_loader_from_ext_supported_witness :
    (traj.get_loader_from_ext model_library "gro").isSome = false ∧
    (mol.get_loader_from_ext model_library "gro").isSome = true ∧
    traj.open_file model_library (State.init : State Int model_cache) "b.gro" none
      example_md_molecule 1 false 1000 = some (none, State.init) := by
  have h := get_loader_from_ext_supported model_library (by simp [model_library])
  refine ⟨?_, (h "gro").2.1.mpr (by decide), (h "gro").2.2 _ _ _ _ _ _ (by decide) (by decide)⟩
  cases hs : (traj.get_loader_from_ext model_library "gro").isSome with
  | false => rfl
  | true => exact absurd ((h "gro").1.mp hs) (by decide)

/-- C16: an open_file that returns a handle, for a molecule whose atom count
is not negative and whose frame size of 12 bytes per atom fits a uint64_t,
with decoders whose frame counts fit an int64_t and a physical memory size
that fits a uint64_t. The struct at the handle points to the entry of the
handle, and the frame cache of this entry was initialised for
min(frame count, CLAMP(budget, 4 MiB, ram / 4) / (atom_count * 3 * 4)) frames,
the division being the one of natural numbers; this number exceeds neither
the frame count nor the quotient. -/
theorem open_file_cache_capacity {α C : Type} [Ring α] [Div α] (E : Library α C)
    (s : State α C) (filename : str_t) (loader : Option md_trajectory_loader_i)
    (mol : md_molecule_t α) (alloc : Nat) (deperiodize_on_load : Bool) (addr : Nat)
    (handle : Nat) (s1 : State α C)
    (hatoms : 0 ≤ mol.atom_count) (hsize : mol.atom_count * 12 < 2 ^ 64)
    (hframes : ∀ t, 0 ≤ E.num_frames t ∧ E.num_frames t < 2 ^ 63)
    (hram : E.physical_ram < 2 ^ 64)
    (hopen : traj.open_file E s filename loader mol alloc deperiodize_on_load addr =
      some (some handle, s1)) :
    ∃ (l : md_trajectory_loader_i) (t i : Nat) (e : LoadedTrajectory α C),
      E.create l filename = some t ∧
      s1.interfaces.lookup handle = some ⟨some i, true, true, true, true⟩ ∧
      s1.loaded_trajectories[i]? = some e ∧ e.key = handle ∧ e.traj = some t ∧
      e.cache = some (E.frame_cache_init t
        (min (E.num_frames t)
          ((CLAMP (MEGABYTES E.VIAMD_FRAME_CACHE_SIZE) (MEGABYTES 4) (E.physical_ram / 4) /
            (mol.atom_count.toNat * 3 * 4) : Nat) : Int))) ∧
      min (E.num_frames t)
          ((CLAMP (MEGABYTES E.VIAMD_FRAME_CACHE_SIZE) (MEGABYTES 4) (E.physical_ram / 4) /
            (mol.atom_count.toNat * 3 * 4) : Nat) : Int) ≤ E.num_frames t ∧
      min (E.num_frames t)
          ((CLAMP (MEGABYTES E.VIAMD_FRAME_CACHE_SIZE) (MEGABYTES 4) (E.physical_ram / 4) /
            (mol.atom_count.toNat * 3 * 4) : Nat) : Int) ≤
        ((CLAMP (MEGABYTES E.VIAMD_FRAME_CACHE_SIZE) (MEGABYTES 4) (E.physical_ram / 4) /
            (mol.atom_count.toNat * 3 * 4) : Nat) : Int) := by
  unfold traj.open_file at hopen
  cases ha : ASSERT E (decide (alloc ≠ 0)) with
  | none =>
    rw [ha] at hopen
    simp at hopen
  | some u =>
    rw [ha, Option.some_bind] at hopen
    cases hl : traj.resolve_loader E filename loader with
    | none => simp [hl] at hopen
    | some l =>
      simp only [hl] at hopen
      cases hc : E.create l filename with
      | none => simp [hc] at hopen
      | some t =>
        simp only [hc] at hopen
        by_cases hat : E.num_atoms t = mol.atom_count
        · simp only [hat, ne_eq, not_true_eq_false, if_false] at hopen
          by_cases haddr : addr = 0
          · simp [haddr] at hopen
          · simp only [haddr, if_false] at hopen
            cases hal : alloc_loaded_trajectory E
                { s with
                  interfaces := write_interface s.interfaces addr md_trajectory_i.zero
                  calls := s.calls ++ [Call.create l filename t] } addr with
            | none => simp [hal] at hopen
            | some r =>
              rw [hal, Option.some_bind] at hopen
              cases hcf : cache_frames E mol t with
              | none => simp [hcf] at hopen
              | some n =>
                rw [hcf, Option.some_bind] at hopen
                simp only [Option.some.injEq, Prod.mk.injEq] at hopen
                obtain ⟨hh, hs1⟩ := hopen
                obtain ⟨_, hn⟩ := cache_frames_eq E mol t n hatoms hsize (hframes t) hram hcf
                -- the slot that was taken
                have hslot : r.1 < r.2.loaded_trajectories.length := by
                  unfold alloc_loaded_trajectory at hal
                  cases h1 : (if E.assertions = true then
                      (find_loaded_trajectory
                        { s with
                          interfaces := write_interface s.interfaces addr md_trajectory_i.zero
                          calls := s.calls ++ [Call.create l filename t] } addr).bind
                        (fun found => ASSERT E found.isNone)
                      else some ()) with
                  | none => simp [h1] at hal
                  | some u1 =>
                    rw [h1, Option.some_bind] at hal
                    cases h2 : ASSERT E (decide (s.num_loaded_trajectories < 8)) with
                    | none => simp [h2] at hal
                    | some u2 =>
                      simp only [h2, Option.some_bind] at hal
                      split at hal
                      · rename_i hlt
                        simp only [Option.some.injEq] at hal
                        rw [← hal]
                        simpa using hlt
                      · simp at hal
                refine ⟨l, t, r.1,
                  { key := addr, mol := some mol, loader := some l, traj := some t,
                    cache := some (E.frame_cache_init t n), alloc := alloc,
                    recenter_target := [], deperiodize := deperiodize_on_load },
                  hc, ?_, ?_, hh, rfl, by rw [hn], min_le_left _ _, min_le_right _ _⟩
                · rw [← hs1, ← hh]
                  simp [write_interface, List.lookup]
                · rw [← hs1]
                  simp only
                  rw [List.getElem?_set_self hslot]
        · simp [hat] at hopen

/-- Witness of C16: the file a.pdb opened for the molecule of three atoms; the
cache is initialised for the three frames of the decoder. -/
theorem open_file_cache_capacity_witness :
    ∃ s1, traj.open_file model_library (State.init : State Int model_cache) "a.pdb" none
        example_md_molecule 1 false 1000 = some (some 1000, s1) ∧
      ∃ e, s1.loaded_trajectories[0]? = some e ∧ e.key = 1000 ∧
        e.cache = some (model_library.frame_cache_init 105 3) := by
  have hopen : traj.open_file model_library (State.init : State Int model_cache) "a.pdb" none
      example_md_molecule 1 false 1000 = some (some 1000, (example_opened.map (fun r => r.2)).getD
        State.init) := by decide
  obtain ⟨l, t, i, e, h1, h2, h3, h4, h5, h6, _, _⟩ := open_file_cache_capacity model_library
    State.init "a.pdb" none example_md_molecule 1 false 1000 1000 _ (by decide) (by decide)
    (fun _ => by simp [model_library]) (by decide) hopen
  have hi : i = 0 := by
    have hlook : ((example_opened.map (fun r => r.2)).getD State.init).interfaces.lookup 1000 =
        some ⟨some 0, true, true, true, true⟩ := by decide
    rw [hlook] at h2
    simp only [Option.some.injEq, md_trajectory_i.mk.injEq, and_true] at h2
    exact h2.symm
  have ht : t = 105 := by
    have hcr : model_library.create l "a.pdb" = some 105 := by cases l <;> rfl
    rw [hcr] at h1
    simp only [Option.some.injEq] at h1
    exact h1.symm
  subst hi
  subst ht
  exact ⟨_, hopen, e, h3, h4, h6⟩

/-- C17: a state in which the counted entries of both arrays lie in the arrays
and have pairwise distinct keys, a key km found among the molecules at entry
im and a key kt found among the trajectories at entry it, which has a loader.
remove_loaded_molecule(km) and remove_loaded_trajectory(kt) return; each
decrements its counter by one, afterwards the key is not found, every other
key that was found is found with the same entry, the keys stay distinct, and
the freed place, when it is still counted, holds the entry that was the last
counted one. -/
theorem remove_loaded_swaps_last {α C : Type} [Ring α] [Div α] (E : Library α C) (s : State α C)
    (km kt im it : Nat)
    (hnum_m : s.num_loaded_molecules ≤ s.loaded_molecules.length)
    (hkeys_m : distinct_keys (fun e => e.key) s.loaded_molecules s.num_loaded_molecules)
    (hfind_m : find_loaded_molecule s km = some (some im))
    (hnum_t : s.num_loaded_trajectories ≤ s.loaded_trajectories.length)
    (hkeys_t : distinct_keys (fun e => e.key) s.loaded_trajectories s.num_loaded_trajectories)
    (hfind_t : find_loaded_trajectory s kt = some (some it))
    (hloader : ((s.loaded_trajectories[it]?).bind (fun e => e.loader)).isSome = true) :
    (∃ s1, remove_loaded_molecule E s km = some s1 ∧
      s1.num_loaded_molecules + 1 = s.num_loaded_molecules ∧
      s1.num_loaded_molecules ≤ s1.loaded_molecules.length ∧
      distinct_keys (fun e => e.key) s1.loaded_molecules s1.num_loaded_molecules ∧
      find_loaded_molecule s1 km = some none ∧
      (∀ k p x, k ≠ km → find_loaded_molecule s k = some (some p) →
        s.loaded_molecules[p]? = some x →
        ∃ p1, find_loaded_molecule s1 k = some (some p1) ∧
          s1.loaded_molecules[p1]? = some x) ∧
      (im < s1.num_loaded_molecules →
        s1.loaded_molecules[im]? = s.loaded_molecules[s.num_loaded_molecules - 1]?)) ∧
    (∃ s1, remove_loaded_trajectory E s kt = some s1 ∧
      s1.num_loaded_trajectories + 1 = s.num_loaded_trajectories ∧
      s1.num_loaded_trajectories ≤ s1.loaded_trajectories.length ∧
      distinct_keys (fun e => e.key) s1.loaded_trajectories s1.num_loaded_trajectories ∧
      find_loaded_trajectory s1 kt = some none ∧
      (∀ k p x, k ≠ kt → find_loaded_trajectory s k = some (some p) →
        s.loaded_trajectories[p]? = some x →
        ∃ p1, find_loaded_trajectory s1 k = some (some p1) ∧
          s1.loaded_trajectories[p1]? = some x) ∧
      (it < s1.num_loaded_trajectories →
        s1.loaded_trajectories[it]? =
          s.loaded_trajectories[s.num_loaded_trajectories - 1]?)) := by
  obtain ⟨e, l, _, _, _, h⟩ :=
    remove_loaded_trajectory_found E s kt it hnum_t hkeys_t hfind_t hloader
  obtain ⟨s1, h1, h2, h3, h4, h5, h6, h7, _⟩ := h
  exact ⟨remove_loaded_molecule_found E s km im hnum_m hkeys_m hfind_m,
    s1, h1, h2, h3, h4, h5, h6, h7⟩

/-- Witness of C17: the example registry with the molecules 11 and 22 and the
trajectories 1000 and 2000, from which the first entries are removed. -/
theorem remove_loaded_swaps_last_witness :
    (∃ s1, remove_loaded_molecule model_library example_registry 11 = some s1 ∧
      s1.num_loaded_molecules + 1 = 2 ∧
      find_loaded_molecule s1 11 = some none ∧
      s1.loaded_molecules[0]? = some ⟨22, 1⟩) ∧
    (∃ s1, remove_loaded_trajectory model_library example_registry 1000 = some s1 ∧
      s1.num_loaded_trajectories + 1 = 2 ∧
      find_loaded_trajectory s1 1000 = some none ∧
      s1.loaded_trajectories[0]? = example_registry.loaded_trajectories[1]?) := by
  obtain ⟨⟨s1, h1, h2, _, _, h3, _, h4⟩, ⟨s2, g1, g2, _, _, g3, _, g4⟩⟩ :=
    remove_loaded_swaps_last model_library example_registry 11 1000 0 0 (by decide) (by decide)
      (by decide) (by decide) (by decide) (by decide) (by decide)
  have hn1 : s1.num_loaded_molecules = 1 := by
    have : s1.num_loaded_molecules + 1 = 2 := h2
    omega
  have hn2 : s2.num_loaded_trajectories = 1 := by
    have : s2.num_loaded_trajectories + 1 = 2 := g2
    omega
  exact ⟨⟨s1, h1, h2, h3, h4 (by omega)⟩, ⟨s2, g1, g2, g3, g4 (by omega)⟩⟩

/-- C18: close on a handle that is not null, in a state whose counted
trajectory entries lie in the array, have distinct keys and, where the handle
is found, a loader. close returns true exactly when the handle is found. When
it is found, close removes its entry: the counter drops by one, the handle is
no longer found, every other key is found with its entry, the calls made are
the free of the frame cache and one destroy of the decoder of the entry, the
struct at the handle is zeroed, and a second close of the handle does what
close does on a handle that is not found: ASSERT(false) ends the run when
assertions are compiled in, and otherwise it returns false and the state as
it was. -/
theorem close_registered_handle {α C : Type} [Ring α] [Div α] (E : Library α C) (s : State α C)
    (handle : Nat) (hhandle : handle ≠ 0)
    (hnum : s.num_loaded_trajectories ≤ s.loaded_trajectories.length)
    (hkeys : distinct_keys (fun e => e.key) s.loaded_trajectories s.num_loaded_trajectories)
    (hloader : ∀ i, find_loaded_trajectory s handle = some (some i) →
      ((s.loaded_trajectories[i]?).bind (fun e => e.loader)).isSome = true) :
    ((∃ s1, traj.close E s handle = some (true, s1)) ↔
      ∃ i, find_loaded_trajectory s handle = some (some i)) ∧
    (∀ i, find_loaded_trajectory s handle = some (some i) →
      ∃ e l s1, s.loaded_trajectories[i]? = some e ∧ e.loader = some l ∧
        traj.close E s handle = some (true, s1) ∧
        s1.num_loaded_trajectories + 1 = s.num_loaded_trajectories ∧
        find_loaded_trajectory s1 handle = some none ∧
        (∀ k p x, k ≠ handle → find_loaded_trajectory s k = some (some p) →
          s.loaded_trajectories[p]? = some x →
          ∃ p1, find_loaded_trajectory s1 k = some (some p1) ∧
            s1.loaded_trajectories[p1]? = some x) ∧
        s1.calls = s.calls ++ [Call.frame_cache_free handle, Call.destroy l e.traj] ∧
        s1.interfaces.lookup handle = some md_trajectory_i.zero ∧
        traj.close E s1 handle = if E.assertions then none else some (false, s1)) ∧
    (find_loaded_trajectory s handle = some none →
      traj.close E s handle = if E.assertions then none else some (false, s)) := by
  have hassert : ASSERT E (decide (handle ≠ 0)) = some () := by simp [ASSERT, hhandle]
  have hmissing : ∀ s0 : State α C, find_loaded_trajectory s0 handle = some none →
      traj.close E s0 handle = if E.assertions then none else some (false, s0) := by
    intro s0 h0
    unfold traj.close
    rw [hassert, Option.some_bind, h0, Option.some_bind]
    unfold ASSERT
    cases E.assertions <;> rfl
  have hfound : ∀ i, find_loaded_trajectory s handle = some (some i) →
      ∃ e l s1, s.loaded_trajectories[i]? = some e ∧ e.loader = some l ∧
        traj.close E s handle = some (true, s1) ∧
        s1.num_loaded_trajectories + 1 = s.num_loaded_trajectories ∧
        find_loaded_trajectory s1 handle = some none ∧
        (∀ k p x, k ≠ handle → find_loaded_trajectory s k = some (some p) →
          s.loaded_trajectories[p]? = some x →
          ∃ p1, find_loaded_trajectory s1 k = some (some p1) ∧
            s1.loaded_trajectories[p1]? = some x) ∧
        s1.calls = s.calls ++ [Call.frame_cache_free handle, Call.destroy l e.traj] ∧
        s1.interfaces.lookup handle = some md_trajectory_i.zero ∧
        traj.close E s1 handle = if E.assertions then none else some (false, s1) := by
    intro i hi
    obtain ⟨e, l, he, hk, hl, s1, h1, h2, _, _, h5, h6, _, _, _, _, h11⟩ :=
      remove_loaded_trajectory_found E s handle i hnum hkeys hi (hloader i hi)
    refine ⟨e, l,
      { s1 with interfaces := write_interface s1.interfaces handle md_trajectory_i.zero },
      he, hl, ?_, h2, h5, h6, h11, ?_, ?_⟩
    · unfold traj.close
      rw [hassert, Option.some_bind, hi, Option.some_bind]
      simp only [he, Option.some_bind, hk, h1, hhandle, if_false]
    · simp [write_interface, List.lookup]
    · exact hmissing _ h5
  refine ⟨⟨?_, ?_⟩, hfound, hmissing s⟩
  · rintro ⟨s1, h1⟩
    obtain ⟨r, hr⟩ := find_key_total (fun e : LoadedTrajectory α C => e.key)
      s.loaded_trajectories handle 0 s.num_loaded_trajectories (by omega)
    cases r with
    | some i => exact ⟨i, hr⟩
    | none =>
      rw [hmissing s hr] at h1
      cases hE : E.assertions <;> simp [hE] at h1
  · rintro ⟨i, hi⟩
    obtain ⟨_, _, s1, _, _, h, _⟩ := hfound i hi
    exact ⟨s1, h⟩

/-- Witness of C18: in the example registry the handle 1000 is closed once, a
second close and the close of the handle 3000, which was never opened, trip
ASSERT(false). -/
theorem close_registered_handle_witness :
    (∃ s1, traj.close model_library example_registry 1000 = some (true, s1) ∧
      s1.num_loaded_trajectories + 1 = 2 ∧
      find_loaded_trajectory s1 1000 = some none ∧
      traj.close model_library s1 1000 = none) ∧
    traj.close model_library example_registry 3000 = none := by
  have h := close_registered_handle model_library example_registry
  obtain ⟨_, l, s1, _, _, h1, h2, h3, _, _, _, h4⟩ := (h 1000 (by decide) (by decide)
    (by decide) (fun i hi => by
      have : i = 0 := by
        have h0 : find_loaded_trajectory example_registry 1000 = some (some 0) := by decide
        rw [h0] at hi
        simpa using hi.symm
      subst this
      decide)).2.1 0 (by decide)
  exact ⟨⟨s1, h1, h2, h3, h4⟩, (h 3000 (by decide) (by decide) (by decide) (fun i hi => by
      have h0 : find_loaded_trajectory example_registry 3000 = some none := by decide
      rw [h0] at hi
      simp at hi)).2.2 (by decide)⟩

/-- C19: decode_frame_data on a slot with a decoder and a frame cache, for a
frame index in range, when md_frame_cache_find_or_reserve reports a hit with
frame data whose coordinate arrays hold num_atoms values, the arrays of the
caller being large enough. It returns true; the header of the caller is the
cached header and the first num_atoms values of each array of the caller are
those of the cached frame; the only calls are the lookup and the release of
the lock that the lookup handed out, so nothing is fetched or decoded; the
cache of the slot is the one after the lookup with the lock released, so the
cached coordinates are not touched. -/
theorem decode_frame_data_cache_hit {α C : Type} [Ring α] [Div α] (E : Library α C)
    (s : State α C) (inst : Nat) (idx : Int)
    (header : Option (md_trajectory_frame_header_t α)) (out_x out_y out_z : Option (List α))
    (loaded_traj : LoadedTrajectory α C) (t : Nat) (cache : C) (r : Reserved C)
    (frame_data : md_frame_data_t α)
    (hslot : s.loaded_trajectories[inst]? = some loaded_traj)
    (htraj : loaded_traj.traj = some t) (hidx : 0 ≤ idx ∧ idx < E.num_frames t)
    (hcache : loaded_traj.cache = some cache)
    (hr : E.frame_cache_find_or_reserve cache idx = r)
    (hhit : r.in_cache = true)
    (hdata : E.frame_data r.cache r.frame_data = some frame_data)
    (hatoms : 0 ≤ frame_data.header.num_atoms)
    (hsrc : frame_data.header.num_atoms.toNat ≤ frame_data.x.length ∧
      frame_data.header.num_atoms.toNat ≤ frame_data.y.length ∧
      frame_data.header.num_atoms.toNat ≤ frame_data.z.length)
    (hdst : ∀ out ∈ [out_x, out_y, out_z], ∀ dst, out = some dst →
      frame_data.header.num_atoms.toNat ≤ dst.length) :
    ∃ d, traj.decode_frame_data E s inst idx 8 header out_x out_y out_z = some d ∧
      d.result = true ∧
      d.header = header.map (fun _ => frame_data.header) ∧
      d.out_x = out_x.map (fun dst =>
        frame_data.x.take frame_data.header.num_atoms.toNat ++
          dst.drop frame_data.header.num_atoms.toNat) ∧
      d.out_y = out_y.map (fun dst =>
        frame_data.y.take frame_data.header.num_atoms.toNat ++
          dst.drop frame_data.header.num_atoms.toNat) ∧
      d.out_z = out_z.map (fun dst =>
        frame_data.z.take frame_data.header.num_atoms.toNat ++
          dst.drop frame_data.header.num_atoms.toNat) ∧
      d.state.calls = s.calls ++
        Call.frame_cache_find_or_reserve loaded_traj.key idx ::
          (match r.lock with
           | some lock => [Call.frame_lock_release lock]
           | none => []) ∧
      d.state.loaded_trajectories = s.loaded_trajectories.set inst
        { loaded_traj with cache := some (match r.lock with
          | some lock => E.frame_lock_release r.cache lock
          | none => r.cache) } := by
  have hx := copy_out_fits out_x frame_data.x _ hatoms hsrc.1
    (hdst out_x (by simp))
  have hy := copy_out_fits out_y frame_data.y _ hatoms hsrc.2.1
    (hdst out_y (by simp))
  have hz := copy_out_fits out_z frame_data.z _ hatoms hsrc.2.2
    (hdst out_z (by simp))
  have hassert : (if E.assertions = true then
      loaded_traj.traj.bind (fun t => ASSERT E (decide (0 ≤ idx ∧ idx < E.num_frames t)))
      else some ()) = some () := by
    rw [htraj]
    simp [ASSERT, hidx.1, hidx.2]
  unfold traj.decode_frame_data
  rw [hslot, Option.some_bind]
  have h8 : ASSERT E (decide ((8 : Int) = 8)) = some () := by simp [ASSERT]
  rw [h8, Option.some_bind, hassert, Option.some_bind, hcache, Option.some_bind]
  simp only [hr, hhit, if_true, hdata, Option.map_some', Option.some_bind, hx, hy, hz]
  refine ⟨_, rfl, rfl, rfl, rfl, rfl, rfl, ?_, ?_⟩
  · cases r.lock <;> simp
  · cases r.lock <;> rfl

/-- Witness of C19: frame 1 of the second trajectory, which is resident. -/
theorem decode_frame_data_cache_hit_witness :
    ∃ d, traj.decode_frame_data model_library example_cached 1 1 8 (some (model_header 7))
        (some [9, 9, 9, 9]) none (some [5, 5, 5]) = some d ∧
      d.result = true ∧ d.header = some (model_header 1) ∧
      d.out_x = some [10, 11, 12, 9] ∧ d.out_y = none ∧ d.out_z = some [1, 1, 1] ∧
      d.state.calls = example_cached.calls ++
        [Call.frame_cache_find_or_reserve 2000 1, Call.frame_lock_release 0] := by
  obtain ⟨d, h1, h2, h3, h4, h5, h6, h7, _⟩ := decode_frame_data_cache_hit model_library
    example_cached 1 1 (some (model_header 7)) (some [9, 9, 9, 9]) none (some [5, 5, 5])
    ((example_cached.loaded_trajectories[1]?).getD LoadedTrajectory.zero) 106
    ⟨3, [(1, model_frame 1)], 0⟩
    (model_library.frame_cache_find_or_reserve ⟨3, [(1, model_frame 1)], 0⟩ 1) (model_frame 1)
    (by decide) (by decide) (by decide) (by decide) rfl (by decide) (by decide) (by decide)
    (by decide) (by decide)
  exact ⟨d, h1, h2, h3, h4, h5, h6, h7⟩

/-- C20: decode_frame_data on a slot with a decoder and a frame cache, for a
frame index in range, when md_frame_cache_find_or_reserve reports a miss and
the decoder fails to decode the frame. It returns false, the header and the
arrays of the caller are as before, and after the two fetches and the decode
the last call releases the lock that the lookup handed out. -/
theorem decode_frame_data_decode_fails {α C : Type} [Ring α] [Div α] (E : Library α C)
    (s : State α C) (inst : Nat) (idx : Int)
    (header : Option (md_trajectory_frame_header_t α)) (out_x out_y out_z : Option (List α))
    (loaded_traj : LoadedTrajectory α C) (t : Nat) (cache : C) (r : Reserved C)
    (frame_data : md_frame_data_t α)
    (hslot : s.loaded_trajectories[inst]? = some loaded_traj)
    (htraj : loaded_traj.traj = some t) (hidx : 0 ≤ idx ∧ idx < E.num_frames t)
    (hcache : loaded_traj.cache = some cache)
    (hr : E.frame_cache_find_or_reserve cache idx = r)
    (hmiss : r.in_cache = false)
    (hdata : E.frame_data r.cache r.frame_data = some frame_data)
    (hfail : (E.decode_frame_data t (E.fetch_frame_data t idx) frame_data).1 = false) :
    ∃ d, traj.decode_frame_data E s inst idx 8 header out_x out_y out_z = some d ∧
      d.result = false ∧
      d.header = header ∧ d.out_x = out_x ∧ d.out_y = out_y ∧ d.out_z = out_z ∧
      d.state.calls = s.calls ++
        [Call.frame_cache_find_or_reserve loaded_traj.key idx, Call.fetch_frame_data t idx,
          Call.fetch_frame_data t idx, Call.decode_frame_data t idx] ++
          (match r.lock with
           | some lock => [Call.frame_lock_release lock]
           | none => []) ∧
      d.state.loaded_trajectories = s.loaded_trajectories.set inst
        { loaded_traj with cache := some (match r.lock with
          | some lock => E.frame_lock_release (E.set_frame_data r.cache r.frame_data
              (E.decode_frame_data t (E.fetch_frame_data t idx) frame_data).2) lock
          | none => E.set_frame_data r.cache r.frame_data
              (E.decode_frame_data t (E.fetch_frame_data t idx) frame_data).2) } := by
  have hassert : (if E.assertions = true then
      loaded_traj.traj.bind (fun t => ASSERT E (decide (0 ≤ idx ∧ idx < E.num_frames t)))
      else some ()) = some () := by
    rw [htraj]
    simp [ASSERT, hidx.1, hidx.2]
  unfold traj.decode_frame_data
  rw [hslot, Option.some_bind]
  have h8 : ASSERT E (decide ((8 : Int) = 8)) = some () := by simp [ASSERT]
  rw [h8, Option.some_bind, hassert, Option.some_bind, hcache, Option.some_bind]
  simp only [hr, hmiss, Bool.false_eq_true, if_false, htraj, hdata, Option.some_bind, hfail,
    Option.map_some']
  refine ⟨_, rfl, rfl, rfl, rfl, rfl, rfl, ?_, ?_⟩
  · cases r.lock <;> simp
  · cases r.lock <;> rfl

/-- Witness of C20: frame 2 of the second trajectory, which does not decode. -/
theorem decode_frame_data_decode_fails_witness :
    ∃ d, traj.decode_frame_data model_library example_registry 1 2 8 (some (model_header 7))
        (some [9, 9, 9, 9]) none (some [5, 5, 5]) = some d ∧
      d.result = false ∧ d.header = some (model_header 7) ∧
      d.out_x = some [9, 9, 9, 9] ∧ d.out_y = none ∧ d.out_z = some [5, 5, 5] ∧
      d.state.calls = example_registry.calls ++
        [Call.frame_cache_find_or_reserve 2000 2, Call.fetch_frame_data 106 2,
          Call.fetch_frame_data 106 2, Call.decode_frame_data 106 2,
          Call.frame_lock_release 0] := by
  obtain ⟨d, h1, h2, h3, h4, h5, h6, h7, _⟩ := decode_frame_data_decode_fails model_library
    example_registry 1 2 (some (model_header 7)) (some [9, 9, 9, 9]) none (some [5, 5, 5])
    ((example_registry.loaded_trajectories[1]?).getD LoadedTrajectory.zero) 106
    ⟨3, [], 0⟩ (model_library.frame_cache_find_or_reserve ⟨3, [], 0⟩ 2) (model_frame 0)
    (by decide) (by decide) (by decide) (by decide) rfl (by decide) (by decide) (by decide)
  exact ⟨d, h1, h2, h3, h4, h5, h6, h7⟩

/-- C21 (counterexample): a frame of two atoms at x = 1 and x = 8 in a cubic
cell of extent 10, masses 1 and 3. With both atoms as the target, the library
computes the periodic center 35/4 and all atoms are moved by 5 - 35/4: the
output is x = -11/4 and 17/4, whose center of mass is 5/2 and not the box
center 5. With the first atom as the target and deperiodize set, the atoms
are moved by 4 and then brought into the box: the output is x = 5 and 2, the
first atom moved by 4 and the second by -6. -/
theorem decode_frame_data_recenter_cell :
    (traj.decode_frame_data model_library_rat (example_recentered [0, 1] false) 0 1 8 none
        (some [0, 0]) (some [0, 0]) (some [0, 0])).map
      (fun d => (d.result, d.out_x, d.out_y, d.out_z)) =
      some (true, some [-11 / 4, 17 / 4], some [5, 5], some [5, 5]) ∧
    recenter_com model_library_rat example_md_molecule_rat [0, 1] model_frame_cell =
      ⟨35 / 4, 5, 5⟩ ∧
    center_of_mass [-11 / 4, 17 / 4] [5, 5] [5, 5] example_md_molecule_rat.atom_mass [0, 1] =
      ⟨5 / 2, 5, 5⟩ ∧
    recenter_goal model_frame_cell = ⟨5, 5, 5⟩ ∧
    (traj.decode_frame_data model_library_rat (example_recentered [0] true) 0 1 8 none
        (some [0, 0]) (some [0, 0]) (some [0, 0])).map
      (fun d => (d.result, d.out_x, d.out_y, d.out_z)) =
      some (true, some [5, 2], some [5, 5], some [5, 5]) ∧
    model_frame_cell.x = [1, 8] :=
  ⟨by decide!, by decide!, by decide!, by decide!, by decide!, by decide!⟩

/-- C21 (amended): for a trajectory with a recenter target that is not empty
and a frame that is not in the cache and decodes, decode_frame_data returns
true and, unless deperiodize is set and the frame has a unit cell, the
coordinates that it writes are those of the decoded frame with all atoms
moved by one vector, trans. Where the center that the library computes for
the target (md_util_compute_com without a unit cell, the de-periodized
md_util_compute_com_ortho with one) is the mass-weighted center of mass of
the masked atoms, the center of mass of the masked atoms in the output is the
origin without a unit cell and half the box extent with one. -/
theorem decode_frame_data_recenters {α C : Type} [Field α] (E : Library α C)
    (s : State α C) (inst : Nat) (idx : Int)
    (header : Option (md_trajectory_frame_header_t α)) (out_x out_y out_z : List α)
    (loaded_traj : LoadedTrajectory α C) (mol : md_molecule_t α) (t : Nat) (cache : C)
    (buffer decoded : md_frame_data_t α)
    (hslot : s.loaded_trajectories[inst]? = some loaded_traj)
    (hmol : loaded_traj.mol = some mol) (htraj : loaded_traj.traj = some t)
    (hcache : loaded_traj.cache = some cache)
    (hidx : 0 ≤ idx ∧ idx < E.num_frames t)
    (hmiss : (E.frame_cache_find_or_reserve cache idx).in_cache = false)
    (hbuffer : E.frame_data (E.frame_cache_find_or_reserve cache idx).cache
      (E.frame_cache_find_or_reserve cache idx).frame_data = some buffer)
    (hdecoded : E.decode_frame_data t (E.fetch_frame_data t idx) buffer = (true, decoded))
    (hmask : loaded_traj.recenter_target ≠ [])
    (hn : 0 ≤ decoded.header.num_atoms)
    (hx : decoded.header.num_atoms.toNat ≤ decoded.x.length)
    (hy : decoded.header.num_atoms.toNat ≤ decoded.y.length)
    (hz : decoded.header.num_atoms.toNat ≤ decoded.z.length)
    (hox : decoded.header.num_atoms.toNat ≤ out_x.length)
    (hoy : decoded.header.num_atoms.toNat ≤ out_y.length)
    (hoz : decoded.header.num_atoms.toNat ≤ out_z.length)
    (hdep : loaded_traj.deperiodize = false ∨ decoded.header.unit_cell.flags = 0) :
    ∃ d xs ys zs,
      traj.decode_frame_data E s inst idx 8 header (some out_x) (some out_y) (some out_z) =
        some d ∧
      d.result = true ∧
      d.out_x = some (xs ++ out_x.drop decoded.header.num_atoms.toNat) ∧
      d.out_y = some (ys ++ out_y.drop decoded.header.num_atoms.toNat) ∧
      d.out_z = some (zs ++ out_z.drop decoded.header.num_atoms.toNat) ∧
      xs = (decoded.x.take decoded.header.num_atoms.toNat).map
        (fun v => v + (recenter_trans E mol loaded_traj.recenter_target decoded).x) ∧
      ys = (decoded.y.take decoded.header.num_atoms.toNat).map
        (fun v => v + (recenter_trans E mol loaded_traj.recenter_target decoded).y) ∧
      zs = (decoded.z.take decoded.header.num_atoms.toNat).map
        (fun v => v + (recenter_trans E mol loaded_traj.recenter_target decoded).z) ∧
      ((∀ i ∈ loaded_traj.recenter_target, i < decoded.header.num_atoms.toNat) →
        total_mass mol.atom_mass loaded_traj.recenter_target ≠ 0 →
        recenter_com E mol loaded_traj.recenter_target decoded =
          center_of_mass decoded.x decoded.y decoded.z mol.atom_mass
            loaded_traj.recenter_target →
        center_of_mass xs ys zs mol.atom_mass loaded_traj.recenter_target =
          recenter_goal decoded) := by
  have hassert : (if E.assertions = true then
      loaded_traj.traj.bind (fun t => ASSERT E (decide (0 ≤ idx ∧ idx < E.num_frames t)))
      else some ()) = some () := by
    rw [htraj]
    simp [ASSERT, hidx.1, hidx.2]
  have hpost := postprocess_recenters E loaded_traj mol decoded hmol hmask hx hy hz hdep
  have hlen : ∀ (l : List α) (d : α), decoded.header.num_atoms.toNat ≤ l.length →
      decoded.header.num_atoms.toNat ≤
        ((l.take decoded.header.num_atoms.toNat).map (fun v => v + d) ++
          l.drop decoded.header.num_atoms.toNat).length := by
    intro l d hl
    simp only [List.length_append, List.length_map, List.length_take, List.length_drop]
    omega
  have htake : ∀ (l : List α) (d : α), decoded.header.num_atoms.toNat ≤ l.length →
      ((l.take decoded.header.num_atoms.toNat).map (fun v => v + d) ++
          l.drop decoded.header.num_atoms.toNat).take decoded.header.num_atoms.toNat =
        (l.take decoded.header.num_atoms.toNat).map (fun v => v + d) := by
    intro l d hl
    rw [List.take_append_of_le_length (by rw [List.length_map, List.length_take]; omega)]
    apply List.take_of_length_le
    rw [List.length_map, List.length_take]
    omega
  unfold traj.decode_frame_data
  rw [hslot, Option.some_bind]
  have h8 : ASSERT E (decide ((8 : Int) = 8)) = some () := by simp [ASSERT]
  rw [h8, Option.some_bind, hassert, Option.some_bind, hcache, Option.some_bind]
  simp only [hmiss, Bool.false_eq_true, if_false, htraj, hbuffer, Option.some_bind, hdecoded,
    if_true, hpost, Option.map_some']
  rw [copy_out_fits (some out_x) _ _ hn (hlen _ _ hx) (fun dst h => by
      simp only [Option.some.injEq] at h; rw [← h]; exact hox),
    Option.some_bind,
    copy_out_fits (some out_y) _ _ hn (hlen _ _ hy) (fun dst h => by
      simp only [Option.some.injEq] at h; rw [← h]; exact hoy),
    Option.some_bind,
    copy_out_fits (some out_z) _ _ hn (hlen _ _ hz) (fun dst h => by
      simp only [Option.some.injEq] at h; rw [← h]; exact hoz)]
  simp only [Option.map_some', htake _ _ hx, htake _ _ hy, htake _ _ hz]
  refine ⟨_, _, _, _, rfl, rfl, rfl, rfl, rfl, rfl, rfl, rfl, ?_⟩
  intro hin hmass hcom
  have hgoal : recenter_trans E mol loaded_traj.recenter_target decoded =
      (recenter_goal decoded).sub
        (center_of_mass decoded.x decoded.y decoded.z mol.atom_mass
          loaded_traj.recenter_target) := by
    unfold recenter_trans recenter_goal
    rw [hcom]
    split
    · rfl
    · simp [vec3_t.sub, vec3_t.neg]
  rw [hgoal]
  unfold center_of_mass
  simp only [vec3_t.sub]
  rw [weighted_sum_translated decoded.x mol.atom_mass _ _ _ hx hin,
    weighted_sum_translated decoded.y mol.atom_mass _ _ _ hy hin,
    weighted_sum_translated decoded.z mol.atom_mass _ _ _ hz hin,
    center_translated _ _ _ hmass, center_translated _ _ _ hmass,
    center_translated _ _ _ hmass]

/-- Witness of C21: the frame without a unit cell, with the atoms at x = 1 and
x = 3 and the masses 1 and 3; both atoms are moved by -5/2. -/
theorem decode_frame_data_recenters_witness :
    ∃ d xs ys zs,
      traj.decode_frame_data model_library_rat (example_recentered [0, 1] false) 0 0 8 none
        (some [0, 0]) (some [0, 0]) (some [0, 0]) = some d ∧
      d.result = true ∧
      d.out_x = some (xs ++ []) ∧ d.out_y = some (ys ++ []) ∧ d.out_z = some (zs ++ []) ∧
      xs = [-3 / 2, 1 / 2] ∧
      center_of_mass xs ys zs [1, 3] [0, 1] = ⟨0, 0, 0⟩ := by
  obtain ⟨d, xs, ys, zs, h1, h2, h3, h4, h5, h6, _, _, h9⟩ :=
    decode_frame_data_recenters model_library_rat (example_recentered [0, 1] false) 0 0 none
      [0, 0] [0, 0] [0, 0]
      (((example_recentered [0, 1] false).loaded_trajectories[0]?).getD LoadedTrajectory.zero)
      example_md_molecule_rat 106 [] model_frame_free model_frame_free
      (by decide!) (by decide!) (by decide!) (by decide!) (by decide!) (by decide!)
      (by decide!) (by decide!) (by decide!) (by decide!) (by decide!) (by decide!)
      (by decide!) (by decide!) (by decide!) (by decide!) (by decide!)
  refine ⟨d, xs, ys, zs, h1, h2, h3, h4, h5, ?_, ?_⟩
  · rw [h6]
    decide!
  · exact h9 (by decide!) (by decide!) (by decide!)

/-- C22: set_recenter_target on a registered trajectory returns true and
changes, in the registry, only the recenter mask of the entry of this
trajectory, to the supplied mask or to the empty mask for a null pointer: the
frame cache and the deperiodize flag of the entry, every other entry, both
counters, the molecules and the handed-out interfaces are unchanged. A frame
that is resident in the cache of the entry decodes after the call to the same
result, header and coordinates as before it. -/
theorem set_recenter_target_keeps_cache {α C : Type} [Ring α] [Div α] (E : Library α C)
    (s : State α C) (handle : Nat) (atom_mask : Option md_bitfield_t) (i : Nat)
    (hhandle : handle ≠ 0)
    (hfind : find_loaded_trajectory s handle = some (some i)) :
    ∃ e s1, s.loaded_trajectories[i]? = some e ∧ e.key = handle ∧
      traj.set_recenter_target E s handle atom_mask = some (true, s1) ∧
      s1.loaded_trajectories =
        s.loaded_trajectories.set i { e with recenter_target := atom_mask.getD [] } ∧
      s1.num_loaded_trajectories = s.num_loaded_trajectories ∧
      s1.loaded_molecules = s.loaded_molecules ∧
      s1.num_loaded_molecules = s.num_loaded_molecules ∧
      s1.interfaces = s.interfaces ∧ s1.calls = s.calls ∧
      (∀ j, j ≠ i → s1.loaded_trajectories[j]? = s.loaded_trajectories[j]?) ∧
      (∀ (cache : C) (idx data_size : Int) (header : Option (md_trajectory_frame_header_t α))
        (out_x out_y out_z : Option (List α)), e.cache = some cache →
        (E.frame_cache_find_or_reserve cache idx).in_cache = true →
        (traj.decode_frame_data E s1 i idx data_size header out_x out_y out_z).map
          (fun d => (d.result, d.header, d.out_x, d.out_y, d.out_z)) =
        (traj.decode_frame_data E s i idx data_size header out_x out_y out_z).map
          (fun d => (d.result, d.header, d.out_x, d.out_y, d.out_z))) := by
  obtain ⟨_, hlt, e, he, hk⟩ := find_key_some _ _ _ _ _ _ hfind
  have hi : i < s.loaded_trajectories.length := (List.getElem?_eq_some.mp he).1
  refine ⟨e, { s with loaded_trajectories :=
    s.loaded_trajectories.set i { e with recenter_target := atom_mask.getD [] } }, he, hk, ?_,
    rfl, rfl, rfl, rfl, rfl, rfl, ?_, ?_⟩
  · unfold traj.set_recenter_target
    have hassert : ASSERT E (decide (handle ≠ 0)) = some () := by simp [ASSERT, hhandle]
    rw [hassert, Option.some_bind, hfind, Option.some_bind]
    simp only [he, Option.map_some']
  · intro j hj
    simp only
    rw [List.getElem?_set_ne (fun h => hj h.symm)]
  · intro cache idx data_size header out_x out_y out_z hcache hhit
    unfold traj.decode_frame_data
    simp only [List.getElem?_set_self hi, he, Option.some_bind, hcache, hhit, if_true]
    cases ASSERT E (decide (data_size = 8)) with
    | none => rfl
    | some u =>
      simp only [Option.some_bind]
      cases (if E.assertions = true then
          e.traj.bind (fun t => ASSERT E (decide (0 ≤ idx ∧ idx < E.num_frames t)))
          else some ()) with
      | none => rfl
      | some u1 =>
        simp only [Option.some_bind]
        cases E.frame_data (E.frame_cache_find_or_reserve cache idx).cache
            (E.frame_cache_find_or_reserve cache idx).frame_data with
        | none => rfl
        | some fd =>
          simp only [Option.map_some', Option.some_bind]
          cases copy_out out_x fd.x fd.header.num_atoms with
          | none => rfl
          | some x =>
            cases copy_out out_y fd.y fd.header.num_atoms with
            | none => rfl
            | some y =>
              cases copy_out out_z fd.z fd.header.num_atoms with
              | none => rfl
              | some z => rfl

/-- Witness of C22: a new mask for the second trajectory of the example, whose
frame 1 is resident. -/
theorem set_recenter_target_keeps_cache_witness :
    ∃ s1, traj.set_recenter_target model_library example_cached 2000 (some [0, 2]) =
        some (true, s1) ∧
      (s1.loaded_trajectories[1]?).map (fun e => (e.recenter_target, e.deperiodize)) =
        some ([0, 2], false) ∧
      s1.loaded_trajectories[0]? = example_cached.loaded_trajectories[0]? ∧
      (traj.decode_frame_data model_library s1 1 1 8 none (some [9, 9, 9, 9]) none none).map
        (fun d => (d.result, d.out_x)) = some (true, some [10, 11, 12, 9]) := by
  obtain ⟨e, s1, he, _, hset, hlt, _, _, _, _, _, hother, hdec⟩ :=
    set_recenter_target_keeps_cache model_library example_cached 2000 (some [0, 2]) 1
      (by decide) (by decide)
  have hee : e = (example_cached.loaded_trajectories[1]?).getD LoadedTrajectory.zero := by
    rw [he]
    rfl
  subst hee
  refine ⟨s1, hset, ?_, hother 0 (by decide), ?_⟩
  · rw [hlt]
    decide
  · have h := congrArg (Option.map (fun p => (p.1, p.2.2.1)))
      (hdec ⟨3, [(1, model_frame 1)], 0⟩ 1 8 none (some [9, 9, 9, 9]) none none (by decide)
        (by decide))
    rw [Option.map_map, Option.map_map] at h
    exact h.trans (by decide)

/-- C24 (fails on the code): open_file on a.pdb gives the handle 1000 and on
bb.xtc the handle 2000, close(1000) returns true and open_file on ccc.trr
gives the handle 3000. After close the entry of the handle 2000 has moved to
slot 0, but the field inst of the handle still is slot 1, which is vacated;
after the third open_file slot 1 holds the entry with the key 3000, and
decode_frame_data through the field inst of the handle 2000 asks the cache
and the decoder (107) of ccc.trr, not the decoder (106) of bb.xtc. -/
theorem close_leaves_stale_inst :
    example_opened_twice.map (fun r => r.1) = some (some 2000) ∧
    example_closed_first.map (fun r => r.1) = some true ∧
    example_closed_first.map (fun r => r.2.num_loaded_trajectories) = some 1 ∧
    example_closed_first.bind (fun r => find_loaded_trajectory r.2 2000) = some (some 0) ∧
    example_closed_first.map (fun r => (r.2.interfaces.lookup 2000).map (fun i => i.inst)) =
      some (some (some 1)) ∧
    example_reopened.map (fun r => r.1) = some (some 3000) ∧
    example_reopened.bind (fun r => find_loaded_trajectory r.2 2000) = some (some 0) ∧
    example_reopened.bind (fun r => find_loaded_trajectory r.2 3000) = some (some 1) ∧
    example_reopened.map (fun r => (r.2.interfaces.lookup 2000).map (fun i => i.inst)) =
      some (some (some 1)) ∧
    example_reopened.map (fun r => (r.2.loaded_trajectories[0]?).map (fun e => (e.key, e.traj))) =
      some (some (2000, some 106)) ∧
    example_reopened.map (fun r => (r.2.loaded_trajectories[1]?).map (fun e => (e.key, e.traj))) =
      some (some (3000, some 107)) ∧
    example_reopened.bind (fun r =>
      (traj.decode_frame_data model_library r.2 1 0 8 none none none none).map
        (fun d => d.state.calls.drop r.2.calls.length)) =
      some [Call.frame_cache_find_or_reserve 3000 0, Call.fetch_frame_data 107 0,
        Call.fetch_frame_data 107 0, Call.decode_frame_data 107 0, Call.frame_lock_release 0] := by
  decide

end load

namespace stats

/-- C25 (counterexample): for the structure of the atoms 5 to 8 and the offset
tokens 0 and 7, compute_atomic_distance reads atom 12: on two trajectories
that agree on the atoms 5 to 8 in both frames and differ at atom 12 it gives
different distances. With the offset 9 it reads atom 14, outside the frame,
and has no result. -/
theorem compute_atomic_distance_reads_outside :
    (∀ i ∈ [0, 1], ∀ atom ∈ [(5 : Int), 6, 7, 8],
      atom_position example_trajectory i atom = atom_position example_trajectory_moved i atom) ∧
    model_env.to_int32 "0" = some 0 ∧ model_env.to_int32 "7" = some 7 ∧
    compute_atomic_distance model_env [0, 0] ["0", "7"] example_dynamic ⟨5, 9⟩ =
      some (true, [49, 49]) ∧
    compute_atomic_distance model_env [0, 0] ["0", "7"] example_dynamic_moved ⟨5, 9⟩ =
      some (true, [25, 625]) ∧
    compute_atomic_distance model_env [0, 0] ["0", "9"] example_dynamic ⟨5, 9⟩ = none := by
  decide

/-- C25 (amended): for offset tokens whose integers lie between 0 and the
length of the structure (excluded), compute_atomic_distance,
compute_atomic_angle and compute_atomic_dihedral read no position outside the
range from beg_atom_idx to end_atom_idx: on two trajectories with as many
frames that agree on the atoms of the structure they return the same. -/
theorem compute_atomic_reads_inside {α : Type} [Ring α] [Div α] (E : Env α) (data : List α)
    (args : List CString) (d1 d2 : MoleculeDynamic α) (t1 t2 : Trajectory α) (s : Structure)
    (h1 : d1.trajectory = some t1) (h2 : d2.trajectory = some t2)
    (hsame : same_inside t1 t2 s)
    (hoff : ∀ t ∈ args, ∀ o, E.to_int32 t = some o →
      0 ≤ o ∧ s.beg_atom_idx + o < s.end_atom_idx) :
    compute_atomic_distance E data args d1 s = compute_atomic_distance E data args d2 s ∧
    compute_atomic_angle E data args d1 s = compute_atomic_angle E data args d2 s ∧
    compute_atomic_dihedral E data args d1 s = compute_atomic_dihedral E data args d2 s :=
  ⟨compute_atomic_distance_inside E data args d1 d2 t1 t2 s h1 h2 hsame hoff,
   compute_atomic_angle_inside E data args d1 d2 t1 t2 s h1 h2 hsame hoff,
   compute_atomic_dihedral_inside E data args d1 d2 t1 t2 s h1 h2 hsame hoff⟩

/-- The two example trajectories agree on the atoms 5 to 8. -/
theorem example_same_inside : same_inside example_trajectory example_trajectory_moved ⟨5, 9⟩ := by
  refine ⟨rfl, ?_⟩
  intro i atom h1 h2
  have hat : atom = 5 ∨ atom = 6 ∨ atom = 7 ∨ atom = 8 := by
    simp only at h1 h2
    omega
  match i with
  | 0 => rcases hat with rfl | rfl | rfl | rfl <;> decide
  | 1 => rcases hat with rfl | rfl | rfl | rfl <;> decide
  | (n + 2) =>
    simp [atom_position, example_trajectory, example_trajectory_moved]

/-- Witness of C25: the offsets 0 and 3 in the structure of the atoms 5 to 8. -/
theorem compute_atomic_reads_inside_witness :
    compute_atomic_distance model_env [0, 0] ["0", "3"] example_dynamic ⟨5, 9⟩ =
      compute_atomic_distance model_env [0, 0] ["0", "3"] example_dynamic_moved ⟨5, 9⟩ :=
  (compute_atomic_reads_inside model_env [0, 0] ["0", "3"] example_dynamic
    example_dynamic_moved example_trajectory example_trajectory_moved ⟨5, 9⟩ rfl rfl
    example_same_inside (by decide)).1

/-- C26 (fails on the code): create_group of g1 with the command resname ALA
returns the id 13542 and compute_stats stores three instances of the group;
after remove_group no group is listed but the three instances with the
group_id 13542 remain; g1 created once more gets the same id and an instance
count of 0 while the three instances of the removed group carry its id, and
the next compute_stats stores three more. -/
theorem remove_group_keeps_instances :
    example_removed.map (fun r => r.1) = some 13542 ∧
    example_removed.map (fun r => r.2.groups.length) = some 0 ∧
    example_removed.map (fun r => r.2.group_instances.map (fun i => i.group_id)) =
      some [13542, 13542, 13542] ∧
    example_removed.map (fun r => r.2.group_instances.map
      (fun i => (find_id r.2.groups i.group_id).isSome)) = some [false, false, false] ∧
    example_recreated.map (fun r => r.1) = some 13542 ∧
    example_recreated.map (fun r => get_group_instance_count r.2 r.1) = some 0 ∧
    example_recreated.map (fun r => r.2.group_instances.map (fun i => i.group_id)) =
      some [13542, 13542, 13542] ∧
    example_recreated.map (fun r => decide (get_group_instance r.2 r.1 0 = INVALID_ID)) =
      some false ∧
    example_recreated.bind (fun r =>
      (compute_stats model_env r.2 example_dynamic).map (fun r5 =>
        (r5.1, r5.2.group_instances.map (fun i => i.group_id),
          get_group_instance_count r5.2 r.1))) =
      some (true, [13542, 13542, 13542, 13542, 13542, 13542], 3) := by
  decide

end stats

namespace molecule_utils

open stats (vec3 for_range Residue load)

/-- C27 (fails on the code): for the empty array compute_bounding_box does
not return after the branch that sets min_box and max_box to zero; it goes on
to read positions.data[0], outside the array, and has no result. -/
theorem compute_bounding_box_empty {α : Type} [Min α] [Max α] :
    compute_bounding_box ([] : List (vec3 α)) = none := rfl

/-- C28: for residues, bonds and atom-to-residue indices that are in range
(every bond joins two atoms that have an entry in atom_residue_indices, and
every entry is the index of a residue), compute_chains returns, and its chains
cover the residues by consecutive non-empty ranges: the first chain begins at
residue 0, each chain begins where the previous one ends, beg_res_idx is below
end_res_idx in every chain, and the last chain ends at residues.count; the
same holds without the array when ASSERT is compiled out. For an empty residue
list no chain is returned. -/
theorem compute_chains_partition (assertions : Bool) (MAX_LENGTH : Nat)
    (residues : List Residue) (bonds : List Bond) (atom_residue_indices : Option (List Int))
    (hgiven : atom_residue_indices = none → assertions = false)
    (hbonds : ∀ l ∈ atom_residue_indices, ∀ b ∈ bonds,
      0 ≤ b.idx_a ∧ b.idx_a < l.length ∧ 0 ≤ b.idx_b ∧ b.idx_b < l.length)
    (hrange : ∀ l ∈ atom_residue_indices, ∀ r ∈ l, 0 ≤ r ∧ r < residues.length) :
    ∃ chains, compute_chains assertions MAX_LENGTH residues bonds atom_residue_indices =
        some chains ∧
      consecutive_ranges chains 0 residues.length ∧ (residues = [] → chains = []) := by
  have key : ∀ rbs : List Bond,
      (∀ b ∈ rbs, 0 ≤ b.idx_a ∧ b.idx_a < residues.length ∧
        0 ≤ b.idx_b ∧ b.idx_b < residues.length) →
      ∃ chains, ((assign_residue_chains residues.length rbs).bind
          (fun r => collect_chains MAX_LENGTH r.1)) = some chains ∧
        consecutive_ranges chains 0 residues.length ∧ (residues = [] → chains = []) := by
    intro rbs hrbs
    obtain ⟨r, hr, hlen, hnonneg⟩ := assign_residue_chains_nonneg residues.length rbs hrbs
    obtain ⟨chains, hc, hpart, hempty⟩ := collect_chains_partition MAX_LENGTH r.1 hnonneg
    refine ⟨chains, by rw [hr, Option.some_bind, hc], ?_, ?_⟩
    · rw [hlen] at hpart
      exact hpart
    · intro hres
      apply hempty
      apply List.eq_nil_of_length_eq_zero
      rw [hlen, hres]
      rfl
  cases atom_residue_indices with
  | none =>
    unfold compute_chains
    simp only [hgiven rfl, Bool.false_eq_true, if_false, Option.some_bind]
    exact key [] (by intro b hb; simp at hb)
  | some l =>
    obtain ⟨rbs, hrbs1, hrbs2⟩ :=
      collect_residue_bonds_in_range residues.length bonds l (hbonds l rfl) (hrange l rfl)
    unfold compute_chains
    simp only [hrbs1, Option.some_bind]
    exact key rbs hrbs2

/-- Witness of C28: four residues, of which bonds join the first two and the
last two. -/
theorem compute_chains_partition_witness :
    ∃ chains, compute_chains true 8 example_residues example_bonds
        (some example_atom_residue_indices) = some chains ∧
      consecutive_ranges chains 0 example_residues.length ∧
      (example_residues = [] → chains = []) :=
  compute_chains_partition true 8 example_residues example_bonds
    (some example_atom_residue_indices) (by decide) (by decide) (by decide)

/-- C29 (fails on the code): without residues, four atoms of radius 1/2 of
which the second and the third are at the distance 1 get the bond (1, 2) and
the bond (2, 1), the same unordered pair twice, the second with i > j; with
the four atoms in one residue the result is the bond (1, 2) alone. -/
theorem compute_atomic_bonds_brute_force_twice :
    compute_atomic_bonds example_radius example_positions [1, 1, 1, 1] none =
      some [⟨1, 2⟩, ⟨2, 1⟩] ∧
    compute_atomic_bonds example_radius example_positions [1, 1, 1, 1] (some [⟨"A", 0, 4⟩]) =
      some [⟨1, 2⟩] := by
  decide!

end molecule_utils

namespace stats

/-- C30 (counterexample): with four bins over the range from 0 to 1 the value
2^40 has the bin 3 by the formula of the claim, but its product with scl is
2^42, whose cast to int32 has no result, and compute_histogram has none. -/
theorem compute_histogram_cast_overflow :
    (0 : Int) < 4 ∧ (0 : ℚ) < 1 ∧
    bin_of 4 (0 : ℚ) 1 (2 ^ 40) = 3 ∧
    cast_int32 (((2 : ℚ) ^ 40 - 0) * (4 / (1 - 0))) = none ∧
    compute_histogram_range example_histogram 4 [2 ^ 40] 0 1 = none := by
  decide!

/-- C30 (amended): for num_bins > 0, a range min_val < max_val and data of
which every scaled value (v - min_val) * num_bins / (max_val - min_val) has an
integer part that is an int32, compute_histogram returns and leaves exactly
num_bins bins whose counts sum to data.count; bin b holds the number of values
v with clamp(trunc((v - min_val) * num_bins / (max_val - min_val)), 0,
num_bins - 1) = b, whatever the bins held before, and the other fields of the
histogram are unchanged. The overload without a range returns the histogram
untouched for empty data, and for data that is not empty it is the call with
the least and the greatest value of the data as the range. -/
theorem compute_histogram_counts {α : Type} [LinearOrderedField α] [FloorRing α]
    (E : Env α) (hist : Histogram α) (num_bins : Int) (data : List α) (min_val max_val : α)
    (hbins : 0 < num_bins) (hrange : min_val < max_val)
    (hfit : ∀ v ∈ data,
      -2 ^ 31 ≤ trunc ((v - min_val) * num_bins / (max_val - min_val)) ∧
      trunc ((v - min_val) * num_bins / (max_val - min_val)) < 2 ^ 31) :
    (∃ bins, compute_histogram_range hist num_bins data min_val max_val =
        some { hist with bins := bins } ∧
      bins.length = num_bins.toNat ∧ bins.sum = data.length ∧
      ∀ b : Nat, b < num_bins.toNat →
        bins[b]? = some ((data.countP
          (fun v => decide (bin_of num_bins min_val max_val v = b)) : Nat) : α)) ∧
    compute_histogram E hist num_bins [] = some hist ∧
    (∀ data1 : List α, data1 ≠ [] → (∀ v ∈ data1, -E.FLT_MAX ≤ v ∧ v ≤ E.FLT_MAX) →
      ∃ lo hi, lo ∈ data1 ∧ hi ∈ data1 ∧ (∀ v ∈ data1, lo ≤ v ∧ v ≤ hi) ∧
        compute_histogram E hist num_bins data1 =
          compute_histogram_range hist num_bins data1 lo hi) := by
  obtain ⟨bins, h1, h2, h3, h4⟩ :=
    compute_histogram_range_counts hist num_bins data min_val max_val hbins hrange hfit
  refine ⟨⟨bins, h1, h2, h3, ?_⟩, rfl, ?_⟩
  · intro b hb
    have := h4 b hb
    rw [List.take_length] at this
    exact this
  · intro data1 hne hfinite
    exact compute_histogram_range_of_data E hist num_bins data1 hne hfinite

/-- Witness of C30: seven values and four bins over the range from 0 to 1. -/
theorem compute_histogram_counts_witness :
    (∃ bins, compute_histogram_range example_histogram 4 example_data 0 1 =
        some { example_histogram with bins := bins } ∧
      bins.length = (4 : Int).toNat ∧ bins.sum = example_data.length ∧
      ∀ b : Nat, b < (4 : Int).toNat →
        bins[b]? = some ((example_data.countP
          (fun v => decide (bin_of 4 0 1 v = b)) : Nat) : ℚ)) ∧
    compute_histogram model_env_rat example_histogram 4 [] = some example_histogram :=
  have h := compute_histogram_counts model_env_rat example_histogram 4 example_data 0 1
    (by decide) (by decide!) (by decide!)
  ⟨h.1, h.2.1⟩

end stats
